import Mathlib

/-!
# ssvo: the grid-indexed reprojection tracker (`src/feature_tracker.cpp`)

A shallow embedding of `FeatureTracker` and the properties of one tracking pass
(`reprojectLoaclMap`).

Conventions of the embedding.

* `double` quantities are exact rationals (`ℚ`); `static_cast<int>` is truncation toward zero.
* A `MapPoint::Ptr` / `KeyFrame::Ptr` is its identity, a natural number; the landmark arena is a
  total map from identities to landmark records.
* `std::vector::at` throws on an index out of range: the functions that use it return `Option`,
  `none` standing for the exception.
* Classes that the tracker only consumes (camera, frame, keyframe, map point, patch aligner) are
  fields of `Env`, `Frame`, `Camera` and `MapPoint`.
* `State.calls` is a trace of the calls to `reprojectMapPoint` and `reprojectMapPointToCell`;
  no definition reads it.
-/

namespace ssvo

/-- Identity of a `MapPoint::Ptr`. -/
abbrev MapPointId := Nat

/-- Identity of a `KeyFrame::Ptr`; `std::set<KeyFrame::Ptr>` iterates in increasing identity. -/
abbrev KeyFrameId := Nat

/-- Eigen `Vector2d`. -/
structure Vector2d where
  x : ℚ
  y : ℚ
deriving DecidableEq

/-- Eigen `Vector3d`. -/
structure Vector3d where
  x : ℚ
  y : ℚ
  z : ℚ
deriving DecidableEq

/-- Eigen `Vector2i`. -/
structure Vector2i where
  x : Int
  y : Int
deriving DecidableEq

/-- The conversion `static_cast<int>` of a `double`: truncation toward zero. -/
def castInt (q : ℚ) : Int := if 0 ≤ q then ⌊q⌋ else ⌈q⌉

/-- Eigen `px.cast<int>()`. -/
def Vector2d.cast (v : Vector2d) : Vector2i := ⟨castInt v.x, castInt v.y⟩

/-- Eigen `v / c`. -/
def Vector2d.div (v : Vector2d) (c : ℚ) : Vector2d := ⟨v.x / c, v.y / c⟩

/-- Eigen `v * c`. -/
def Vector2d.mul (v : Vector2d) (c : ℚ) : Vector2d := ⟨v.x * c, v.y * c⟩

/-- The struct `Feature` of `feature.hpp`; `mpt` is `none` for a null pointer. -/
structure Feature where
  px : Vector2d
  ft : Vector3d
  mpt : Option MapPointId
  level : Nat
deriving DecidableEq

/-- The factory `Feature::create`; the `int` level is stored in a `uint8_t`. -/
def Feature.create (px : Vector2d) (fx : Vector3d) (level : Int) (mpt : Option MapPointId) :
    Feature :=
  ⟨px, fx, mpt, (level % 256).toNat⟩

/-- The pair `Candidate(point, px)` pushed into a grid cell. -/
structure Candidate where
  pt : MapPointId
  px : Vector2d
deriving DecidableEq

/-- Modelled from the spec: the landmark record (`map_point.hpp` is not in the sources). It has a
3D position, visibility and found counters and a bad flag. -/
structure MapPoint where
  pose : Vector3d
  n_visible : Int
  n_found : Int
  bad : Bool
deriving DecidableEq

/-- Modelled from the spec: `increaseVisible(n)` adds `n` to the visibility counter. -/
def MapPoint.increaseVisible (m : MapPoint) (n : Int) : MapPoint :=
  { m with n_visible := m.n_visible + n }

/-- Modelled from the spec: `increaseFound(n)` adds `n` to the found counter. -/
def MapPoint.increaseFound (m : MapPoint) (n : Int) : MapPoint :=
  { m with n_found := m.n_found + n }

/-- Modelled from the spec: the historical found-ratio, found counter over visibility counter. -/
def MapPoint.getFoundRatio (m : MapPoint) : ℚ := (m.n_found : ℚ) / (m.n_visible : ℚ)

/-- Modelled from the spec: `isBad()` reads the bad flag. -/
def MapPoint.isBad (m : MapPoint) : Bool := m.bad

/-- Modelled from the spec: the camera model (`camera.hpp` is not in the sources): image size,
projection and lifting. -/
structure Camera where
  width : Int
  height : Int
  project : Vector3d → Vector2d
  lift : Vector2d → Vector3d

/-- Modelled from the spec: `isInFrame(pixel, border)` reports whether the pixel lies inside the
frame bounds shrunk by the border on every side. -/
def Camera.isInFrame (cam : Camera) (obs : Vector2i) (boundary : Int) : Bool :=
  decide (boundary ≤ obs.x) && decide (obs.x < cam.width - boundary) &&
  decide (boundary ≤ obs.y) && decide (obs.y < cam.height - boundary)

/-- Modelled from the spec: a frame (`frame.hpp` is not in the sources): the world-to-camera
transform `Tcw()` acting on points, the camera, the reference keyframe and the features. -/
structure Frame where
  Tcw : Vector3d → Vector3d
  cam_ : Camera
  refKF : KeyFrameId
  features : List Feature

/-- Modelled from the spec: the landmark list accessor of a frame: the landmarks its features
observe. -/
def Frame.getMapPoints (f : Frame) : List MapPointId := f.features.filterMap (fun ft => ft.mpt)

/-- Modelled from the spec: `addFeature` appends a feature to the frame. -/
def Frame.addFeature (f : Frame) (ft : Feature) : Frame :=
  { f with features := f.features ++ [ft] }

/-- The member `options_`. -/
structure Options where
  border : Int
  max_matches : Int
  max_track_kfs : Nat
  num_align_iter : Int
  max_align_epsilon : ℚ
  max_align_error2 : ℚ

/-- The member `grid_`: `cells` holds the candidate list of every cell. -/
structure Grid where
  grid_size : Int
  grid_n_cols : Int
  grid_n_rows : Int
  cells : List (List Candidate)
  grid_order : List Nat
  occupied : List Bool

/-- A call recorded in the trace. -/
inductive Call where
  | reprojectMapPoint (mpt : MapPointId)
  | reprojectMapPointToCell (mpt : MapPointId)
deriving DecidableEq

/-- What a tracking pass reads and writes: the tracker members, the function-static
`frame_last`, the current frame, the landmark arena, the removals requested from keyframes
(`kf->removeMapPoint(mpt)`) and the call trace. -/
structure State where
  grid_ : Grid
  total_project_ : Int
  frame_last : Option Frame
  frame : Frame
  mappoints : MapPointId → MapPoint
  removeMapPoint_calls : List (KeyFrameId × MapPointId)
  calls : List Call

/-- What a tracking pass only reads: the options and the collaborators that are not in the
sources. `random_shuffle` is `std::random_shuffle`; `getMapPoints`, `getConnectedKeyFrames` and
`getSubConnectedKeyFrames` are the keyframe accessors; `getCloseViewObs` and `findObservation`
are the landmark lookups against the current frame; `align2DI` stands for the warp of the
reference patch followed by `AlignPatch::align2DI` (convergence flag and refined estimate);
`zssd_score` for the interpolation of the current patch followed by `ZSSD::compute_score`;
`Area` is `AlignPatch::Area`. -/
structure Env where
  options_ : Options
  random_shuffle : List Nat → List Nat
  getMapPoints : KeyFrameId → List MapPointId
  getConnectedKeyFrames : KeyFrameId → Nat → List KeyFrameId
  getSubConnectedKeyFrames : KeyFrameId → Nat → List KeyFrameId
  getCloseViewObs : MapPointId → Option (KeyFrameId × Int)
  findObservation : MapPointId → KeyFrameId → Option Feature
  align2DI : MapPointId → KeyFrameId → Feature → Int → Vector2d → Bool × Vector2d
  zssd_score : MapPointId → KeyFrameId → Feature → Int → Vector2d → ℚ
  Area : Int

/-- The checked access `v.at(k)` with an `int` index. -/
def vectorAt {α : Type} (v : List α) (k : Int) : Option α :=
  if 0 ≤ k then v[k.toNat]? else none

/-- The checked write `v.at(k) = a` with an `int` index. -/
def vectorSetAt {α : Type} (v : List α) (k : Int) (a : α) : Option (List α) :=
  if 0 ≤ k ∧ k.toNat < v.length then some (v.set k.toNat a) else none

/-- Insertion into a `std::set` of identities, kept in increasing order without repetition. -/
def setInsert (k : Nat) : List Nat → List Nat
  | [] => [k]
  | a :: l => if k < a then k :: a :: l else if k = a then a :: l else a :: setInsert k l

/-- The value of an `int` expression whose mathematical value is `z`: the result is reduced
into the 32-bit two-complement range `[-2^31, 2^31)`. -/
def wrapInt32 (z : Int) : Int :=
  (z + 2147483648) % 4294967296 - 2147483648

/-- The constructor `FeatureTracker::FeatureTracker`: the grid part. The shuffle of the initial
visit order is the injected `shuffle`. The parameters are `int` values; for a positive
`grid_size` the two rounded quotients fit an `int`. The cell count `grid_n_rows*grid_n_cols` is
an `int` product; a negative count, converted to `size_t`, exceeds `max_size()` and makes
`resize` throw, which is the result `none`. -/
def Grid.init (shuffle : List Nat → List Nat) (width height grid_size : Int) : Option Grid :=
  let grid_n_cols : Int := ⌈(width : ℚ) / (grid_size : ℚ)⌉
  let grid_n_rows : Int := ⌈(height : ℚ) / (grid_size : ℚ)⌉
  let n : Int := wrapInt32 (grid_n_rows * grid_n_cols)
  if n < 0 then none
  else
    some
      { grid_size := grid_size
        grid_n_cols := grid_n_cols
        grid_n_rows := grid_n_rows
        cells := List.replicate n.toNat []
        grid_order := shuffle (List.range n.toNat)
        occupied := List.replicate n.toNat false }

/-- The constructor `FeatureTracker::FeatureTracker`: the options part. -/
def Options.init (border : Int) (maxTrackKeyFrames : Nat) : Options :=
  { border := border
    max_matches := 200
    max_track_kfs := maxTrackKeyFrames
    num_align_iter := 30
    max_align_epsilon := 1 / 100
    max_align_error2 := 3 }

/-- The cell index `const int k` of a pixel, as computed in `reprojectMapPointToCell` and
`matchMapPointsFromLastFrame`: an `int` product and an `int` sum. -/
def Grid.cellIndex (g : Grid) (px : Vector2d) : Int :=
  wrapInt32 (wrapInt32 (castInt (px.y / (g.grid_size : ℚ)) * g.grid_n_cols) +
    castInt (px.x / (g.grid_size : ℚ)))

/-- The method `FeatureTracker::resetGrid`. -/
def resetGrid (env : Env) (s : State) : State :=
  { s with grid_ :=
    { s.grid_ with
      cells := s.grid_.cells.map (fun _ => [])
      grid_order := env.random_shuffle s.grid_.grid_order
      occupied := s.grid_.occupied.map (fun _ => false) } }

/-- The method `FeatureTracker::reprojectMapPoint`: result, `px_cur` and `level_cur` after the
call. -/
def reprojectMapPoint (env : Env) (mpt : MapPointId) (px_cur : Vector2d) (level_cur : Int) :
    Int × Vector2d × Int :=
  let TH_SSD : Int := castInt ((env.Area : ℚ) * env.options_.max_align_error2)
  match env.getCloseViewObs mpt with
  | none => (-1, px_cur, level_cur)
  | some (kf_ref, level_cur) =>
    match env.findObservation mpt kf_ref with
    | none => (-1, px_cur, level_cur)
    | some ft_ref =>
      let factor : ℚ := 2 ^ level_cur.toNat
      let estimate := px_cur.div factor
      let r := env.align2DI mpt kf_ref ft_ref level_cur estimate
      if !r.1 then (0, px_cur, level_cur)
      else if env.zssd_score mpt kf_ref ft_ref level_cur r.2 > (TH_SSD : ℚ) then
        (0, px_cur, level_cur)
      else (1, r.2.mul factor, level_cur)

/-- The method `mpt->increaseVisible(n)` on the arena. -/
def State.increaseVisible (s : State) (mpt : MapPointId) (n : Int) : State :=
  { s with mappoints := Function.update s.mappoints mpt ((s.mappoints mpt).increaseVisible n) }

/-- The method `mpt->increaseFound(n)` on the arena. -/
def State.increaseFound (s : State) (mpt : MapPointId) (n : Int) : State :=
  { s with mappoints := Function.update s.mappoints mpt ((s.mappoints mpt).increaseFound n) }

/-- The method `frame->addFeature(ft)` on the current frame. -/
def State.addFeature (s : State) (ft : Feature) : State :=
  { s with frame := s.frame.addFeature ft }

/-- Records a call in the trace. -/
def State.record (s : State) (c : Call) : State :=
  { s with calls := s.calls ++ [c] }

/-- The method `FeatureTracker::reprojectMapPointToCell`. -/
def reprojectMapPointToCell (env : Env) (s : State) (point : MapPointId) :
    Option (Bool × State) :=
  let s := s.record (Call.reprojectMapPointToCell point)
  let pose := s.frame.Tcw (s.mappoints point).pose
  if pose.z < 0 then some (false, s)
  else
    let px := s.frame.cam_.project pose
    if !s.frame.cam_.isInFrame px.cast env.options_.border then some (false, s)
    else
      let k := s.grid_.cellIndex px
      match vectorAt s.grid_.occupied k with
      | none => none
      | some true => some (false, s)
      | some false =>
        match vectorAt s.grid_.cells k with
        | none => none
        | some cell =>
          some (true, { s with grid_ :=
            { s.grid_ with cells := s.grid_.cells.set k.toNat (cell ++ [⟨point, px⟩]) } })

/-- The comparator handed to `cell.sort` in `matchMapPointsFromCell`. -/
def candidateBefore (mp : MapPointId → MapPoint) (c1 c2 : Candidate) : Prop :=
  (mp c1.pt).getFoundRatio > (mp c2.pt).getFoundRatio

instance candidateBeforeDecidable (mp : MapPointId → MapPoint) :
    DecidableRel (candidateBefore mp) :=
  fun c1 c2 => inferInstanceAs (Decidable ((mp c1.pt).getFoundRatio > (mp c2.pt).getFoundRatio))

/-- The call `cell.sort(comp)`: `std::list::sort` is stable, so an element stays in front of a
later one unless the comparator puts the later one first. -/
def sortCell (mp : MapPointId → MapPoint) (cell : List Candidate) : List Candidate :=
  cell.insertionSort (fun c1 c2 => ¬ candidateBefore mp c2 c1)

/-- The body of the loop of `matchMapPointsFromCell` for one candidate: the flag is true when the
function returns true there, false when the loop continues with the next candidate. -/
def matchMapPointsFromCell.body (env : Env) (candidate : Candidate) (s : State) : Bool × State :=
  let s := { s with total_project_ := s.total_project_ + 1 }
  let mpt := candidate.pt
  let s := s.record (Call.reprojectMapPoint mpt)
  let r := reprojectMapPoint env mpt candidate.px 0
  let s := s.increaseVisible mpt (r.1 + 1)
  if r.1 ≠ 1 then (false, s)
  else
    let px_cur := r.2.1
    let ft_cur := s.frame.cam_.lift px_cur
    let new_feature := Feature.create px_cur ft_cur r.2.2 (some mpt)
    let s := s.addFeature new_feature
    let s := s.increaseFound mpt 2
    (true, s)

/-- The loop of `matchMapPointsFromCell` over the sorted cell. -/
def matchMapPointsFromCell.loop (env : Env) : List Candidate → State → Bool × State
  | [], s => (false, s)
  | candidate :: rest, s =>
    let r := matchMapPointsFromCell.body env candidate s
    if r.1 then (true, r.2) else matchMapPointsFromCell.loop env rest r.2

/-- The method `FeatureTracker::matchMapPointsFromCell` on the cell `grid_.cells[index]`: the
cell is sorted in place, then scanned. -/
def matchMapPointsFromCell (env : Env) (s : State) (index : Nat) : Bool × State :=
  let cell := sortCell s.mappoints (s.grid_.cells.getD index [])
  let s := { s with grid_ := { s.grid_ with cells := s.grid_.cells.set index cell } }
  matchMapPointsFromCell.loop env cell s

/-- The body of the loop of `matchMapPointsFromLastFrame` for one landmark of the last frame. -/
def matchMapPointsFromLastFrame.body (env : Env) (mpt : MapPointId) (matches_count : Int)
    (s : State) : Option (Int × State) :=
  let mpt_cur := s.frame.Tcw (s.mappoints mpt).pose
  if mpt_cur.z < 0 then some (matches_count, s)
  else
    let px_cur := s.frame.cam_.project mpt_cur
    if !s.frame.cam_.isInFrame px_cur.cast env.options_.border then some (matches_count, s)
    else
      let s := { s with total_project_ := s.total_project_ + 1 }
      let s := s.record (Call.reprojectMapPoint mpt)
      let r := reprojectMapPoint env mpt px_cur 0
      let s := s.increaseVisible mpt (r.1 + 1)
      if r.1 ≠ 1 then some (matches_count, s)
      else
        let px_cur := r.2.1
        let ft_cur := s.frame.cam_.lift px_cur
        let new_feature := Feature.create px_cur ft_cur r.2.2 (some mpt)
        let s := s.addFeature new_feature
        let s := s.increaseFound mpt 2
        let k := s.grid_.cellIndex px_cur
        match vectorSetAt s.grid_.occupied k true with
        | none => none
        | some occupied =>
          some (matches_count + 1, { s with grid_ := { s.grid_ with occupied := occupied } })

/-- The loop of `matchMapPointsFromLastFrame`. -/
def matchMapPointsFromLastFrame.loop (env : Env) :
    List MapPointId → Int → State → Option (Int × State)
  | [], matches_count, s => some (matches_count, s)
  | mpt :: rest, matches_count, s =>
    match matchMapPointsFromLastFrame.body env mpt matches_count s with
    | none => none
    | some r => matchMapPointsFromLastFrame.loop env rest r.1 r.2

/-- The method `FeatureTracker::matchMapPointsFromLastFrame`; the current frame is `s.frame`. -/
def matchMapPointsFromLastFrame (env : Env) (s : State) (frame_last : Option Frame) :
    Option (Int × State) :=
  match frame_last with
  | none => some (0, s)
  | some fl => matchMapPointsFromLastFrame.loop env fl.getMapPoints 0 s

/-- The local keyframes of `reprojectLoaclMap`: the connected keyframes, the reference keyframe
and, under the cap, the sub-connected keyframes, as a `std::set`. -/
def localKeyFrames (env : Env) (refKF : KeyFrameId) : List KeyFrameId :=
  let local_keyframes :=
    (env.getConnectedKeyFrames refKF env.options_.max_track_kfs).foldl
      (fun acc kf => setInsert kf acc) []
  let local_keyframes := setInsert refKF local_keyframes
  if local_keyframes.length < env.options_.max_track_kfs then
    (env.getSubConnectedKeyFrames refKF
      (env.options_.max_track_kfs - local_keyframes.length)).foldl
      (fun acc kf => setInsert kf acc) local_keyframes
  else local_keyframes

/-- The body of the inner loop of the local-map assembly of `reprojectLoaclMap`, for the landmark
`mpt` of the keyframe `kf`; `local_mpts` is threaded with the state. -/
def assembleLocalMap.body (env : Env) (last_mpts_set : List MapPointId) (kf : KeyFrameId)
    (mpt : MapPointId) (local_mpts : List MapPointId) (s : State) :
    Option (List MapPointId × State) :=
  if mpt ∈ local_mpts ∨ mpt ∈ last_mpts_set then some (local_mpts, s)
  else
    let local_mpts := mpt :: local_mpts
    if (s.mappoints mpt).isBad then
      some (local_mpts,
        { s with removeMapPoint_calls := s.removeMapPoint_calls ++ [(kf, mpt)] })
    else
      match reprojectMapPointToCell env s mpt with
      | none => none
      | some r => some (local_mpts, r.2)

/-- The inner loop of the local-map assembly: the landmarks of one keyframe. -/
def assembleLocalMap.inner (env : Env) (last_mpts_set : List MapPointId) (kf : KeyFrameId) :
    List MapPointId → List MapPointId → State → Option (List MapPointId × State)
  | [], local_mpts, s => some (local_mpts, s)
  | mpt :: rest, local_mpts, s =>
    match assembleLocalMap.body env last_mpts_set kf mpt local_mpts s with
    | none => none
    | some r => assembleLocalMap.inner env last_mpts_set kf rest r.1 r.2

/-- The outer loop of the local-map assembly: the local keyframes. -/
def assembleLocalMap (env : Env) (last_mpts_set : List MapPointId) :
    List KeyFrameId → List MapPointId → State → Option (List MapPointId × State)
  | [], local_mpts, s => some (local_mpts, s)
  | kf :: rest, local_mpts, s =>
    match assembleLocalMap.inner env last_mpts_set kf (env.getMapPoints kf) local_mpts s with
    | none => none
    | some r => assembleLocalMap env last_mpts_set rest r.1 r.2

/-- The grid scan of `reprojectLoaclMap`: the loop over `grid_.grid_order`. -/
def gridScan (env : Env) (max_matches_rest : Int) :
    List Nat → Int → State → Option (Int × State)
  | [], matches_from_cell, s => some (matches_from_cell, s)
  | index :: rest, matches_from_cell, s =>
    match vectorAt s.grid_.occupied (index : Int) with
    | none => none
    | some true => gridScan env max_matches_rest rest matches_from_cell s
    | some false =>
      let r := matchMapPointsFromCell env s index
      let matches_from_cell := if r.1 then matches_from_cell + 1 else matches_from_cell
      if matches_from_cell > max_matches_rest then some (matches_from_cell, r.2)
      else gridScan env max_matches_rest rest matches_from_cell r.2

/-- The set `last_mpts_set` of `reprojectLoaclMap`. -/
def lastMptsSet (frame_last : Option Frame) : List MapPointId :=
  match frame_last with
  | none => []
  | some fl => fl.getMapPoints

/-- The method `FeatureTracker::reprojectLoaclMap` on the current frame `s.frame`: the returned
count and the state after the pass. Without a last frame the guard `if(frame_last)` leaves
`matches_from_frame` at 0 and `last_mpts_set` empty, which is what `matchMapPointsFromLastFrame`
and `lastMptsSet` give on `none`. -/
def reprojectLoaclMap (env : Env) (s : State) : Option (Int × State) :=
  let frame_last := s.frame_last
  let s := resetGrid env s
  match matchMapPointsFromLastFrame env s frame_last with
  | none => none
  | some (matches_from_frame, s) =>
    let last_mpts_set := lastMptsSet frame_last
    let local_keyframes := localKeyFrames env s.frame.refKF
    match assembleLocalMap env last_mpts_set local_keyframes [] s with
    | none => none
    | some (_, s) =>
      let max_matches_rest := env.options_.max_matches - matches_from_frame
      let s := { s with total_project_ := 0 }
      match gridScan env max_matches_rest s.grid_.grid_order 0 s with
      | none => none
      | some (matches_from_cell, s) =>
        some (matches_from_frame + matches_from_cell, { s with frame_last := some s.frame })

/-- The elements appended to `l` to give `l'`. -/
def appended {α : Type} (l l' : List α) : List α := l'.drop l.length

/-- How a state may change inside a tracking pass after the grid reset: the trace, the features
and the removal requests only grow, every new call satisfies `Pc`, every new removal request
satisfies `Pr`, a feature is only added for a landmark handed to `reprojectMapPoint`, a landmark
record only changes when the landmark is handed to `reprojectMapPoint`, occupancy flags are only
ever set, and the rest is left alone. -/
structure Evolves (Pc : Call → Prop) (Pr : KeyFrameId × MapPointId → Prop) (s s' : State) :
    Prop where
  calls_prefix : s.calls <+: s'.calls
  calls_new : ∀ c ∈ appended s.calls s'.calls, Pc c
  features_prefix : s.frame.features <+: s'.frame.features
  features_new : ∀ f ∈ appended s.frame.features s'.frame.features,
    ∃ m, f.mpt = some m ∧ Call.reprojectMapPoint m ∈ appended s.calls s'.calls
  removals_prefix : s.removeMapPoint_calls <+: s'.removeMapPoint_calls
  removals_new : ∀ r ∈ appended s.removeMapPoint_calls s'.removeMapPoint_calls, Pr r
  pose_eq : ∀ m, (s'.mappoints m).pose = (s.mappoints m).pose
  bad_eq : ∀ m, (s'.mappoints m).bad = (s.mappoints m).bad
  counters : ∀ m, s'.mappoints m ≠ s.mappoints m →
    Call.reprojectMapPoint m ∈ appended s.calls s'.calls
  Tcw_eq : s'.frame.Tcw = s.frame.Tcw
  cam_eq : s'.frame.cam_ = s.frame.cam_
  refKF_eq : s'.frame.refKF = s.frame.refKF
  frame_last_eq : s'.frame_last = s.frame_last
  grid_size_eq : s'.grid_.grid_size = s.grid_.grid_size
  grid_n_cols_eq : s'.grid_.grid_n_cols = s.grid_.grid_n_cols
  grid_n_rows_eq : s'.grid_.grid_n_rows = s.grid_.grid_n_rows
  grid_order_eq : s'.grid_.grid_order = s.grid_.grid_order
  cells_length : s'.grid_.cells.length = s.grid_.cells.length
  occupied_length : s'.grid_.occupied.length = s.grid_.occupied.length
  occupied_mono : ∀ k : Nat, s.grid_.occupied[k]? = some true → s'.grid_.occupied[k]? = some true

/-- The geometric test shared by the fast path and `reprojectMapPointToCell`: the landmark is
not behind the camera of the current frame and its projection is inside the frame shrunk by the
border. -/
def inView (env : Env) (s : State) (m : MapPointId) : Prop :=
  ¬ (s.frame.Tcw (s.mappoints m).pose).z < 0 ∧
  s.frame.cam_.isInFrame (s.frame.cam_.project (s.frame.Tcw (s.mappoints m).pose)).cast
    env.options_.border = true

/-- The landmarks of all candidates of the grid, cell after cell. -/
def cellPts (s : State) : List MapPointId := s.grid_.cells.flatten.map (fun c => c.pt)

/-- What the local-map assembly maintains, `s0` being the state it started from with an empty
`local_mpts`: new calls are calls of `reprojectMapPointToCell`, one per landmark, on landmarks
of `local_mpts`, outside the last frame and not bad; new removal requests concern bad landmarks
of the keyframe they are sent to; occupancy is untouched; the candidates of the grid are distinct
landmarks of `local_mpts`, in view, outside the last frame and not bad. -/
structure AssembleInv (env : Env) (L : List MapPointId) (kfs : List KeyFrameId) (s0 : State)
    (loc : List MapPointId) (s : State) : Prop where
  evolves : Evolves
    (fun c => ∃ x, c = Call.reprojectMapPointToCell x ∧ x ∉ L ∧ (s0.mappoints x).bad = false)
    (fun r => r.1 ∈ kfs ∧ r.2 ∈ env.getMapPoints r.1 ∧ r.2 ∉ L ∧ (s0.mappoints r.2).bad = true)
    s0 s
  occupied_eq : s.grid_.occupied = s0.grid_.occupied
  calls_nodup : (appended s0.calls s.calls).Nodup
  calls_local : ∀ x, Call.reprojectMapPointToCell x ∈ appended s0.calls s.calls → x ∈ loc
  cells_nodup : (cellPts s).Nodup
  cells_local : ∀ x ∈ cellPts s,
    x ∈ loc ∧ x ∉ L ∧ (s0.mappoints x).bad = false ∧ inView env s0 x
  local_called : ∀ x ∈ loc, (s0.mappoints x).bad = false →
    Call.reprojectMapPointToCell x ∈ appended s0.calls s.calls

/-- What the grid scan maintains, `s0` and `m0` being the state and the count it started from:
new calls are calls of `reprojectMapPoint` on candidates of the grid, no removal is requested,
occupancy is untouched, every cell keeps its candidates up to order, and the count grows by the
number of features added. -/
structure GridInv (s0 : State) (m0 : Int) (m : Int) (s : State) : Prop where
  evolves : Evolves (fun c => ∃ x ∈ cellPts s0, c = Call.reprojectMapPoint x) (fun _ => False)
    s0 s
  occupied_eq : s.grid_.occupied = s0.grid_.occupied
  cells_perm : ∀ k, (s.grid_.cells.getD k []).Perm (s0.grid_.cells.getD k [])
  cellPts_perm : (cellPts s).Perm (cellPts s0)
  count_le : m0 ≤ m
  count_eq : (s.frame.features.length : Int) = s0.frame.features.length + (m - m0)

/-- What the fast path maintains, `s0` and `m0` being the state and the count it started from
and `l` the landmarks of the last frame: new calls are calls of `reprojectMapPoint` on landmarks
of `l` that are in view, no removal is requested, the cells are untouched, the count grows by
the number of features added, and every feature added observes a landmark of `l` and has its
cell marked occupied. -/
structure FastInv (env : Env) (l : List MapPointId) (s0 : State) (m0 : Int) (m : Int)
    (s : State) : Prop where
  evolves : Evolves (fun c => ∃ x ∈ l, inView env s0 x ∧ c = Call.reprojectMapPoint x)
    (fun _ => False) s0 s
  cells_eq : s.grid_.cells = s0.grid_.cells
  count_le : m0 ≤ m
  count_eq : (s.frame.features.length : Int) = s0.frame.features.length + (m - m0)
  features_new : ∀ f ∈ appended s0.frame.features s.frame.features,
    (∃ x ∈ l, f.mpt = some x) ∧
      vectorAt s.grid_.occupied (s0.grid_.cellIndex f.px) = some true
  occupied_only : ∀ k : Nat, s.grid_.occupied[k]? = some true →
    s0.grid_.occupied[k]? = some true ∨
      ∃ f ∈ appended s0.frame.features s.frame.features, s0.grid_.cellIndex f.px = (k : Int)

/-- The stages of a tracking pass that returns `n` in the state `s'`: the fast path returns `F`
in the state `sF`, the local-map assembly ends with `local_mpts = loc` in the state `sA`, the grid
scan returns `G` in the state `sG`. -/
structure PassRun (env : Env) (s : State) (n : Int) (s' : State) (F : Int) (sF : State)
    (loc : List MapPointId) (sA : State) (G : Int) (sG : State) : Prop where
  fast_eq : matchMapPointsFromLastFrame env (resetGrid env s) s.frame_last = some (F, sF)
  fast : FastInv env (lastMptsSet s.frame_last) (resetGrid env s) 0 F sF
  assemble_eq : assembleLocalMap env (lastMptsSet s.frame_last)
    (localKeyFrames env sF.frame.refKF) [] sF = some (loc, sA)
  assemble : AssembleInv env (lastMptsSet s.frame_last) (localKeyFrames env sF.frame.refKF)
    sF loc sA
  scan_eq : gridScan env (env.options_.max_matches - F) sA.grid_.grid_order 0
    { sA with total_project_ := 0 } = some (G, sG)
  scan : GridInv { sA with total_project_ := 0 } 0 G sG
  count_eq : n = F + G
  state_eq : s' = { sG with frame_last := some sG.frame }

/-- An example camera: a 4 x 2 image, the projection keeps the first two coordinates. -/
def exampleCamera : Camera :=
  { width := 4, height := 2, project := fun p => ⟨p.x, p.y⟩, lift := fun p => ⟨p.x, p.y, 1⟩ }

/-- An example frame with the identity pose and the given features. -/
def exampleFrame (features : List Feature) : Frame :=
  { Tcw := fun p => p, cam_ := exampleCamera, refKF := 0, features := features }

/-- An example feature observing the landmark `i`. -/
def exampleFeature (i : MapPointId) : Feature :=
  { px := ⟨(i : ℚ) + 1 / 2, 1 / 2⟩, ft := ⟨(i : ℚ) + 1 / 2, 1 / 2, 1⟩, mpt := some i, level := 0 }

/-- An example landmark arena: the landmark `i` lies over the pixel `(i + 1/2, 1/2)`, so that
with unit cells it falls into the cell `i` for `i < 4` and outside the image otherwise. -/
def exampleMapPoint (i : MapPointId) : MapPoint :=
  { pose := ⟨(i : ℚ) + 1 / 2, 1 / 2, 1⟩, n_visible := 1, n_found := 1, bad := false }

/-- An example environment with the options set by the constructor (match budget 200), one
local keyframe (the reference keyframe `0`) observing the landmarks `kfMpts`, an identity
shuffle, and a patch aligner that accepts every landmark at its predicted pixel. -/
def exampleEnv (kfMpts : List MapPointId) : Env :=
  { options_ := Options.init 0 3
    random_shuffle := fun l => l
    getMapPoints := fun kf => if kf = 0 then kfMpts else []
    getConnectedKeyFrames := fun _ _ => []
    getSubConnectedKeyFrames := fun _ _ => []
    getCloseViewObs := fun _ => some (0, 0)
    findObservation := fun m _ => some (exampleFeature m)
    align2DI := fun _ _ _ _ estimate => (true, estimate)
    zssd_score := fun _ _ _ _ _ => 0
    Area := 64 }

/-- The example grid: the 4 x 2 grid of unit cells that the constructor builds for a 4 x 2
image with grid size 1 and an identity shuffle. -/
def exampleGrid : Grid :=
  match Grid.init (fun l => l) 4 2 1 with
  | some g => g
  | none =>
    { grid_size := 1, grid_n_cols := 0, grid_n_rows := 0, cells := [], grid_order := []
      occupied := [] }

/-- An example state before a pass: a 4 x 2 grid of unit cells as built by the constructor, the
given last frame, and a current frame without features. -/
def exampleState (frame_last : Option Frame) : State :=
  { grid_ := exampleGrid
    total_project_ := 0
    frame_last := frame_last
    frame := exampleFrame []
    mappoints := exampleMapPoint
    removeMapPoint_calls := []
    calls := [] }

/-- A crowded example arena: the landmarks below 200 all lie over the pixel `(1/2, 1/2)` of cell
0, the landmark 200 lies over cell 1 and the landmark 201 over cell 2. -/
def exampleMapPointCrowd (i : MapPointId) : MapPoint :=
  { pose := ⟨if i < 200 then 1 / 2 else ((i : ℚ) - 199) + 1 / 2, 1 / 2, 1⟩
    n_visible := 1, n_found := 1, bad := false }

/-- The example state over the crowded arena, after a last frame that observed the landmarks
below `k`. -/
def exampleStateCrowd (k : Nat) : State :=
  { exampleState (some (exampleFrame ((List.range k).map exampleFeature))) with
    mappoints := exampleMapPointCrowd }

/-- The calls a tracking pass can make, `L` being the landmarks of the last frame and `pts` the
landmarks of the candidates of the grid: a fast-path attempt on a landmark of `L` in view, a
projection to a cell of a landmark outside `L` that is not bad, or a grid-scan attempt on a
candidate. -/
def PassCall (env : Env) (s : State) (pts : List MapPointId) (c : Call) : Prop :=
  (∃ x ∈ lastMptsSet s.frame_last, inView env s x ∧ c = Call.reprojectMapPoint x) ∨
  (∃ x, c = Call.reprojectMapPointToCell x ∧ x ∉ lastMptsSet s.frame_last ∧
    (s.mappoints x).bad = false) ∨
  (∃ x ∈ pts, c = Call.reprojectMapPoint x)

/-- The number of features of `fs` that observe a landmark of a candidate of `cell`: the matches
credited to the cell among `fs`. -/
def gridCredits (cell : List Candidate) (fs : List Feature) : Nat :=
  fs.countP (fun f => cell.any (fun c => decide (f.mpt = some c.pt)))

/-- A denser example arena: the landmark `i` lies over the pixel `(i/2 + 1/4, 1/2)`, so that
with unit cells the landmarks `2 j` and `2 j + 1` fall into the same cell `j`. -/
def exampleMapPointDense (i : MapPointId) : MapPoint :=
  { pose := ⟨(i : ℚ) / 2 + 1 / 4, 1 / 2, 1⟩, n_visible := 1, n_found := 1, bad := false }

/-- The example state over the denser arena. -/
def exampleStateDense (frame_last : Option Frame) : State :=
  { exampleState frame_last with mappoints := exampleMapPointDense }

/-- The example environment with a patch aligner that converges exactly on the landmarks
selected by `accept`. -/
def exampleEnvSelective (accept : MapPointId → Bool) : Env :=
  { exampleEnv [] with align2DI := fun m _ _ _ estimate => (accept m, estimate) }

/-- The example environment where no landmark has a close-view observation. -/
def exampleEnvNoView : Env :=
  { exampleEnv [] with getCloseViewObs := fun _ => none }

/-- An example arena with found-ratios 9/10, 3/10 and 6/10 for the landmarks 0, 1 and 2. -/
def exampleMapPointRated (i : MapPointId) : MapPoint :=
  { pose := ⟨1 / 2, 1 / 2, 1⟩, n_visible := 10
    n_found := if i = 0 then 9 else if i = 1 then 3 else 6, bad := false }

/-- An example state whose cell 0 holds candidates for the landmarks 0, 1 and 2, in this order,
with found-ratios 9/10, 3/10 and 6/10. -/
def exampleStateCell : State :=
  { exampleState none with
    grid_ := { exampleGrid with
      cells := exampleGrid.cells.set 0
        [⟨0, ⟨1 / 2, 1 / 2⟩⟩, ⟨1, ⟨1 / 2, 1 / 2⟩⟩, ⟨2, ⟨1 / 2, 1 / 2⟩⟩] }
    mappoints := exampleMapPointRated }

/-- The removal requests of a list that concern the landmark `m`. -/
def removalsOf (m : MapPointId) (l : List (KeyFrameId × MapPointId)) :
    List (KeyFrameId × MapPointId) :=
  l.filter (fun r => decide (r.2 = m))

/-- The removal requests that the local-map assembly over the keyframes `kfs` makes for a bad
landmark `m`: none when `m` is a landmark of the last frame, otherwise one, from the first
keyframe of `kfs` that observes `m`. -/
def expectedRemovals (env : Env) (L : List MapPointId) (kfs : List KeyFrameId)
    (m : MapPointId) : List (KeyFrameId × MapPointId) :=
  if m ∈ L then []
  else ((kfs.find? (fun kf => decide (m ∈ env.getMapPoints kf))).toList).map (fun kf => (kf, m))

/-- The example environment with two local keyframes, the reference keyframe 0 and its
connected keyframe 1, that both observe the landmark 0. -/
def exampleEnvTwoKeyFrames : Env :=
  { exampleEnv [] with
    getMapPoints := fun _ => [0]
    getConnectedKeyFrames := fun _ _ => [1] }

/-- The example state over an arena where the landmark 0 is flagged bad. -/
def exampleStateBad (frame_last : Option Frame) : State :=
  { exampleState frame_last with
    mappoints := fun i => { exampleMapPoint i with bad := decide (i = 0) } }

/-- The example state after a last frame that observed the landmarks 0 and 1. -/
def exampleStateTracked : State :=
  exampleState (some (exampleFrame [exampleFeature 0, exampleFeature 1]))

/-- The example environment with two local keyframes that both observe the landmark 2. -/
def exampleEnvShared : Env :=
  { exampleEnvTwoKeyFrames with getMapPoints := fun _ => [2] }

/-- An example arena at the left edge of the image: the landmark `i` lies over the pixel
`(i - 1/2, 1/2)`, so that the landmark 0 projects to the pixel `(-1/2, 1/2)`, left of the image. -/
def exampleMapPointEdge (i : MapPointId) : MapPoint :=
  { pose := ⟨(i : ℚ) - 1 / 2, 1 / 2, 1⟩, n_visible := 1, n_found := 1, bad := false }

/-- The example state over the arena at the left edge of the image. -/
def exampleStateEdge (frame_last : Option Frame) : State :=
  { exampleState frame_last with mappoints := exampleMapPointEdge }

/-! ## Auxiliary lemmas -/

theorem exampleGrid_init :
    (Grid.init (fun l => l) 4 2 1).isSome = true ∧
    (exampleGrid.grid_size, exampleGrid.grid_n_cols, exampleGrid.grid_n_rows) = (1, 4, 2) ∧
    exampleGrid.cells = List.replicate 8 [] ∧
    exampleGrid.grid_order = List.range 8 ∧
    exampleGrid.occupied = List.replicate 8 false := by
  exact ⟨by decide!, by decide!, by decide!, by decide!, by decide!⟩

theorem appended_self {α : Type} (l : List α) : appended l l = [] := by
  simp [appended]

theorem appended_append {α : Type} (l n : List α) : appended l (l ++ n) = n := by
  simp [appended]

theorem appended_trans {α : Type} {l1 l2 l3 : List α} (h12 : l1 <+: l2) (h23 : l2 <+: l3) :
    appended l1 l3 = appended l1 l2 ++ appended l2 l3 := by
  obtain ⟨a, rfl⟩ := h12
  obtain ⟨b, rfl⟩ := h23
  simp [appended, List.append_assoc]

theorem eq_append_appended {α : Type} {l l' : List α} (h : l <+: l') : l' = l ++ appended l l' := by
  obtain ⟨a, rfl⟩ := h
  simp [appended]

theorem Evolves.refl (Pc : Call → Prop) (Pr : KeyFrameId × MapPointId → Prop) (s : State) :
    Evolves Pc Pr s s := by
  constructor <;> simp [appended_self]

theorem Evolves.trans {Pc : Call → Prop} {Pr : KeyFrameId × MapPointId → Prop} {s1 s2 s3 : State}
    (h12 : Evolves Pc Pr s1 s2) (h23 : Evolves Pc Pr s2 s3) : Evolves Pc Pr s1 s3 := by
  have hc := appended_trans h12.calls_prefix h23.calls_prefix
  have hf := appended_trans h12.features_prefix h23.features_prefix
  have hr := appended_trans h12.removals_prefix h23.removals_prefix
  constructor
  · exact h12.calls_prefix.trans h23.calls_prefix
  · intro c hmem
    rw [hc, List.mem_append] at hmem
    exact hmem.elim (h12.calls_new c) (h23.calls_new c)
  · exact h12.features_prefix.trans h23.features_prefix
  · intro f hmem
    rw [hf, List.mem_append] at hmem
    rw [hc]
    rcases hmem with hmem | hmem
    · obtain ⟨m, h1, h2⟩ := h12.features_new f hmem
      exact ⟨m, h1, List.mem_append_left _ h2⟩
    · obtain ⟨m, h1, h2⟩ := h23.features_new f hmem
      exact ⟨m, h1, List.mem_append_right _ h2⟩
  · exact h12.removals_prefix.trans h23.removals_prefix
  · intro r hmem
    rw [hr, List.mem_append] at hmem
    exact hmem.elim (h12.removals_new r) (h23.removals_new r)
  · intro m; rw [h23.pose_eq, h12.pose_eq]
  · intro m; rw [h23.bad_eq, h12.bad_eq]
  · intro m hne
    rw [hc]
    by_cases h : s2.mappoints m = s1.mappoints m
    · exact List.mem_append_right _ (h23.counters m (by rw [h]; exact hne))
    · exact List.mem_append_left _ (h12.counters m h)
  · rw [h23.Tcw_eq, h12.Tcw_eq]
  · rw [h23.cam_eq, h12.cam_eq]
  · rw [h23.refKF_eq, h12.refKF_eq]
  · rw [h23.frame_last_eq, h12.frame_last_eq]
  · rw [h23.grid_size_eq, h12.grid_size_eq]
  · rw [h23.grid_n_cols_eq, h12.grid_n_cols_eq]
  · rw [h23.grid_n_rows_eq, h12.grid_n_rows_eq]
  · rw [h23.grid_order_eq, h12.grid_order_eq]
  · rw [h23.cells_length, h12.cells_length]
  · rw [h23.occupied_length, h12.occupied_length]
  · intro k hk
    exact h23.occupied_mono k (h12.occupied_mono k hk)

theorem Evolves.mono {Pc Pc' : Call → Prop} {Pr Pr' : KeyFrameId × MapPointId → Prop}
    {s s' : State} (h : Evolves Pc Pr s s') (hc : ∀ c, Pc c → Pc' c) (hr : ∀ r, Pr r → Pr' r) :
    Evolves Pc' Pr' s s' :=
  { h with
    calls_new := fun c hmem => hc c (h.calls_new c hmem)
    removals_new := fun r hmem => hr r (h.removals_new r hmem) }

theorem Evolves.inView_iff {Pc : Call → Prop} {Pr : KeyFrameId × MapPointId → Prop}
    {s s' : State} (h : Evolves Pc Pr s s') (env : Env) (m : MapPointId) :
    inView env s' m ↔ inView env s m := by
  simp only [inView, h.Tcw_eq, h.cam_eq, h.pose_eq]

theorem Evolves.of_append {Pc : Call → Prop} {Pr : KeyFrameId × MapPointId → Prop}
    {s s' : State} (newC : List Call) (newF : List Feature)
    (newR : List (KeyFrameId × MapPointId))
    (hc : s'.calls = s.calls ++ newC) (hPc : ∀ c ∈ newC, Pc c)
    (hf : s'.frame.features = s.frame.features ++ newF)
    (hF : ∀ f ∈ newF, ∃ m, f.mpt = some m ∧ Call.reprojectMapPoint m ∈ newC)
    (hr : s'.removeMapPoint_calls = s.removeMapPoint_calls ++ newR) (hPr : ∀ r ∈ newR, Pr r)
    (hpose : ∀ m, (s'.mappoints m).pose = (s.mappoints m).pose)
    (hbad : ∀ m, (s'.mappoints m).bad = (s.mappoints m).bad)
    (hmp : ∀ m, Call.reprojectMapPoint m ∉ newC → s'.mappoints m = s.mappoints m)
    (hTcw : s'.frame.Tcw = s.frame.Tcw) (hcam : s'.frame.cam_ = s.frame.cam_)
    (href : s'.frame.refKF = s.frame.refKF) (hlast : s'.frame_last = s.frame_last)
    (hgs : s'.grid_.grid_size = s.grid_.grid_size)
    (hgc : s'.grid_.grid_n_cols = s.grid_.grid_n_cols)
    (hgr : s'.grid_.grid_n_rows = s.grid_.grid_n_rows)
    (hgo : s'.grid_.grid_order = s.grid_.grid_order)
    (hcl : s'.grid_.cells.length = s.grid_.cells.length)
    (hol : s'.grid_.occupied.length = s.grid_.occupied.length)
    (hom : ∀ k : Nat, s.grid_.occupied[k]? = some true → s'.grid_.occupied[k]? = some true) :
    Evolves Pc Pr s s' := by
  have e1 : appended s.calls s'.calls = newC := by rw [hc]; exact appended_append _ _
  have e2 : appended s.frame.features s'.frame.features = newF := by
    rw [hf]; exact appended_append _ _
  have e3 : appended s.removeMapPoint_calls s'.removeMapPoint_calls = newR := by
    rw [hr]; exact appended_append _ _
  constructor
  · exact ⟨newC, hc.symm⟩
  · rw [e1]; exact hPc
  · exact ⟨newF, hf.symm⟩
  · rw [e1, e2]; exact hF
  · exact ⟨newR, hr.symm⟩
  · rw [e3]; exact hPr
  · exact hpose
  · exact hbad
  · intro m hne
    rw [e1]
    by_contra hn
    exact hne (hmp m hn)
  all_goals assumption

theorem set_true_getElem (l : List Bool) (i k : Nat) (h : l[k]? = some true) :
    (l.set i true)[k]? = some true := by
  rw [List.getElem?_set]
  split_ifs with h1 h2
  · rfl
  · subst h1
    rw [List.getElem?_eq_none (by omega)] at h
    cases h
  · exact h

theorem attempt_fail_evolves (Pc : Call → Prop) (Pr : KeyFrameId × MapPointId → Prop)
    (s : State) (m : MapPointId) (n k : Int) (hPc : Pc (Call.reprojectMapPoint m)) :
    Evolves Pc Pr s
      ((({ s with total_project_ := n } : State).record (Call.reprojectMapPoint m)).increaseVisible
        m k) := by
  refine Evolves.of_append [Call.reprojectMapPoint m] [] [] rfl ?_ ?_ ?_ ?_ ?_ ?_ ?_ ?_
      rfl rfl rfl rfl rfl rfl rfl rfl rfl rfl (fun _ h => h)
  · simpa using hPc
  · simp [State.increaseVisible, State.record]
  · simp
  · simp [State.increaseVisible, State.record]
  · simp
  · intro x
    simp only [State.increaseVisible, State.record, Function.update_apply]
    split_ifs with hx
    · subst hx; rfl
    · rfl
  · intro x
    simp only [State.increaseVisible, State.record, Function.update_apply]
    split_ifs with hx
    · subst hx; rfl
    · rfl
  · intro x hx
    have hne : x ≠ m := by
      rintro rfl
      simp at hx
    simp [State.increaseVisible, State.record, Function.update_apply, hne]

theorem attempt_ok_evolves (Pc : Call → Prop) (Pr : KeyFrameId × MapPointId → Prop)
    (s : State) (m : MapPointId) (n k : Int) (f : Feature) (hf : f.mpt = some m)
    (hPc : Pc (Call.reprojectMapPoint m)) :
    Evolves Pc Pr s
      ((((({ s with total_project_ := n } : State).record
        (Call.reprojectMapPoint m)).increaseVisible m k).addFeature f).increaseFound m 2) := by
  refine Evolves.of_append [Call.reprojectMapPoint m] [f] [] rfl ?_ ?_ ?_ ?_ ?_ ?_ ?_ ?_
      rfl rfl rfl rfl rfl rfl rfl rfl rfl rfl (fun _ h => h)
  · simpa using hPc
  · simp [State.increaseVisible, State.record, State.addFeature, State.increaseFound,
      Frame.addFeature]
  · simpa using hf
  · simp [State.increaseVisible, State.record, State.addFeature, State.increaseFound]
  · simp
  · intro x
    simp only [State.increaseVisible, State.record, State.addFeature, State.increaseFound,
      Function.update_apply]
    split_ifs with hx
    · subst hx; simp [MapPoint.increaseFound, MapPoint.increaseVisible]
    · rfl
  · intro x
    simp only [State.increaseVisible, State.record, State.addFeature, State.increaseFound,
      Function.update_apply]
    split_ifs with hx
    · subst hx; simp [MapPoint.increaseFound, MapPoint.increaseVisible]
    · rfl
  · intro x hx
    have hne : x ≠ m := by
      rintro rfl
      simp at hx
    simp [State.increaseVisible, State.record, State.addFeature, State.increaseFound,
      Function.update_apply, hne]

theorem occupied_set_evolves (Pc : Call → Prop) (Pr : KeyFrameId × MapPointId → Prop)
    (s : State) (i : Nat) :
    Evolves Pc Pr s
      { s with grid_ := { s.grid_ with occupied := s.grid_.occupied.set i true } } := by
  refine Evolves.of_append [] [] [] (by simp) (by simp) (by simp) (by simp) (by simp) (by simp)
    (fun _ => rfl) (fun _ => rfl) (fun _ _ => rfl) rfl rfl rfl rfl rfl rfl rfl rfl rfl (by simp)
    (fun k h => set_true_getElem _ _ _ h)

theorem cells_set_evolves (Pc : Call → Prop) (Pr : KeyFrameId × MapPointId → Prop)
    (s : State) (i : Nat) (cell : List Candidate) :
    Evolves Pc Pr s
      { s with grid_ := { s.grid_ with cells := s.grid_.cells.set i cell } } := by
  refine Evolves.of_append [] [] [] (by simp) (by simp) (by simp) (by simp) (by simp) (by simp)
    (fun _ => rfl) (fun _ => rfl) (fun _ _ => rfl) rfl rfl rfl rfl rfl rfl rfl rfl (by simp) rfl
    (fun k h => h)

theorem record_evolves (Pc : Call → Prop) (Pr : KeyFrameId × MapPointId → Prop)
    (s : State) (c : Call) (hPc : Pc c) :
    Evolves Pc Pr s (s.record c) := by
  refine Evolves.of_append [c] [] [] rfl (by simpa using hPc) (by simp [State.record]) (by simp)
    (by simp [State.record]) (by simp)
    (fun _ => rfl) (fun _ => rfl) (fun _ _ => rfl) rfl rfl rfl rfl rfl rfl rfl rfl rfl rfl
    (fun k h => h)

theorem removal_evolves (Pc : Call → Prop) (Pr : KeyFrameId × MapPointId → Prop)
    (s : State) (r : KeyFrameId × MapPointId) (hPr : Pr r) :
    Evolves Pc Pr s { s with removeMapPoint_calls := s.removeMapPoint_calls ++ [r] } := by
  refine Evolves.of_append [] [] [r] (by simp) (by simp) (by simp) (by simp) rfl
    (by simpa using hPr)
    (fun _ => rfl) (fun _ => rfl) (fun _ _ => rfl) rfl rfl rfl rfl rfl rfl rfl rfl rfl rfl
    (fun k h => h)

theorem total_evolves (Pc : Call → Prop) (Pr : KeyFrameId × MapPointId → Prop)
    (s : State) (n : Int) : Evolves Pc Pr s { s with total_project_ := n } := by
  refine Evolves.of_append [] [] [] (by simp) (by simp) (by simp) (by simp) (by simp) (by simp)
    (fun _ => rfl) (fun _ => rfl) (fun _ _ => rfl) rfl rfl rfl rfl rfl rfl rfl rfl rfl rfl
    (fun k h => h)

theorem fastBody_evolves (env : Env) (Pc : Call → Prop) (Pr : KeyFrameId × MapPointId → Prop)
    (mpt : MapPointId) (c : Int) (s : State) (r : Int × State)
    (hPc : inView env s mpt → Pc (Call.reprojectMapPoint mpt))
    (h : matchMapPointsFromLastFrame.body env mpt c s = some r) : Evolves Pc Pr s r.2 := by
  unfold matchMapPointsFromLastFrame.body at h
  simp only [] at h
  split_ifs at h with h1 h2 h3
  · cases h; exact Evolves.refl _ _ _
  · cases h; exact Evolves.refl _ _ _
  · cases h
    have hv : inView env s mpt := ⟨h1, by simpa using h2⟩
    exact attempt_fail_evolves _ _ _ _ _ _ (hPc hv)
  · have hv : inView env s mpt := ⟨h1, by simpa using h2⟩
    split at h
    · cases h
    · rename_i occ hocc
      cases h
      simp only [vectorSetAt] at hocc
      split_ifs at hocc with hk
      cases hocc
      exact (attempt_ok_evolves Pc Pr _ _ _ _ _ rfl (hPc hv)).trans
        (occupied_set_evolves Pc Pr _ _)

theorem fastLoop_evolves (env : Env) (Pc : Call → Prop) (Pr : KeyFrameId × MapPointId → Prop)
    (l : List MapPointId) : ∀ (c : Int) (s : State) (r : Int × State),
    (∀ m ∈ l, inView env s m → Pc (Call.reprojectMapPoint m)) →
    matchMapPointsFromLastFrame.loop env l c s = some r → Evolves Pc Pr s r.2 := by
  induction l with
  | nil =>
    intro c s r _ h
    simp only [matchMapPointsFromLastFrame.loop] at h
    cases h
    exact Evolves.refl _ _ _
  | cons mpt rest ih =>
    intro c s r hPc h
    simp only [matchMapPointsFromLastFrame.loop] at h
    split at h
    · cases h
    · rename_i r1 h1
      have e1 := fastBody_evolves env Pc Pr mpt c s r1
        (hPc mpt (List.mem_cons_self _ _)) h1
      refine e1.trans (ih r1.1 r1.2 r ?_ h)
      intro m hm hv
      exact hPc m (List.mem_cons_of_mem _ hm) ((e1.inView_iff env m).1 hv)

theorem cellBody_evolves (env : Env) (Pc : Call → Prop) (Pr : KeyFrameId × MapPointId → Prop)
    (candidate : Candidate) (s : State) (hPc : Pc (Call.reprojectMapPoint candidate.pt)) :
    Evolves Pc Pr s (matchMapPointsFromCell.body env candidate s).2 := by
  unfold matchMapPointsFromCell.body
  simp only []
  split_ifs with h1
  · exact attempt_fail_evolves _ _ _ _ _ _ hPc
  · exact attempt_ok_evolves Pc Pr _ _ _ _ _ rfl hPc

theorem cellBody_grid (env : Env) (candidate : Candidate) (s : State) :
    (matchMapPointsFromCell.body env candidate s).2.grid_ = s.grid_ := by
  unfold matchMapPointsFromCell.body
  simp only []
  split_ifs with h1 <;> rfl

theorem cellLoop_evolves (env : Env) (Pc : Call → Prop) (Pr : KeyFrameId × MapPointId → Prop)
    (cell : List Candidate) : ∀ (s : State),
    (∀ c ∈ cell, Pc (Call.reprojectMapPoint c.pt)) →
    Evolves Pc Pr s (matchMapPointsFromCell.loop env cell s).2 := by
  induction cell with
  | nil =>
    intro s _
    exact Evolves.refl _ _ _
  | cons c rest ih =>
    intro s hPc
    have e1 := cellBody_evolves env Pc Pr c s (hPc c (List.mem_cons_self _ _))
    simp only [matchMapPointsFromCell.loop]
    split_ifs with h1
    · exact e1
    · exact e1.trans (ih _ (fun c hc => hPc c (List.mem_cons_of_mem _ hc)))

theorem cellLoop_grid (env : Env) (cell : List Candidate) : ∀ (s : State),
    (matchMapPointsFromCell.loop env cell s).2.grid_ = s.grid_ := by
  induction cell with
  | nil => intro s; rfl
  | cons c rest ih =>
    intro s
    simp only [matchMapPointsFromCell.loop]
    split_ifs with h1
    · exact cellBody_grid env c s
    · rw [ih, cellBody_grid]

theorem sortCell_perm (mp : MapPointId → MapPoint) (cell : List Candidate) :
    (sortCell mp cell).Perm cell :=
  List.perm_insertionSort _ _

theorem mem_getD_of_mem {α : Type} (l : List (List α)) (i : Nat) (a : α)
    (h : a ∈ l.getD i []) : ∃ c ∈ l, a ∈ c := by
  rw [List.getD_eq_getElem?_getD] at h
  cases hi : l[i]? with
  | none => simp [hi] at h
  | some c =>
    simp only [hi, Option.getD_some] at h
    exact ⟨c, List.getElem?_mem hi, h⟩

theorem matchCell_evolves (env : Env) (Pc : Call → Prop) (Pr : KeyFrameId × MapPointId → Prop)
    (s : State) (index : Nat)
    (hPc : ∀ c ∈ s.grid_.cells.getD index [], Pc (Call.reprojectMapPoint c.pt)) :
    Evolves Pc Pr s (matchMapPointsFromCell env s index).2 := by
  unfold matchMapPointsFromCell
  simp only []
  refine (cells_set_evolves Pc Pr s index _).trans (cellLoop_evolves env Pc Pr _ _ ?_)
  intro c hc
  exact hPc c ((sortCell_perm _ _).mem_iff.1 hc)

theorem matchCell_grid (env : Env) (s : State) (index : Nat) :
    (matchMapPointsFromCell env s index).2.grid_ =
      { s.grid_ with
        cells := (s.grid_.cells.set index (sortCell s.mappoints (s.grid_.cells.getD index []))) } := by
  unfold matchMapPointsFromCell
  simp only []
  rw [cellLoop_grid]

theorem flatten_set_perm {α : Type} (l : List (List α)) : ∀ (i : Nat) (cell : List α),
    l[i]? = some cell →
    ∃ X, l.flatten.Perm (cell ++ X) ∧ ∀ cell', (l.set i cell').flatten.Perm (cell' ++ X) := by
  induction l with
  | nil => intro i cell h; simp at h
  | cons a l ih =>
    intro i cell h
    cases i with
    | zero =>
      simp only [List.getElem?_cons_zero, Option.some.injEq] at h
      subst h
      exact ⟨l.flatten, by simp, fun cell' => by simp⟩
    | succ i =>
      simp only [List.getElem?_cons_succ] at h
      obtain ⟨X, h1, h2⟩ := ih i cell h
      refine ⟨a ++ X, ?_, fun cell' => ?_⟩
      · simp only [List.flatten_cons]
        exact (List.Perm.append_left a h1).trans (List.perm_append_comm_assoc _ _ _)
      · simp only [List.set_cons_succ, List.flatten_cons]
        exact (List.Perm.append_left a (h2 cell')).trans (List.perm_append_comm_assoc _ _ _)

theorem flatten_set_of_perm {α : Type} (l : List (List α)) (i : Nat) (cell' : List α)
    (h : cell'.Perm (l.getD i [])) : (l.set i cell').flatten.Perm l.flatten := by
  rw [List.getD_eq_getElem?_getD] at h
  cases hi : l[i]? with
  | none =>
    rw [List.getElem?_eq_none_iff] at hi
    rw [List.set_eq_of_length_le hi]
  | some cell =>
    simp only [hi, Option.getD_some] at h
    obtain ⟨X, h1, h2⟩ := flatten_set_perm l i cell hi
    exact (h2 cell').trans ((List.Perm.append_right X h).trans h1.symm)

theorem flatten_set_snoc {α : Type} (l : List (List α)) (i : Nat) (cell : List α) (c : α)
    (hi : l[i]? = some cell) : (l.set i (cell ++ [c])).flatten.Perm (c :: l.flatten) := by
  obtain ⟨X, h1, h2⟩ := flatten_set_perm l i cell hi
  refine (h2 (cell ++ [c])).trans ?_
  refine List.Perm.trans ?_ (List.Perm.cons c h1.symm)
  simp only [List.append_assoc, List.singleton_append]
  exact List.perm_middle

theorem toCell_evolves (env : Env) (Pc : Call → Prop) (Pr : KeyFrameId × MapPointId → Prop)
    (s : State) (point : MapPointId) (r : Bool × State)
    (hPc : Pc (Call.reprojectMapPointToCell point))
    (h : reprojectMapPointToCell env s point = some r) : Evolves Pc Pr s r.2 := by
  have e0 := record_evolves Pc Pr s (Call.reprojectMapPointToCell point) hPc
  unfold reprojectMapPointToCell at h
  simp only [] at h
  split_ifs at h with h1 h2
  · cases h; exact e0
  · cases h; exact e0
  · split at h
    · cases h
    · cases h; exact e0
    · split at h
      · cases h
      · cases h
        exact e0.trans (cells_set_evolves Pc Pr _ _ _)

theorem toCell_calls (env : Env) (s : State) (point : MapPointId) (r : Bool × State)
    (h : reprojectMapPointToCell env s point = some r) :
    r.2.calls = s.calls ++ [Call.reprojectMapPointToCell point] := by
  unfold reprojectMapPointToCell at h
  simp only [] at h
  split_ifs at h with h1 h2
  · cases h; rfl
  · cases h; rfl
  · split at h
    · cases h
    · cases h; rfl
    · split at h
      · cases h
      · cases h; rfl

theorem toCell_not_inView (env : Env) (s : State) (point : MapPointId)
    (h : ¬ inView env s point) :
    reprojectMapPointToCell env s point =
      some (false, s.record (Call.reprojectMapPointToCell point)) := by
  unfold reprojectMapPointToCell
  simp only []
  split_ifs with h1 h2
  · rfl
  · rfl
  · exfalso
    apply h
    refine ⟨h1, ?_⟩
    simpa [State.record] using h2

theorem toCell_cells (env : Env) (s : State) (point : MapPointId) (r : Bool × State)
    (h : reprojectMapPointToCell env s point = some r) :
    r.2.grid_.occupied = s.grid_.occupied ∧
    (cellPts r.2 = cellPts s ∨ (inView env s point ∧ (cellPts r.2).Perm (point :: cellPts s))) := by
  unfold reprojectMapPointToCell at h
  simp only [] at h
  split_ifs at h with h1 h2
  · cases h; exact ⟨rfl, Or.inl rfl⟩
  · cases h; exact ⟨rfl, Or.inl rfl⟩
  · have hv : inView env s point := ⟨h1, by simpa [State.record] using h2⟩
    split at h
    · cases h
    · cases h; exact ⟨rfl, Or.inl rfl⟩
    · split at h
      · cases h
      · rename_i cell hcell
        cases h
        refine ⟨rfl, Or.inr ⟨hv, ?_⟩⟩
        simp only [vectorAt] at hcell
        split_ifs at hcell with hk
        simp only [cellPts]
        exact (List.Perm.map _ (flatten_set_snoc _ _ _ _ hcell)).trans (by simp [State.record])

theorem assembleBody_cases (env : Env) (L : List MapPointId) (kf : KeyFrameId) (mpt : MapPointId)
    (loc : List MapPointId) (s : State) (r : List MapPointId × State)
    (h : assembleLocalMap.body env L kf mpt loc s = some r) :
    ((mpt ∈ loc ∨ mpt ∈ L) ∧ r.1 = loc ∧ r.2 = s) ∨
    (mpt ∉ loc ∧ mpt ∉ L ∧ (s.mappoints mpt).bad = true ∧ r.1 = mpt :: loc ∧
      r.2 = { s with removeMapPoint_calls := s.removeMapPoint_calls ++ [(kf, mpt)] }) ∨
    (mpt ∉ loc ∧ mpt ∉ L ∧ (s.mappoints mpt).bad = false ∧ r.1 = mpt :: loc ∧
      ∃ b, reprojectMapPointToCell env s mpt = some (b, r.2)) := by
  unfold assembleLocalMap.body at h
  simp only [] at h
  split_ifs at h with h1 h2
  · cases h; exact Or.inl ⟨h1, rfl, rfl⟩
  · cases h
    rw [not_or] at h1
    exact Or.inr (Or.inl ⟨h1.1, h1.2, h2, rfl, rfl⟩)
  · rw [not_or] at h1
    split at h
    · cases h
    · rename_i r1 hr1
      cases h
      refine Or.inr (Or.inr ⟨h1.1, h1.2, ?_, rfl, r1.1, hr1⟩)
      simpa [MapPoint.isBad] using h2

theorem assembleInner_induct (env : Env) (L : List MapPointId) (kf : KeyFrameId)
    (I : List MapPointId → State → Prop) (mpts : List MapPointId)
    (hstep : ∀ mpt ∈ mpts, ∀ loc s r, I loc s →
      assembleLocalMap.body env L kf mpt loc s = some r → I r.1 r.2) :
    ∀ loc s r, I loc s → assembleLocalMap.inner env L kf mpts loc s = some r → I r.1 r.2 := by
  induction mpts with
  | nil =>
    intro loc s r hI h
    simp only [assembleLocalMap.inner] at h
    cases h
    exact hI
  | cons mpt rest ih =>
    intro loc s r hI h
    simp only [assembleLocalMap.inner] at h
    split at h
    · cases h
    · rename_i r1 hr1
      exact ih (fun m hm => hstep m (List.mem_cons_of_mem _ hm)) r1.1 r1.2 r
        (hstep mpt (List.mem_cons_self _ _) loc s r1 hI hr1) h

theorem assemble_induct (env : Env) (L : List MapPointId)
    (I : List MapPointId → State → Prop) (kfs : List KeyFrameId)
    (hstep : ∀ kf ∈ kfs, ∀ mpt ∈ env.getMapPoints kf, ∀ loc s r, I loc s →
      assembleLocalMap.body env L kf mpt loc s = some r → I r.1 r.2) :
    ∀ loc s r, I loc s → assembleLocalMap env L kfs loc s = some r → I r.1 r.2 := by
  induction kfs with
  | nil =>
    intro loc s r hI h
    simp only [assembleLocalMap] at h
    cases h
    exact hI
  | cons kf rest ih =>
    intro loc s r hI h
    simp only [assembleLocalMap] at h
    split at h
    · cases h
    · rename_i r1 hr1
      exact ih (fun k hk => hstep k (List.mem_cons_of_mem _ hk)) r1.1 r1.2 r
        (assembleInner_induct env L kf I _ (hstep kf (List.mem_cons_self _ _)) loc s r1 hI hr1) h

theorem assemble_inv (env : Env) (L : List MapPointId) (kfs : List KeyFrameId) (s0 : State)
    (h0 : cellPts s0 = []) (r : List MapPointId × State)
    (h : assembleLocalMap env L kfs [] s0 = some r) : AssembleInv env L kfs s0 r.1 r.2 := by
  refine assemble_induct env L (AssembleInv env L kfs s0) kfs ?_ [] s0 r ?_ h
  · intro kf hkf mpt hmpt loc s r1 hI hb
    rcases assembleBody_cases env L kf mpt loc s r1 hb with
      ⟨_, h1, h2⟩ | ⟨h1, h2, h3, h4, h5⟩ | ⟨h1, h2, h3, h4, b, h5⟩
    · rw [h1, h2]; exact hI
    · have hbad : (s0.mappoints mpt).bad = true := by rw [← hI.evolves.bad_eq, h3]
      have e1 := removal_evolves
        (fun c => ∃ x, c = Call.reprojectMapPointToCell x ∧ x ∉ L ∧ (s0.mappoints x).bad = false)
        (fun r => r.1 ∈ kfs ∧ r.2 ∈ env.getMapPoints r.1 ∧ r.2 ∉ L ∧
          (s0.mappoints r.2).bad = true) s (kf, mpt) ⟨hkf, hmpt, h2, hbad⟩
      rw [h4, h5]
      refine ⟨hI.evolves.trans e1, hI.occupied_eq, hI.calls_nodup, ?_, hI.cells_nodup, ?_, ?_⟩
      · intro x hx
        exact List.mem_cons_of_mem _ (hI.calls_local x hx)
      · intro x hx
        obtain ⟨a, b, c, d⟩ := hI.cells_local x hx
        exact ⟨List.mem_cons_of_mem _ a, b, c, d⟩
      · intro x hx hxb
        rw [List.mem_cons] at hx
        rcases hx with hx | hx
        · rw [hx, hbad] at hxb
          cases hxb
        · exact hI.local_called x hx hxb
    · have hbad : (s0.mappoints mpt).bad = false := by rw [← hI.evolves.bad_eq, h3]
      have e1 := toCell_evolves env
        (fun c => ∃ x, c = Call.reprojectMapPointToCell x ∧ x ∉ L ∧ (s0.mappoints x).bad = false)
        (fun r => r.1 ∈ kfs ∧ r.2 ∈ env.getMapPoints r.1 ∧ r.2 ∉ L ∧
          (s0.mappoints r.2).bad = true) s mpt (b, r1.2) ⟨mpt, rfl, h2, hbad⟩ h5
      obtain ⟨ho, hcells⟩ := toCell_cells env s mpt (b, r1.2) h5
      have hcalls : r1.2.calls = s.calls ++ [Call.reprojectMapPointToCell mpt] :=
        toCell_calls env s mpt (b, r1.2) h5
      have happ : appended s0.calls r1.2.calls =
          appended s0.calls s.calls ++ [Call.reprojectMapPointToCell mpt] := by
        rw [appended_trans hI.evolves.calls_prefix e1.calls_prefix, hcalls, appended_append]
      rw [h4]
      refine ⟨hI.evolves.trans e1, ho.trans hI.occupied_eq, ?_, ?_, ?_, ?_, ?_⟩
      · rw [happ]
        refine List.Nodup.append hI.calls_nodup (List.nodup_singleton _) ?_
        intro c hc1 hc2
        rw [List.mem_singleton] at hc2
        subst hc2
        exact h1 (hI.calls_local mpt hc1)
      · intro x hx
        rw [happ, List.mem_append] at hx
        rcases hx with hx | hx
        · exact List.mem_cons_of_mem _ (hI.calls_local x hx)
        · simp only [List.mem_singleton, Call.reprojectMapPointToCell.injEq] at hx
          rw [hx]; exact List.mem_cons_self _ _
      · rcases hcells with hc | ⟨_, hc⟩
        · rw [hc]; exact hI.cells_nodup
        · rw [hc.nodup_iff, List.nodup_cons]
          exact ⟨fun hx => h1 (hI.cells_local mpt hx).1, hI.cells_nodup⟩
      · intro x hx
        rcases hcells with hc | ⟨hv, hc⟩
        · rw [hc] at hx
          obtain ⟨a, b, c, d⟩ := hI.cells_local x hx
          exact ⟨List.mem_cons_of_mem _ a, b, c, d⟩
        · rw [hc.mem_iff, List.mem_cons] at hx
          rcases hx with hx | hx
          · subst hx
            exact ⟨List.mem_cons_self _ _, h2, hbad, (hI.evolves.inView_iff env x).1 hv⟩
          · obtain ⟨a, b, c, d⟩ := hI.cells_local x hx
            exact ⟨List.mem_cons_of_mem _ a, b, c, d⟩
      · intro x hx hxb
        rw [happ, List.mem_append]
        rw [List.mem_cons] at hx
        rcases hx with hx | hx
        · right
          rw [hx]
          exact List.mem_singleton_self _
        · exact Or.inl (hI.local_called x hx hxb)
  · refine ⟨Evolves.refl _ _ _, rfl, ?_, ?_, ?_, ?_, fun x hx => by cases hx⟩
    · rw [appended_self]; exact List.nodup_nil
    · intro x hx; rw [appended_self] at hx; cases hx
    · rw [h0]; exact List.nodup_nil
    · intro x hx; rw [h0] at hx; cases hx

theorem cellBody_fail (env : Env) (c : Candidate) (s : State)
    (h : (reprojectMapPoint env c.pt c.px 0).1 ≠ 1) :
    matchMapPointsFromCell.body env c s =
      (false, (({ s with total_project_ := s.total_project_ + 1 } : State).record
        (Call.reprojectMapPoint c.pt)).increaseVisible c.pt
          ((reprojectMapPoint env c.pt c.px 0).1 + 1)) := by
  unfold matchMapPointsFromCell.body
  simp only []
  rw [if_pos h]

theorem cellBody_ok (env : Env) (c : Candidate) (s : State)
    (h : (reprojectMapPoint env c.pt c.px 0).1 = 1) :
    matchMapPointsFromCell.body env c s =
      (true, (((({ s with total_project_ := s.total_project_ + 1 } : State).record
        (Call.reprojectMapPoint c.pt)).increaseVisible c.pt
          ((reprojectMapPoint env c.pt c.px 0).1 + 1)).addFeature
          (Feature.create (reprojectMapPoint env c.pt c.px 0).2.1
            (s.frame.cam_.lift (reprojectMapPoint env c.pt c.px 0).2.1)
            (reprojectMapPoint env c.pt c.px 0).2.2 (some c.pt))).increaseFound c.pt 2) := by
  unfold matchMapPointsFromCell.body
  simp only []
  rw [if_neg (not_not.2 h)]
  rfl

theorem cellBody_features (env : Env) (candidate : Candidate) (s : State) :
    ∃ fs, (matchMapPointsFromCell.body env candidate s).2.frame.features =
        s.frame.features ++ fs ∧
      fs.length = (if (matchMapPointsFromCell.body env candidate s).1 then 1 else 0) ∧
      ∀ f ∈ fs, f.mpt = some candidate.pt := by
  by_cases h : (reprojectMapPoint env candidate.pt candidate.px 0).1 = 1
  · rw [cellBody_ok env candidate s h]
    refine ⟨[_], rfl, by simp, ?_⟩
    intro f hf
    rw [List.mem_singleton] at hf
    rw [hf]; rfl
  · rw [cellBody_fail env candidate s h]
    exact ⟨[], by simp [State.increaseVisible, State.record], by simp, by simp⟩

theorem cellLoop_cons_true (env : Env) (c : Candidate) (rest : List Candidate) (s : State)
    (h : (matchMapPointsFromCell.body env c s).1 = true) :
    matchMapPointsFromCell.loop env (c :: rest) s =
      (true, (matchMapPointsFromCell.body env c s).2) := by
  simp only [matchMapPointsFromCell.loop]
  rw [if_pos h]

theorem cellLoop_cons_false (env : Env) (c : Candidate) (rest : List Candidate) (s : State)
    (h : (matchMapPointsFromCell.body env c s).1 = false) :
    matchMapPointsFromCell.loop env (c :: rest) s =
      matchMapPointsFromCell.loop env rest (matchMapPointsFromCell.body env c s).2 := by
  simp only [matchMapPointsFromCell.loop]
  rw [if_neg (by simp [h])]

theorem cellLoop_features (env : Env) (cell : List Candidate) : ∀ (s : State),
    ∃ fs, (matchMapPointsFromCell.loop env cell s).2.frame.features = s.frame.features ++ fs ∧
      fs.length = (if (matchMapPointsFromCell.loop env cell s).1 then 1 else 0) ∧
      ∀ f ∈ fs, ∃ c ∈ cell, f.mpt = some c.pt := by
  induction cell with
  | nil =>
    intro s
    exact ⟨[], by simp [matchMapPointsFromCell.loop], by simp [matchMapPointsFromCell.loop],
      by simp⟩
  | cons c rest ih =>
    intro s
    obtain ⟨fs1, h1, h2, h3⟩ := cellBody_features env c s
    cases hb : (matchMapPointsFromCell.body env c s).1 with
    | true =>
      rw [cellLoop_cons_true env c rest s hb]
      rw [hb] at h2
      exact ⟨fs1, h1, by simpa using h2, fun f hf => ⟨c, List.mem_cons_self _ _, h3 f hf⟩⟩
    | false =>
      rw [cellLoop_cons_false env c rest s hb]
      rw [hb] at h2
      have hnil : fs1 = [] := List.length_eq_zero.1 (by simpa using h2)
      subst hnil
      obtain ⟨fs2, g1, g2, g3⟩ := ih (matchMapPointsFromCell.body env c s).2
      refine ⟨fs2, ?_, g2, ?_⟩
      · rw [g1, h1, List.append_nil]
      · intro f hf
        obtain ⟨c', hc', hm⟩ := g3 f hf
        exact ⟨c', List.mem_cons_of_mem _ hc', hm⟩

theorem matchCell_features (env : Env) (s : State) (index : Nat) :
    ∃ fs, (matchMapPointsFromCell env s index).2.frame.features = s.frame.features ++ fs ∧
      fs.length = (if (matchMapPointsFromCell env s index).1 then 1 else 0) ∧
      ∀ f ∈ fs, ∃ c ∈ s.grid_.cells.getD index [], f.mpt = some c.pt := by
  unfold matchMapPointsFromCell
  simp only []
  obtain ⟨fs, h1, h2, h3⟩ := cellLoop_features env
    (sortCell s.mappoints (s.grid_.cells.getD index []))
    { s with grid_ := { s.grid_ with
        cells := (s.grid_.cells.set index (sortCell s.mappoints (s.grid_.cells.getD index []))) } }
  refine ⟨fs, h1, h2, ?_⟩
  intro f hf
  obtain ⟨c, hc, hm⟩ := h3 f hf
  exact ⟨c, (sortCell_perm _ _).mem_iff.1 hc, hm⟩

theorem getD_set_perm {α : Type} (l : List (List α)) (i k : Nat) (cell' : List α)
    (h : cell'.Perm (l.getD i [])) : ((l.set i cell').getD k []).Perm (l.getD k []) := by
  rw [List.getD_eq_getElem?_getD, List.getD_eq_getElem?_getD, List.getElem?_set]
  rw [List.getD_eq_getElem?_getD] at h
  split_ifs with h1 h2
  · subst h1
    simpa using h
  · subst h1
    rw [List.getElem?_eq_none (by omega)]
  · exact List.Perm.refl _

theorem gridScan_cons_none (env : Env) (R : Int) (index : Nat) (rest : List Nat) (m : Int)
    (s : State) (h : vectorAt s.grid_.occupied (index : Int) = none) :
    gridScan env R (index :: rest) m s = none := by
  simp only [gridScan, h]

theorem gridScan_cons_occupied (env : Env) (R : Int) (index : Nat) (rest : List Nat) (m : Int)
    (s : State) (h : vectorAt s.grid_.occupied (index : Int) = some true) :
    gridScan env R (index :: rest) m s = gridScan env R rest m s := by
  simp only [gridScan, h]

theorem gridScan_cons_stop (env : Env) (R : Int) (index : Nat) (rest : List Nat) (m : Int)
    (s : State) (h : vectorAt s.grid_.occupied (index : Int) = some false)
    (hgt : (if (matchMapPointsFromCell env s index).1 then m + 1 else m) > R) :
    gridScan env R (index :: rest) m s =
      some (if (matchMapPointsFromCell env s index).1 then m + 1 else m,
        (matchMapPointsFromCell env s index).2) := by
  simp only [gridScan, h]
  rw [if_pos hgt]

theorem gridScan_cons_go (env : Env) (R : Int) (index : Nat) (rest : List Nat) (m : Int)
    (s : State) (h : vectorAt s.grid_.occupied (index : Int) = some false)
    (hgt : ¬ (if (matchMapPointsFromCell env s index).1 then m + 1 else m) > R) :
    gridScan env R (index :: rest) m s =
      gridScan env R rest (if (matchMapPointsFromCell env s index).1 then m + 1 else m)
        (matchMapPointsFromCell env s index).2 := by
  simp only [gridScan, h]
  rw [if_neg hgt]

theorem vectorAt_bool_cases (v : List Bool) (k : Int) :
    vectorAt v k = none ∨ vectorAt v k = some true ∨ vectorAt v k = some false := by
  rcases h : vectorAt v k with _ | b
  · exact Or.inl rfl
  · cases b
    · exact Or.inr (Or.inr rfl)
    · exact Or.inr (Or.inl rfl)

theorem gridScan_induct (env : Env) (R : Int) (I : Int → State → Prop) (order : List Nat)
    (hstep : ∀ index ∈ order, ∀ m s, I m s →
      vectorAt s.grid_.occupied (index : Int) = some false →
      I (if (matchMapPointsFromCell env s index).1 then m + 1 else m)
        (matchMapPointsFromCell env s index).2) :
    ∀ m s r, I m s → gridScan env R order m s = some r → I r.1 r.2 := by
  induction order with
  | nil =>
    intro m s r hI h
    simp only [gridScan] at h
    cases h
    exact hI
  | cons index rest ih =>
    intro m s r hI h
    rcases vectorAt_bool_cases s.grid_.occupied (index : Int) with hocc | hocc | hocc
    · rw [gridScan_cons_none env R index rest m s hocc] at h
      cases h
    · rw [gridScan_cons_occupied env R index rest m s hocc] at h
      exact ih (fun i hi => hstep i (List.mem_cons_of_mem _ hi)) m s r hI h
    · have h1 := hstep index (List.mem_cons_self _ _) m s hI hocc
      by_cases hgt : (if (matchMapPointsFromCell env s index).1 then m + 1 else m) > R
      · rw [gridScan_cons_stop env R index rest m s hocc hgt] at h
        cases h; exact h1
      · rw [gridScan_cons_go env R index rest m s hocc hgt] at h
        exact ih (fun i hi => hstep i (List.mem_cons_of_mem _ hi)) _ _ r h1 h

theorem gridScan_inv (env : Env) (R : Int) (order : List Nat) (m0 : Int) (s0 : State)
    (r : Int × State) (h : gridScan env R order m0 s0 = some r) : GridInv s0 m0 r.1 r.2 := by
  refine gridScan_induct env R (GridInv s0 m0) order ?_ m0 s0 r ?_ h
  · intro index _ m s hI _
    have hpts : ∀ c ∈ s.grid_.cells.getD index [], c.pt ∈ cellPts s0 := by
      intro c hc
      rw [← hI.cellPts_perm.mem_iff]
      obtain ⟨cell, h1, h2⟩ := mem_getD_of_mem _ _ _ hc
      exact List.mem_map.2 ⟨c, List.mem_flatten.2 ⟨cell, h1, h2⟩, rfl⟩
    have e1 := matchCell_evolves env
      (fun c => ∃ x ∈ cellPts s0, c = Call.reprojectMapPoint x) (fun _ => False) s index
      (fun c hc => ⟨c.pt, hpts c hc, rfl⟩)
    have hg := matchCell_grid env s index
    obtain ⟨fs, f1, f2, _⟩ := matchCell_features env s index
    refine ⟨hI.evolves.trans e1, ?_, ?_, ?_, ?_, ?_⟩
    · rw [hg]; exact hI.occupied_eq
    · intro k
      rw [hg]
      exact (getD_set_perm _ _ _ _ (sortCell_perm _ _)).trans (hI.cells_perm k)
    · refine List.Perm.trans ?_ hI.cellPts_perm
      simp only [cellPts, hg]
      exact List.Perm.map _ (flatten_set_of_perm _ _ _ (sortCell_perm _ _))
    · have := hI.count_le
      split_ifs <;> omega
    · have := hI.count_eq
      rw [f1, List.length_append, f2]
      split_ifs <;> push_cast <;> omega
  · exact ⟨Evolves.refl _ _ _, rfl, fun _ => List.Perm.refl _, List.Perm.refl _, le_refl _,
      by simp⟩

theorem gridScan_bound (env : Env) (R : Int) (order : List Nat) : ∀ (m : Int) (s : State)
    (r : Int × State), gridScan env R order m s = some r → r.1 ≤ max m R + 1 := by
  induction order with
  | nil =>
    intro m s r h
    simp only [gridScan] at h
    cases h
    have := le_max_left m R
    simp only []
    omega
  | cons index rest ih =>
    intro m s r h
    rcases vectorAt_bool_cases s.grid_.occupied (index : Int) with hocc | hocc | hocc
    · rw [gridScan_cons_none env R index rest m s hocc] at h
      cases h
    · rw [gridScan_cons_occupied env R index rest m s hocc] at h
      exact ih m s r h
    · have hm : (if (matchMapPointsFromCell env s index).1 then m + 1 else m) ≤ m + 1 := by
        split_ifs <;> omega
      have h1 := le_max_left m R
      have h2 := le_max_right m R
      by_cases hgt : (if (matchMapPointsFromCell env s index).1 then m + 1 else m) > R
      · rw [gridScan_cons_stop env R index rest m s hocc hgt] at h
        cases h
        simp only []
        omega
      · rw [gridScan_cons_go env R index rest m s hocc hgt] at h
        have h3 := ih _ _ r h
        have h4 : max (if (matchMapPointsFromCell env s index).1 then m + 1 else m) R = R :=
          max_eq_right (not_lt.1 hgt)
        rw [h4] at h3
        omega

theorem fastBody_skip (env : Env) (mpt : MapPointId) (c : Int) (s : State)
    (h : ¬ inView env s mpt) : matchMapPointsFromLastFrame.body env mpt c s = some (c, s) := by
  unfold matchMapPointsFromLastFrame.body
  simp only []
  split_ifs with h1 h2 h3
  · rfl
  · rfl
  · exact absurd ⟨h1, by simpa using h2⟩ h
  · exact absurd ⟨h1, by simpa using h2⟩ h

theorem fastBody_fail (env : Env) (mpt : MapPointId) (c : Int) (s : State)
    (hv : inView env s mpt)
    (h : (reprojectMapPoint env mpt
      (s.frame.cam_.project (s.frame.Tcw (s.mappoints mpt).pose)) 0).1 ≠ 1) :
    matchMapPointsFromLastFrame.body env mpt c s =
      some (c, (({ s with total_project_ := s.total_project_ + 1 } : State).record
        (Call.reprojectMapPoint mpt)).increaseVisible mpt
          ((reprojectMapPoint env mpt
            (s.frame.cam_.project (s.frame.Tcw (s.mappoints mpt).pose)) 0).1 + 1)) := by
  unfold matchMapPointsFromLastFrame.body
  simp only []
  rw [if_neg hv.1, if_neg (by simp [hv.2]), if_pos h]

theorem fastBody_ok (env : Env) (mpt : MapPointId) (c : Int) (s : State) (r : Int × State)
    (hv : inView env s mpt)
    (h : (reprojectMapPoint env mpt
      (s.frame.cam_.project (s.frame.Tcw (s.mappoints mpt).pose)) 0).1 = 1)
    (hr : matchMapPointsFromLastFrame.body env mpt c s = some r) :
    ∃ f k, f.mpt = some mpt ∧ 0 ≤ s.grid_.cellIndex f.px ∧
      (s.grid_.cellIndex f.px).toNat = k ∧ k < s.grid_.occupied.length ∧
      r.1 = c + 1 ∧ r.2.frame.features = s.frame.features ++ [f] ∧
      r.2.grid_.occupied = s.grid_.occupied.set k true ∧
      r.2.grid_.cells = s.grid_.cells := by
  unfold matchMapPointsFromLastFrame.body at hr
  simp only [] at hr
  rw [if_neg hv.1, if_neg (by simp [hv.2]), if_neg (not_not.2 h)] at hr
  generalize reprojectMapPoint env mpt
    (s.frame.cam_.project (s.frame.Tcw (s.mappoints mpt).pose)) 0 = res at hr
  split at hr
  · cases hr
  · rename_i occ hocc
    cases hr
    simp only [vectorSetAt] at hocc
    split_ifs at hocc with hk
    cases hocc
    refine ⟨Feature.create res.2.1 (s.frame.cam_.lift res.2.1) res.2.2 (some mpt),
      (s.grid_.cellIndex res.2.1).toNat, rfl, hk.1, rfl, hk.2, rfl, rfl, rfl, rfl⟩

theorem fastLoop_induct (env : Env) (I : Int → State → Prop) (l : List MapPointId)
    (hstep : ∀ mpt ∈ l, ∀ c s r, I c s →
      matchMapPointsFromLastFrame.body env mpt c s = some r → I r.1 r.2) :
    ∀ c s r, I c s → matchMapPointsFromLastFrame.loop env l c s = some r → I r.1 r.2 := by
  induction l with
  | nil =>
    intro c s r hI h
    simp only [matchMapPointsFromLastFrame.loop] at h
    cases h
    exact hI
  | cons mpt rest ih =>
    intro c s r hI h
    simp only [matchMapPointsFromLastFrame.loop] at h
    split at h
    · cases h
    · rename_i r1 h1
      exact ih (fun m hm => hstep m (List.mem_cons_of_mem _ hm)) r1.1 r1.2 r
        (hstep mpt (List.mem_cons_self _ _) c s r1 hI h1) h

theorem cellIndex_congr (g g' : Grid) (h1 : g'.grid_size = g.grid_size)
    (h2 : g'.grid_n_cols = g.grid_n_cols) (px : Vector2d) :
    g'.cellIndex px = g.cellIndex px := by
  simp only [Grid.cellIndex, h1, h2]

theorem fastLoop_inv (env : Env) (l : List MapPointId) (m0 : Int) (s0 : State)
    (r : Int × State) (h : matchMapPointsFromLastFrame.loop env l m0 s0 = some r) :
    FastInv env l s0 m0 r.1 r.2 := by
  refine fastLoop_induct env (FastInv env l s0 m0) l ?_ m0 s0 r ?_ h
  · intro mpt hmpt c s r1 hI hb
    have e1 := fastBody_evolves env
      (fun c => ∃ x ∈ l, inView env s0 x ∧ c = Call.reprojectMapPoint x) (fun _ => False)
      mpt c s r1 (fun hv => ⟨mpt, hmpt, (hI.evolves.inView_iff env mpt).1 hv, rfl⟩) hb
    have e2 := hI.evolves.trans e1
    by_cases hv : inView env s mpt
    · by_cases hres : (reprojectMapPoint env mpt
          (s.frame.cam_.project (s.frame.Tcw (s.mappoints mpt).pose)) 0).1 = 1
      · obtain ⟨f, k, f1, f2, f3, f4, f5, f6, f7, f8⟩ := fastBody_ok env mpt c s r1 hv hres hb
        have happ : appended s0.frame.features r1.2.frame.features =
            appended s0.frame.features s.frame.features ++ [f] := by
          rw [appended_trans hI.evolves.features_prefix e1.features_prefix, f6, appended_append]
        have hci : s0.grid_.cellIndex f.px = s.grid_.cellIndex f.px :=
          (cellIndex_congr _ _ hI.evolves.grid_size_eq hI.evolves.grid_n_cols_eq _).symm
        refine ⟨e2, f8.trans hI.cells_eq, ?_, ?_, ?_, ?_⟩
        · have := hI.count_le; omega
        · have := hI.count_eq
          rw [f6, List.length_append, f5]
          push_cast
          simp only [List.length_singleton]
          omega
        · intro g hg
          rw [happ, List.mem_append] at hg
          rcases hg with hg | hg
          · obtain ⟨a, b⟩ := hI.features_new g hg
            refine ⟨a, ?_⟩
            simp only [vectorAt] at b ⊢
            split_ifs at b with hk
            rw [if_pos hk]
            exact e1.occupied_mono _ b
          · rw [List.mem_singleton] at hg
            subst hg
            refine ⟨⟨mpt, hmpt, f1⟩, ?_⟩
            rw [hci]
            simp only [vectorAt]
            rw [if_pos f2, f7, f3, List.getElem?_set]
            simp [f4]
        · intro j hj
          rw [f7, List.getElem?_set] at hj
          by_cases hjk : k = j
          · right
            refine ⟨f, by rw [happ]; exact List.mem_append_right _ (List.mem_singleton_self _), ?_⟩
            rw [hci, ← hjk, ← f3]
            exact (Int.toNat_of_nonneg f2).symm
          · rw [if_neg hjk] at hj
            rcases hI.occupied_only j hj with h0 | ⟨g, hg, hgk⟩
            · exact Or.inl h0
            · exact Or.inr ⟨g, by rw [happ]; exact List.mem_append_left _ hg, hgk⟩
      · rw [fastBody_fail env mpt c s hv hres] at hb
        cases hb
        exact ⟨e2, hI.cells_eq, hI.count_le, hI.count_eq, hI.features_new, hI.occupied_only⟩
    · rw [fastBody_skip env mpt c s hv] at hb
      cases hb
      exact hI
  · refine ⟨Evolves.refl _ _ _, rfl, le_refl _, by simp, ?_, fun k hk => Or.inl hk⟩
    intro f hf
    rw [appended_self] at hf
    cases hf

theorem fast_eq_loop (env : Env) (s : State) (fl : Option Frame) :
    matchMapPointsFromLastFrame env s fl =
      matchMapPointsFromLastFrame.loop env (lastMptsSet fl) 0 s := by
  cases fl with
  | none => rfl
  | some f => rfl

theorem cellPts_resetGrid (env : Env) (s : State) : cellPts (resetGrid env s) = [] := by
  simp only [cellPts, resetGrid]
  have : ∀ l : List (List Candidate), (l.map (fun _ => ([] : List Candidate))).flatten = [] := by
    intro l
    induction l with
    | nil => rfl
    | cons a l ih => simp
  rw [this]
  rfl

theorem occupied_resetGrid (env : Env) (s : State) (k : Nat) :
    (resetGrid env s).grid_.occupied[k]? ≠ some true := by
  simp only [resetGrid, List.getElem?_map]
  cases s.grid_.occupied[k]? <;> simp

theorem cellPts_eq_of_cells (s s' : State) (h : s'.grid_.cells = s.grid_.cells) :
    cellPts s' = cellPts s := by
  simp only [cellPts, h]

theorem Evolves.no_attempt {Pc : Call → Prop} {Pr : KeyFrameId × MapPointId → Prop}
    {s s' : State} (h : Evolves Pc Pr s s') (hPc : ∀ m, ¬ Pc (Call.reprojectMapPoint m)) :
    s'.frame.features = s.frame.features ∧ s'.mappoints = s.mappoints := by
  have hno : ∀ m, Call.reprojectMapPoint m ∉ appended s.calls s'.calls :=
    fun m hm => hPc m (h.calls_new _ hm)
  constructor
  · have hnil : appended s.frame.features s'.frame.features = [] := by
      rw [List.eq_nil_iff_forall_not_mem]
      intro f hf
      obtain ⟨m, _, hm⟩ := h.features_new f hf
      exact hno m hm
    have := eq_append_appended h.features_prefix
    rw [hnil, List.append_nil] at this
    exact this
  · funext m
    by_contra hne
    exact hno m (h.counters m hne)

theorem pass_decompose (env : Env) (s : State) (n : Int) (s' : State)
    (h : reprojectLoaclMap env s = some (n, s')) :
    ∃ F sF loc sA G sG, PassRun env s n s' F sF loc sA G sG := by
  unfold reprojectLoaclMap at h
  simp only [] at h
  split at h
  · cases h
  · rename_i F sF hF
    split at h
    · cases h
    · rename_i loc sA hA
      split at h
      · cases h
      · rename_i G sG hG
        cases h
        have hF' := hF
        rw [fast_eq_loop] at hF'
        have fi := fastLoop_inv env _ 0 _ (F, sF) hF'
        have h0 : cellPts sF = [] := by
          rw [cellPts_eq_of_cells _ _ fi.cells_eq]
          exact cellPts_resetGrid env s
        exact ⟨F, sF, loc, sA, G, sG, hF, fi, hA, assemble_inv env _ _ sF h0 (loc, sA) hA, hG,
          gridScan_inv env _ _ 0 _ (G, sG) hG, rfl, rfl⟩

theorem eq_some_of_fst {α β : Type} (o : Option (α × β)) (a : α)
    (h : o.map Prod.fst = some a) : ∃ b, o = some (a, b) := by
  cases o with
  | none => simp at h
  | some p =>
    obtain ⟨x, y⟩ := p
    simp only [Option.map_some', Option.some.injEq] at h
    exact ⟨y, by rw [← h]⟩

/-- C5. The integer returned by a pass is the number of features appended to the current frame
during the pass, and it is not negative. -/
theorem reprojectLoaclMap_count (env : Env) (s : State) (n : Int) (s' : State)
    (h : reprojectLoaclMap env s = some (n, s')) :
    0 ≤ n ∧ ∃ new, s'.frame.features = s.frame.features ++ new ∧ (new.length : Int) = n := by
  obtain ⟨F, sF, loc, sA, G, sG, run⟩ := pass_decompose env s n s' h
  have hA := run.assemble.evolves.no_attempt (by rintro m ⟨x, hx, _⟩; cases hx)
  have h1 := run.fast.count_eq
  have h2 := run.scan.count_eq
  have h3 := run.fast.count_le
  have h4 := run.scan.count_le
  have h5 := run.count_eq
  have hp : s.frame.features <+: s'.frame.features := by
    rw [run.state_eq]
    have p1 : (resetGrid env s).frame.features <+: sF.frame.features :=
      run.fast.evolves.features_prefix
    have p2 : sF.frame.features <+: sA.frame.features := run.assemble.evolves.features_prefix
    have p3 : sA.frame.features <+: sG.frame.features := run.scan.evolves.features_prefix
    exact (p1.trans p2).trans p3
  obtain ⟨new, hnew⟩ := hp
  refine ⟨by omega, new, hnew.symm, ?_⟩
  have hl : s'.frame.features.length = sG.frame.features.length := by rw [run.state_eq]
  have hl2 : (resetGrid env s).frame.features.length = s.frame.features.length := rfl
  have hl3 : ({ sA with total_project_ := 0 } : State).frame.features.length
      = sA.frame.features.length := rfl
  have hl4 := congrArg List.length hnew
  rw [List.length_append] at hl4
  rw [hA.1] at h2
  omega

/-- C5, witness: the example pass returns 3 and appends 3 features. -/
theorem reprojectLoaclMap_count_witness :
    match reprojectLoaclMap (exampleEnv [0, 1, 2]) (exampleState none) with
    | none => False
    | some (n, s') => n = 3 ∧ 0 ≤ n ∧
      ∃ new, s'.frame.features = (exampleState none).frame.features ++ new ∧
        (new.length : Int) = n := by
  have h : (reprojectLoaclMap (exampleEnv [0, 1, 2]) (exampleState none)).map Prod.fst
      = some 3 := by decide!
  obtain ⟨s', hs'⟩ := eq_some_of_fst _ _ h
  rw [hs']
  exact ⟨rfl, reprojectLoaclMap_count _ _ 3 s' hs'⟩

theorem inView_resetGrid (env : Env) (s : State) (m : MapPointId) :
    inView env (resetGrid env s) m ↔ inView env s m := Iff.rfl

theorem PassRun.calls_prefix_fast {env : Env} {s : State} {n : Int} {s' : State} {F : Int}
    {sF : State} {loc : List MapPointId} {sA : State} {G : Int} {sG : State}
    (run : PassRun env s n s' F sF loc sA G sG) : s.calls <+: sF.calls :=
  run.fast.evolves.calls_prefix

theorem PassRun.calls_prefix_rest {env : Env} {s : State} {n : Int} {s' : State} {F : Int}
    {sF : State} {loc : List MapPointId} {sA : State} {G : Int} {sG : State}
    (run : PassRun env s n s' F sF loc sA G sG) : sF.calls <+: s'.calls := by
  rw [run.state_eq]
  exact run.assemble.evolves.calls_prefix.trans run.scan.evolves.calls_prefix

theorem PassRun.calls_split {env : Env} {s : State} {n : Int} {s' : State} {F : Int}
    {sF : State} {loc : List MapPointId} {sA : State} {G : Int} {sG : State}
    (run : PassRun env s n s' F sF loc sA G sG) :
    appended s.calls s'.calls = appended s.calls sF.calls ++ appended sF.calls s'.calls ∧
    appended sF.calls s'.calls = appended sF.calls sA.calls ++ appended sA.calls s'.calls := by
  constructor
  · exact appended_trans run.calls_prefix_fast run.calls_prefix_rest
  · rw [run.state_eq]
    exact appended_trans run.assemble.evolves.calls_prefix run.scan.evolves.calls_prefix

theorem PassRun.calls_fast {env : Env} {s : State} {n : Int} {s' : State} {F : Int}
    {sF : State} {loc : List MapPointId} {sA : State} {G : Int} {sG : State}
    (run : PassRun env s n s' F sF loc sA G sG) (c : Call) (hc : c ∈ appended s.calls sF.calls) :
    ∃ x ∈ lastMptsSet s.frame_last, inView env s x ∧ c = Call.reprojectMapPoint x :=
  run.fast.evolves.calls_new c hc

theorem PassRun.bad_fast {env : Env} {s : State} {n : Int} {s' : State} {F : Int}
    {sF : State} {loc : List MapPointId} {sA : State} {G : Int} {sG : State}
    (run : PassRun env s n s' F sF loc sA G sG) (x : MapPointId) :
    (sF.mappoints x).bad = (s.mappoints x).bad :=
  run.fast.evolves.bad_eq x

theorem PassRun.calls_assemble {env : Env} {s : State} {n : Int} {s' : State} {F : Int}
    {sF : State} {loc : List MapPointId} {sA : State} {G : Int} {sG : State}
    (run : PassRun env s n s' F sF loc sA G sG) (c : Call)
    (hc : c ∈ appended sF.calls sA.calls) :
    ∃ x, c = Call.reprojectMapPointToCell x ∧ x ∉ lastMptsSet s.frame_last ∧
      (s.mappoints x).bad = false := by
  obtain ⟨x, h1, h2, h3⟩ := run.assemble.evolves.calls_new c hc
  exact ⟨x, h1, h2, by rw [← run.bad_fast]; exact h3⟩

theorem PassRun.cellPts_final {env : Env} {s : State} {n : Int} {s' : State} {F : Int}
    {sF : State} {loc : List MapPointId} {sA : State} {G : Int} {sG : State}
    (run : PassRun env s n s' F sF loc sA G sG) : (cellPts s').Perm (cellPts sA) := by
  rw [run.state_eq]
  exact run.scan.cellPts_perm

theorem PassRun.cellPts_spec {env : Env} {s : State} {n : Int} {s' : State} {F : Int}
    {sF : State} {loc : List MapPointId} {sA : State} {G : Int} {sG : State}
    (run : PassRun env s n s' F sF loc sA G sG) (x : MapPointId) (hx : x ∈ cellPts s') :
    x ∉ lastMptsSet s.frame_last ∧ (s.mappoints x).bad = false ∧ inView env s x := by
  rw [run.cellPts_final.mem_iff] at hx
  obtain ⟨_, h2, h3, h4⟩ := run.assemble.cells_local x hx
  refine ⟨h2, by rw [← run.bad_fast]; exact h3, ?_⟩
  exact (inView_resetGrid env s x).1 ((run.fast.evolves.inView_iff env x).1 h4)

theorem PassRun.calls_scan {env : Env} {s : State} {n : Int} {s' : State} {F : Int}
    {sF : State} {loc : List MapPointId} {sA : State} {G : Int} {sG : State}
    (run : PassRun env s n s' F sF loc sA G sG) (c : Call)
    (hc : c ∈ appended sA.calls s'.calls) :
    ∃ x ∈ cellPts s', c = Call.reprojectMapPoint x := by
  rw [run.state_eq] at hc
  obtain ⟨x, h1, h2⟩ := run.scan.evolves.calls_new c hc
  exact ⟨x, run.cellPts_final.mem_iff.2 h1, h2⟩

theorem PassRun.features_fast {env : Env} {s : State} {n : Int} {s' : State} {F : Int}
    {sF : State} {loc : List MapPointId} {sA : State} {G : Int} {sG : State}
    (run : PassRun env s n s' F sF loc sA G sG) (f : Feature)
    (hf : f ∈ appended s.frame.features sF.frame.features) :
    (∃ x ∈ lastMptsSet s.frame_last, f.mpt = some x) ∧
      vectorAt s'.grid_.occupied (s'.grid_.cellIndex f.px) = some true := by
  obtain ⟨h1, h2⟩ := run.fast.features_new f hf
  refine ⟨h1, ?_⟩
  have ho : s'.grid_.occupied = sF.grid_.occupied := by
    rw [run.state_eq]
    exact run.scan.occupied_eq.trans run.assemble.occupied_eq
  have hc : s'.grid_.cellIndex f.px = (resetGrid env s).grid_.cellIndex f.px := by
    rw [run.state_eq]
    refine cellIndex_congr _ _ ?_ ?_ _
    · exact run.scan.evolves.grid_size_eq.trans
        (run.assemble.evolves.grid_size_eq.trans run.fast.evolves.grid_size_eq)
    · exact run.scan.evolves.grid_n_cols_eq.trans
        (run.assemble.evolves.grid_n_cols_eq.trans run.fast.evolves.grid_n_cols_eq)
  rw [ho, hc]
  exact h2

/-- C3. A landmark matched by the fast path of a pass is a landmark of the last frame; in the
same pass it is never handed to `reprojectMapPointToCell`, it is in no cell's candidate list at
the end of the pass, and it is not handed to `reprojectMapPoint` again after the fast path. -/
theorem fast_path_precedence (env : Env) (s : State) (n : Int) (s' : State)
    (h : reprojectLoaclMap env s = some (n, s')) :
    ∃ F sF, matchMapPointsFromLastFrame env (resetGrid env s) s.frame_last = some (F, sF) ∧
      ∀ f ∈ appended s.frame.features sF.frame.features, ∃ m, f.mpt = some m ∧
        m ∈ lastMptsSet s.frame_last ∧
        Call.reprojectMapPointToCell m ∉ appended s.calls s'.calls ∧
        m ∉ cellPts s' ∧
        Call.reprojectMapPoint m ∉ appended sF.calls s'.calls := by
  obtain ⟨F, sF, loc, sA, G, sG, run⟩ := pass_decompose env s n s' h
  refine ⟨F, sF, run.fast_eq, ?_⟩
  intro f hf
  obtain ⟨⟨m, hm, hfm⟩, _⟩ := run.features_fast f hf
  refine ⟨m, hfm, hm, ?_, ?_, ?_⟩
  · intro hc
    rw [run.calls_split.1, run.calls_split.2, List.mem_append, List.mem_append] at hc
    rcases hc with hc | hc | hc
    · obtain ⟨x, _, _, hx⟩ := run.calls_fast _ hc
      cases hx
    · obtain ⟨x, hx, hnot, _⟩ := run.calls_assemble _ hc
      cases hx
      exact hnot hm
    · obtain ⟨x, _, hx⟩ := run.calls_scan _ hc
      cases hx
  · intro hc
    exact (run.cellPts_spec m hc).1 hm
  · intro hc
    rw [run.calls_split.2, List.mem_append] at hc
    rcases hc with hc | hc
    · obtain ⟨x, hx, _, _⟩ := run.calls_assemble _ hc
      cases hx
    · obtain ⟨x, hx1, hx2⟩ := run.calls_scan _ hc
      cases hx2
      exact (run.cellPts_spec m hx1).1 hm

theorem PassRun.evolves {env : Env} {s : State} {n : Int} {s' : State} {F : Int}
    {sF : State} {loc : List MapPointId} {sA : State} {G : Int} {sG : State}
    (run : PassRun env s n s' F sF loc sA G sG) :
    Evolves (PassCall env s (cellPts s'))
      (fun r => r.2 ∉ lastMptsSet s.frame_last ∧ (s.mappoints r.2).bad = true)
      (resetGrid env s) sG := by
  have e1 : Evolves (PassCall env s (cellPts s'))
      (fun r => r.2 ∉ lastMptsSet s.frame_last ∧ (s.mappoints r.2).bad = true)
      (resetGrid env s) sF :=
    run.fast.evolves.mono (fun c hc => Or.inl hc) (fun r hr => hr.elim)
  have e2 : Evolves (PassCall env s (cellPts s'))
      (fun r => r.2 ∉ lastMptsSet s.frame_last ∧ (s.mappoints r.2).bad = true) sF sA := by
    refine run.assemble.evolves.mono ?_ ?_
    · rintro c ⟨x, h1, h2, h3⟩
      exact Or.inr (Or.inl ⟨x, h1, h2, by rw [← run.bad_fast]; exact h3⟩)
    · rintro r ⟨_, _, h3, h4⟩
      exact ⟨h3, by rw [← run.bad_fast]; exact h4⟩
  have e3 : Evolves (PassCall env s (cellPts s'))
      (fun r => r.2 ∉ lastMptsSet s.frame_last ∧ (s.mappoints r.2).bad = true) sA
      { sA with total_project_ := 0 } := total_evolves _ _ _ _
  have e4 : Evolves (PassCall env s (cellPts s'))
      (fun r => r.2 ∉ lastMptsSet s.frame_last ∧ (s.mappoints r.2).bad = true)
      { sA with total_project_ := 0 } sG := by
    refine run.scan.evolves.mono ?_ (fun r hr => hr.elim)
    rintro c ⟨x, h1, h2⟩
    exact Or.inr (Or.inr ⟨x, run.cellPts_final.mem_iff.2 h1, h2⟩)
  exact ((e1.trans e2).trans e3).trans e4

theorem PassRun.attempt_inView {env : Env} {s : State} {n : Int} {s' : State} {F : Int}
    {sF : State} {loc : List MapPointId} {sA : State} {G : Int} {sG : State}
    (run : PassRun env s n s' F sF loc sA G sG) (m : MapPointId)
    (h : Call.reprojectMapPoint m ∈ appended s.calls s'.calls) : inView env s m := by
  have hc : PassCall env s (cellPts s') (Call.reprojectMapPoint m) := by
    have := run.evolves.calls_new (Call.reprojectMapPoint m)
    rw [run.state_eq] at h
    exact this h
  rcases hc with ⟨x, _, hv, hx⟩ | ⟨x, hx, _, _⟩ | ⟨x, hx1, hx2⟩
  · cases hx; exact hv
  · cases hx
  · cases hx2; exact (run.cellPts_spec m hx1).2.2

theorem gridCredits_perm (cell cell' : List Candidate) (fs : List Feature)
    (h : cell.Perm cell') : gridCredits cell fs = gridCredits cell' fs := by
  unfold gridCredits
  congr 1
  funext f
  rw [Bool.eq_iff_iff]
  simp only [List.any_eq_true, h.mem_iff]

theorem gridCredits_append (cell : List Candidate) (fs gs : List Feature) :
    gridCredits cell (fs ++ gs) = gridCredits cell fs + gridCredits cell gs :=
  List.countP_append _ _ _

theorem gridCredits_le_length (cell : List Candidate) (fs : List Feature) :
    gridCredits cell fs ≤ fs.length :=
  List.countP_le_length _

theorem gridCredits_eq_zero (cell : List Candidate) (fs : List Feature)
    (h : ∀ f ∈ fs, ∀ c ∈ cell, f.mpt ≠ some c.pt) : gridCredits cell fs = 0 := by
  unfold gridCredits
  rw [List.countP_eq_zero]
  intro f hf
  simp only [List.any_eq_true, decide_eq_true_eq, not_exists, not_and]
  exact fun c hc => h f hf c hc

theorem cells_disjoint (l : List (List Candidate)) :
    (l.flatten.map (fun c => c.pt)).Nodup → ∀ i k : Nat, i ≠ k →
    ∀ c ∈ l.getD i [], ∀ c' ∈ l.getD k [], c.pt ≠ c'.pt := by
  induction l with
  | nil =>
    intro _ i k _ c hc
    simp at hc
  | cons a l ih =>
    intro hnd i k hik c hc c' hc'
    simp only [List.flatten_cons, List.map_append] at hnd
    have hd := List.disjoint_of_nodup_append hnd
    have hmem : ∀ (j : Nat) (x : Candidate), x ∈ l.getD j [] →
        x.pt ∈ l.flatten.map (fun c => c.pt) := by
      intro j x hx
      obtain ⟨cell, h1, h2⟩ := mem_getD_of_mem _ _ _ hx
      exact List.mem_map.2 ⟨x, List.mem_flatten.2 ⟨cell, h1, h2⟩, rfl⟩
    cases i with
    | zero =>
      cases k with
      | zero => exact absurd rfl hik
      | succ k =>
        simp only [List.getD_cons_zero] at hc
        simp only [List.getD_cons_succ] at hc'
        intro heq
        exact hd (List.mem_map.2 ⟨c, hc, rfl⟩) (heq ▸ hmem k c' hc')
    | succ i =>
      cases k with
      | zero =>
        simp only [List.getD_cons_zero] at hc'
        simp only [List.getD_cons_succ] at hc
        intro heq
        exact hd (List.mem_map.2 ⟨c', hc', rfl⟩) (heq ▸ hmem i c hc)
      | succ k =>
        simp only [List.getD_cons_succ] at hc hc'
        exact ih (List.Nodup.of_append_right hnd) i k (fun h => hik (by rw [h])) c hc c' hc'

theorem vectorAt_natCast {α : Type} (v : List α) (k : Nat) : vectorAt v (k : Int) = v[k]? := by
  simp [vectorAt]

theorem matchCell_credits (env : Env) (s : State) (index k : Nat) (hnd : (cellPts s).Nodup) :
    ∃ fs, (matchMapPointsFromCell env s index).2.frame.features = s.frame.features ++ fs ∧
      gridCredits (s.grid_.cells.getD k []) fs ≤ (if k = index then 1 else 0) := by
  obtain ⟨fs, h1, h2, h3⟩ := matchCell_features env s index
  refine ⟨fs, h1, ?_⟩
  by_cases hk : k = index
  · rw [if_pos hk]
    refine (gridCredits_le_length _ _).trans ?_
    rw [h2]
    split_ifs <;> omega
  · rw [if_neg hk, Nat.le_zero]
    apply gridCredits_eq_zero
    intro f hf c hc hfc
    obtain ⟨c', hc', hfc'⟩ := h3 f hf
    rw [hfc] at hfc'
    exact cells_disjoint _ hnd k index hk c hc c' hc' (Option.some.inj hfc')

theorem gridScan_credits (env : Env) (R : Int) (order : List Nat) : ∀ (m : Int) (s : State)
    (r : Int × State), (cellPts s).Nodup → gridScan env R order m s = some r →
    ∀ k : Nat, gridCredits (s.grid_.cells.getD k []) (appended s.frame.features r.2.frame.features)
      ≤ (if s.grid_.occupied[k]? = some false then order.count k else 0) := by
  induction order with
  | nil =>
    intro m s r _ h k
    simp only [gridScan] at h
    cases h
    rw [appended_self]
    exact Nat.zero_le _
  | cons index rest ih =>
    intro m s r hnd h k
    rcases vectorAt_bool_cases s.grid_.occupied (index : Int) with hocc | hocc | hocc
    · rw [gridScan_cons_none env R index rest m s hocc] at h
      cases h
    · rw [gridScan_cons_occupied env R index rest m s hocc] at h
      refine (ih m s r hnd h k).trans ?_
      split_ifs with h1
      · exact List.count_le_count_cons _ _ _
      · exact le_refl _
    · obtain ⟨fs, f1, f2⟩ := matchCell_credits env s index k hnd
      have hocc' : s.grid_.occupied[index]? = some false := by
        rw [← vectorAt_natCast]; exact hocc
      have hbound : gridCredits (s.grid_.cells.getD k []) fs ≤
          (if s.grid_.occupied[k]? = some false then
            (if (index == k) = true then 1 else 0) else 0) := by
        refine f2.trans ?_
        by_cases hk : k = index
        · subst hk
          rw [if_pos rfl, if_pos hocc']
          simp
        · rw [if_neg hk]
          exact Nat.zero_le _
      by_cases hgt : (if (matchMapPointsFromCell env s index).1 then m + 1 else m) > R
      · rw [gridScan_cons_stop env R index rest m s hocc hgt] at h
        cases h
        simp only []
        rw [f1, appended_append]
        refine hbound.trans ?_
        rw [List.count_cons]
        split_ifs <;> omega
      · rw [gridScan_cons_go env R index rest m s hocc hgt] at h
        have hg := matchCell_grid env s index
        have hnd1 : (cellPts (matchMapPointsFromCell env s index).2).Nodup := by
          have hp : (cellPts (matchMapPointsFromCell env s index).2).Perm (cellPts s) := by
            simp only [cellPts, hg]
            exact List.Perm.map _ (flatten_set_of_perm _ _ _ (sortCell_perm _ _))
          exact hp.nodup_iff.2 hnd
        have h1 := ih _ _ r hnd1 h k
        have hpre := (gridScan_inv env R rest _ _ r h).evolves.features_prefix
        have happ : appended s.frame.features r.2.frame.features =
            fs ++ appended (matchMapPointsFromCell env s index).2.frame.features
              r.2.frame.features := by
          rw [appended_trans ⟨fs, f1.symm⟩ hpre, f1, appended_append]
        have hperm : ((matchMapPointsFromCell env s index).2.grid_.cells.getD k []).Perm
            (s.grid_.cells.getD k []) := by
          rw [hg]
          exact getD_set_perm _ _ _ _ (sortCell_perm _ _)
        have hoccs : (matchMapPointsFromCell env s index).2.grid_.occupied = s.grid_.occupied := by
          rw [hg]
        rw [gridCredits_perm _ _ _ hperm, hoccs] at h1
        rw [happ, gridCredits_append]
        rw [List.count_cons]
        split_ifs at h1 hbound ⊢ <;> omega

theorem PassRun.features_rest {env : Env} {s : State} {n : Int} {s' : State} {F : Int}
    {sF : State} {loc : List MapPointId} {sA : State} {G : Int} {sG : State}
    (run : PassRun env s n s' F sF loc sA G sG) :
    appended sF.frame.features s'.frame.features =
      appended ({ sA with total_project_ := 0 } : State).frame.features sG.frame.features := by
  have hA := run.assemble.evolves.no_attempt (by rintro m ⟨x, hx, _⟩; cases hx)
  rw [run.state_eq]
  show appended sF.frame.features sG.frame.features = appended sA.frame.features _
  rw [hA.1]

theorem PassRun.order_eq {env : Env} {s : State} {n : Int} {s' : State} {F : Int}
    {sF : State} {loc : List MapPointId} {sA : State} {G : Int} {sG : State}
    (run : PassRun env s n s' F sF loc sA G sG) :
    sA.grid_.grid_order = env.random_shuffle s.grid_.grid_order :=
  run.assemble.evolves.grid_order_eq.trans run.fast.evolves.grid_order_eq

theorem PassRun.scan_credits {env : Env} {s : State} {n : Int} {s' : State} {F : Int}
    {sF : State} {loc : List MapPointId} {sA : State} {G : Int} {sG : State}
    (run : PassRun env s n s' F sF loc sA G sG) (k : Nat) :
    gridCredits (s'.grid_.cells.getD k []) (appended sF.frame.features s'.frame.features) ≤
      (if s'.grid_.occupied[k]? = some false then
        (env.random_shuffle s.grid_.grid_order).count k else 0) := by
  have hnd : (cellPts ({ sA with total_project_ := 0 } : State)).Nodup :=
    run.assemble.cells_nodup
  have h := gridScan_credits env _ _ 0 _ (G, sG) hnd run.scan_eq k
  rw [run.features_rest, ← run.order_eq]
  have hp : (s'.grid_.cells.getD k []).Perm
      (({ sA with total_project_ := 0 } : State).grid_.cells.getD k []) := by
    rw [run.state_eq]
    exact run.scan.cells_perm k
  have ho : s'.grid_.occupied = ({ sA with total_project_ := 0 } : State).grid_.occupied := by
    rw [run.state_eq]
    exact run.scan.occupied_eq
  rw [gridCredits_perm _ _ _ hp, ho]
  exact h

/-- C2, counterexample. The last frame observes two landmarks that both project into cell 0 of
the current frame; the fast path matches both, so the pass adds two features whose matched
pixels both map to cell 0. -/
theorem fast_path_double_credit :
    (reprojectLoaclMap (exampleEnv [])
      (exampleStateDense (some (exampleFrame [exampleFeature 0, exampleFeature 1])))).map
      (fun r => (r.1, r.2.frame.features.map (fun f => r.2.grid_.cellIndex f.px)))
      = some (2, [0, 0]) := by
  decide!

/-- C2, amended. When the shuffle permutes the visit order and the order has no repetition, the
grid scan of a pass credits every cell with at most one match (a feature observing a landmark of
the cell's candidate list), and with none when a fast-path match of the pass has its pixel in
the cell; the fast path itself is not limited to one match per cell. -/
theorem grid_scan_exclusive (env : Env) (s : State) (n : Int) (s' : State)
    (hshuffle : ∀ l, (env.random_shuffle l).Perm l) (hord : s.grid_.grid_order.Nodup)
    (h : reprojectLoaclMap env s = some (n, s')) :
    ∃ F sF, matchMapPointsFromLastFrame env (resetGrid env s) s.frame_last = some (F, sF) ∧
      ∀ k : Nat,
        gridCredits (s'.grid_.cells.getD k [])
          (appended sF.frame.features s'.frame.features) ≤ 1 ∧
        ((∃ f ∈ appended s.frame.features sF.frame.features,
            s'.grid_.cellIndex f.px = (k : Int)) →
          gridCredits (s'.grid_.cells.getD k [])
            (appended sF.frame.features s'.frame.features) = 0) := by
  obtain ⟨F, sF, loc, sA, G, sG, run⟩ := pass_decompose env s n s' h
  refine ⟨F, sF, run.fast_eq, fun k => ⟨?_, ?_⟩⟩
  · refine (run.scan_credits k).trans ?_
    have hnd : (env.random_shuffle s.grid_.grid_order).Nodup :=
      (hshuffle _).nodup_iff.2 hord
    have := List.nodup_iff_count_le_one.1 hnd k
    split_ifs <;> omega
  · rintro ⟨f, hf, hfk⟩
    have h1 := (run.features_fast f hf).2
    rw [hfk, vectorAt_natCast] at h1
    have h2 := run.scan_credits k
    rw [h1] at h2
    simpa using h2

/-- C8, counterexample. Without a last frame and with one candidate, the grid scan accepts a
match from cell 0 (the pass returns 1 and the feature is credited to cell 0), and after the pass
the occupied flag of cell 0 is still false. -/
theorem grid_scan_leaves_flag :
    (reprojectLoaclMap (exampleEnv [0]) (exampleState none)).map
      (fun r => (r.1, gridCredits (r.2.grid_.cells.getD 0 []) r.2.frame.features,
        r.2.grid_.occupied[0]?))
      = some (1, 1, some false) := by
  decide!

/-- C8, amended. After a pass the occupied flags are exactly those set by the fast path: the
cell of the matched pixel of every fast-path match is flagged, every flagged cell holds the
matched pixel of a fast-path match, and a cell credited with a grid-scan match is not flagged. -/
theorem occupied_flags (env : Env) (s : State) (n : Int) (s' : State)
    (h : reprojectLoaclMap env s = some (n, s')) :
    ∃ F sF, matchMapPointsFromLastFrame env (resetGrid env s) s.frame_last = some (F, sF) ∧
      (∀ f ∈ appended s.frame.features sF.frame.features,
        vectorAt s'.grid_.occupied (s'.grid_.cellIndex f.px) = some true) ∧
      (∀ k : Nat, s'.grid_.occupied[k]? = some true →
        ∃ f ∈ appended s.frame.features sF.frame.features,
          s'.grid_.cellIndex f.px = (k : Int)) ∧
      (∀ k : Nat, 0 < gridCredits (s'.grid_.cells.getD k [])
          (appended sF.frame.features s'.frame.features) →
        s'.grid_.occupied[k]? = some false) := by
  obtain ⟨F, sF, loc, sA, G, sG, run⟩ := pass_decompose env s n s' h
  have ho : s'.grid_.occupied = sF.grid_.occupied := by
    rw [run.state_eq]
    exact run.scan.occupied_eq.trans run.assemble.occupied_eq
  have hc : ∀ px, s'.grid_.cellIndex px = (resetGrid env s).grid_.cellIndex px := by
    intro px
    rw [run.state_eq]
    refine cellIndex_congr _ _ ?_ ?_ _
    · exact run.scan.evolves.grid_size_eq.trans
        (run.assemble.evolves.grid_size_eq.trans run.fast.evolves.grid_size_eq)
    · exact run.scan.evolves.grid_n_cols_eq.trans
        (run.assemble.evolves.grid_n_cols_eq.trans run.fast.evolves.grid_n_cols_eq)
  refine ⟨F, sF, run.fast_eq, fun f hf => (run.features_fast f hf).2, ?_, ?_⟩
  · intro k hk
    rw [ho] at hk
    rcases run.fast.occupied_only k hk with h0 | ⟨f, hf, hfk⟩
    · exact absurd h0 (occupied_resetGrid env s k)
    · exact ⟨f, hf, by rw [hc]; exact hfk⟩
  · intro k hk
    have h2 := run.scan_credits k
    by_contra hne
    rw [if_neg hne] at h2
    omega

theorem reprojectMapPoint_result (env : Env) (mpt : MapPointId) (px : Vector2d) (level : Int) :
    (reprojectMapPoint env mpt px level).1 = -1 ∨ (reprojectMapPoint env mpt px level).1 = 0 ∨
      (reprojectMapPoint env mpt px level).1 = 1 := by
  unfold reprojectMapPoint
  simp only []
  split
  · exact Or.inl rfl
  · split
    · exact Or.inl rfl
    · split_ifs
      · exact Or.inr (Or.inl rfl)
      · exact Or.inr (Or.inl rfl)
      · exact Or.inr (Or.inr rfl)

theorem sortCell_sorted (mp : MapPointId → MapPoint) (cell : List Candidate) :
    (sortCell mp cell).Pairwise
      (fun a b => (mp a.pt).getFoundRatio ≥ (mp b.pt).getFoundRatio) := by
  haveI : IsTotal Candidate (fun c1 c2 => ¬ candidateBefore mp c2 c1) :=
    ⟨fun a b => by
      simp only [candidateBefore, gt_iff_lt, not_lt]
      exact le_total _ _⟩
  haveI : IsTrans Candidate (fun c1 c2 => ¬ candidateBefore mp c2 c1) :=
    ⟨fun a b c hab hbc => by
      simp only [candidateBefore, gt_iff_lt, not_lt] at hab hbc ⊢
      exact le_trans hbc hab⟩
  have h := List.sorted_insertionSort (fun c1 c2 => ¬ candidateBefore mp c2 c1) cell
  refine List.Pairwise.imp ?_ h
  intro a b hab
  simpa only [candidateBefore, gt_iff_lt, not_lt, ge_iff_le] using hab

theorem cellBody_calls (env : Env) (c : Candidate) (s : State) :
    (matchMapPointsFromCell.body env c s).2.calls = s.calls ++ [Call.reprojectMapPoint c.pt] := by
  by_cases h : (reprojectMapPoint env c.pt c.px 0).1 = 1
  · rw [cellBody_ok env c s h]; rfl
  · rw [cellBody_fail env c s h]; rfl

theorem cellBody_cam (env : Env) (c : Candidate) (s : State) :
    (matchMapPointsFromCell.body env c s).2.frame.cam_ = s.frame.cam_ := by
  by_cases h : (reprojectMapPoint env c.pt c.px 0).1 = 1
  · rw [cellBody_ok env c s h]; rfl
  · rw [cellBody_fail env c s h]; rfl

theorem cellLoop_all_fail (env : Env) (cands : List Candidate) : ∀ (s : State),
    (∀ c ∈ cands, (reprojectMapPoint env c.pt c.px 0).1 ≠ 1) →
    (matchMapPointsFromCell.loop env cands s).1 = false ∧
    (matchMapPointsFromCell.loop env cands s).2.calls =
      s.calls ++ cands.map (fun c => Call.reprojectMapPoint c.pt) ∧
    (matchMapPointsFromCell.loop env cands s).2.frame.features = s.frame.features := by
  induction cands with
  | nil => intro s _; simp [matchMapPointsFromCell.loop]
  | cons c rest ih =>
    intro s hall
    have hc := hall c (List.mem_cons_self _ _)
    have hb := cellBody_fail env c s hc
    have hb1 : (matchMapPointsFromCell.body env c s).1 = false := by rw [hb]
    rw [cellLoop_cons_false env c rest s hb1]
    obtain ⟨h1, h2, h3⟩ := ih (matchMapPointsFromCell.body env c s).2
      (fun c' hc' => hall c' (List.mem_cons_of_mem _ hc'))
    refine ⟨h1, ?_, ?_⟩
    · rw [h2, cellBody_calls]
      simp
    · rw [h3, hb]; rfl

theorem cellLoop_first_ok (env : Env) (pre : List Candidate) (c : Candidate)
    (post : List Candidate) : ∀ (s : State),
    (∀ p ∈ pre, (reprojectMapPoint env p.pt p.px 0).1 ≠ 1) →
    (reprojectMapPoint env c.pt c.px 0).1 = 1 →
    (matchMapPointsFromCell.loop env (pre ++ c :: post) s).1 = true ∧
    (matchMapPointsFromCell.loop env (pre ++ c :: post) s).2.calls =
      s.calls ++ (pre ++ [c]).map (fun c => Call.reprojectMapPoint c.pt) ∧
    (matchMapPointsFromCell.loop env (pre ++ c :: post) s).2.frame.features =
      s.frame.features ++ [Feature.create (reprojectMapPoint env c.pt c.px 0).2.1
        (s.frame.cam_.lift (reprojectMapPoint env c.pt c.px 0).2.1)
        (reprojectMapPoint env c.pt c.px 0).2.2 (some c.pt)] := by
  induction pre with
  | nil =>
    intro s _ hc
    have hb := cellBody_ok env c s hc
    have hb1 : (matchMapPointsFromCell.body env c s).1 = true := by rw [hb]
    rw [List.nil_append, cellLoop_cons_true env c post s hb1]
    refine ⟨rfl, ?_, ?_⟩
    · simp only []
      rw [cellBody_calls]
      rfl
    · simp only []
      rw [hb]
      rfl
  | cons p rest ih =>
    intro s hall hc
    have hp := hall p (List.mem_cons_self _ _)
    have hb := cellBody_fail env p s hp
    have hb1 : (matchMapPointsFromCell.body env p s).1 = false := by rw [hb]
    rw [List.cons_append, cellLoop_cons_false env p _ s hb1]
    obtain ⟨h1, h2, h3⟩ := ih (matchMapPointsFromCell.body env p s).2
      (fun c' hc' => hall c' (List.mem_cons_of_mem _ hc')) hc
    refine ⟨h1, ?_, ?_⟩
    · rw [h2, cellBody_calls]
      simp
    · rw [h3, cellBody_cam]
      rw [hb]
      rfl

/-- C4. `matchMapPointsFromCell` sorts the cell by non-increasing found-ratio and hands the
candidates to `reprojectMapPoint` in that order: when every attempt is rejected it returns false
after trying all of them and adds no feature; otherwise it stops at the first candidate whose
attempt returns 1, adds exactly one feature, for that candidate, and returns true. -/
theorem quality_ordering (env : Env) (s : State) (index : Nat) :
    (sortCell s.mappoints (s.grid_.cells.getD index [])).Perm (s.grid_.cells.getD index []) ∧
    (sortCell s.mappoints (s.grid_.cells.getD index [])).Pairwise
      (fun a b => (s.mappoints a.pt).getFoundRatio ≥ (s.mappoints b.pt).getFoundRatio) ∧
    ((∀ c ∈ sortCell s.mappoints (s.grid_.cells.getD index []),
        (reprojectMapPoint env c.pt c.px 0).1 ≠ 1) →
      (matchMapPointsFromCell env s index).1 = false ∧
      (matchMapPointsFromCell env s index).2.calls =
        s.calls ++ (sortCell s.mappoints (s.grid_.cells.getD index [])).map
          (fun c => Call.reprojectMapPoint c.pt) ∧
      (matchMapPointsFromCell env s index).2.frame.features = s.frame.features) ∧
    (∀ pre c post, sortCell s.mappoints (s.grid_.cells.getD index []) = pre ++ c :: post →
      (∀ p ∈ pre, (reprojectMapPoint env p.pt p.px 0).1 ≠ 1) →
      (reprojectMapPoint env c.pt c.px 0).1 = 1 →
      (matchMapPointsFromCell env s index).1 = true ∧
      (matchMapPointsFromCell env s index).2.calls =
        s.calls ++ (pre ++ [c]).map (fun c => Call.reprojectMapPoint c.pt) ∧
      (matchMapPointsFromCell env s index).2.frame.features =
        s.frame.features ++ [Feature.create (reprojectMapPoint env c.pt c.px 0).2.1
          (s.frame.cam_.lift (reprojectMapPoint env c.pt c.px 0).2.1)
          (reprojectMapPoint env c.pt c.px 0).2.2 (some c.pt)]) := by
  refine ⟨sortCell_perm _ _, sortCell_sorted _ _, ?_, ?_⟩
  · intro hall
    unfold matchMapPointsFromCell
    exact cellLoop_all_fail env _ _ hall
  · intro pre c post hsplit hall hc
    unfold matchMapPointsFromCell
    simp only []
    rw [hsplit]
    exact cellLoop_first_ok env pre c post _ hall hc

/-- C4, witness. A cell holds candidates with found-ratios 9/10, 3/10 and 6/10, sorted to
9/10, 6/10, 3/10. With an aligner that never converges the three candidates are attempted in this
order, no feature is added and the result is false. With an aligner that converges on the second
and third candidate only, the candidates with ratios 9/10 and 6/10 are attempted in this order,
the one with ratio 6/10 is accepted with one feature, and the one with ratio 3/10 is not
attempted. -/
theorem quality_ordering_witness :
    sortCell exampleStateCell.mappoints (exampleStateCell.grid_.cells.getD 0 []) =
      [⟨0, ⟨1 / 2, 1 / 2⟩⟩] ++ ⟨2, ⟨1 / 2, 1 / 2⟩⟩ :: [⟨1, ⟨1 / 2, 1 / 2⟩⟩] ∧
    (sortCell exampleStateCell.mappoints (exampleStateCell.grid_.cells.getD 0 [])).map
      (fun c => (exampleStateCell.mappoints c.pt).getFoundRatio) = [9 / 10, 6 / 10, 3 / 10] ∧
    (matchMapPointsFromCell (exampleEnvSelective (fun _ => false)) exampleStateCell 0).1
      = false ∧
    (matchMapPointsFromCell (exampleEnvSelective (fun _ => false)) exampleStateCell 0).2.calls
      = [Call.reprojectMapPoint 0, Call.reprojectMapPoint 2, Call.reprojectMapPoint 1] ∧
    (matchMapPointsFromCell (exampleEnvSelective (fun _ => false)) exampleStateCell
      0).2.frame.features = [] ∧
    (matchMapPointsFromCell (exampleEnvSelective (fun m => decide (m ≠ 0))) exampleStateCell
      0).1 = true ∧
    (matchMapPointsFromCell (exampleEnvSelective (fun m => decide (m ≠ 0))) exampleStateCell
      0).2.calls = [Call.reprojectMapPoint 0, Call.reprojectMapPoint 2] ∧
    (matchMapPointsFromCell (exampleEnvSelective (fun m => decide (m ≠ 0))) exampleStateCell
      0).2.frame.features.map (fun f => f.mpt) = [some 2] := by
  have hs : sortCell exampleStateCell.mappoints (exampleStateCell.grid_.cells.getD 0 []) =
      [⟨0, ⟨1 / 2, 1 / 2⟩⟩] ++ ⟨2, ⟨1 / 2, 1 / 2⟩⟩ :: [⟨1, ⟨1 / 2, 1 / 2⟩⟩] := by decide!
  have h := (quality_ordering (exampleEnvSelective (fun m => decide (m ≠ 0)))
    exampleStateCell 0).2.2.2 _ _ _ hs (by decide!) (by decide!)
  have g := (quality_ordering (exampleEnvSelective (fun _ => false))
    exampleStateCell 0).2.2.1 (by decide!)
  refine ⟨hs, by decide!, g.1, ?_, g.2.2, h.1, ?_, ?_⟩
  · rw [g.2.1, hs]; rfl
  · rw [h.2.1]; rfl
  · rw [h.2.2]; rfl

theorem increaseVisible_counters (s : State) (m : MapPointId) (n k : Int) (c : Call) :
    (((({ s with total_project_ := n } : State).record c).increaseVisible m k).mappoints
      m).n_visible = (s.mappoints m).n_visible + k ∧
    (((({ s with total_project_ := n } : State).record c).increaseVisible m k).mappoints
      m).n_found = (s.mappoints m).n_found := by
  simp [State.increaseVisible, State.record, MapPoint.increaseVisible]

/-- C6, counterexample. A landmark without close-view observation is handed to
`reprojectMapPoint`, which returns -1; the attempt is rejected and the landmark's visibility
counter is unchanged, in the grid scan and in the fast path. -/
theorem rejection_without_visibility :
    (reprojectMapPoint exampleEnvNoView 0 ⟨1 / 2, 1 / 2⟩ 0).1 = -1 ∧
    ((matchMapPointsFromCell.body exampleEnvNoView ⟨0, ⟨1 / 2, 1 / 2⟩⟩
      (exampleState none)).2.mappoints 0).n_visible
      = ((exampleState none).mappoints 0).n_visible ∧
    (matchMapPointsFromCell.body exampleEnvNoView ⟨0, ⟨1 / 2, 1 / 2⟩⟩
      (exampleState none)).2.calls = [Call.reprojectMapPoint 0] ∧
    (matchMapPointsFromLastFrame.body exampleEnvNoView 0 0 (exampleState none)).map
      (fun r => (r.2.calls, (r.2.mappoints 0).n_visible))
      = some ([Call.reprojectMapPoint 0], ((exampleState none).mappoints 0).n_visible) := by
  decide!

/-- C6, amended. A match attempt that ends in a rejection returns 0 or -1, leaves the found
counter of the landmark unchanged and adds the result plus one to its visibility counter: one
when `reprojectMapPoint` returns 0 (no convergence, or a score over the threshold), nothing when
it returns -1 (no close-view observation). This holds for the attempts of the grid scan and for
those of the fast path. -/
theorem rejection_counters (env : Env) (s : State) :
    (∀ c : Candidate, (reprojectMapPoint env c.pt c.px 0).1 ≠ 1 →
      ((reprojectMapPoint env c.pt c.px 0).1 = 0 ∨ (reprojectMapPoint env c.pt c.px 0).1 = -1) ∧
      (matchMapPointsFromCell.body env c s).1 = false ∧
      ((matchMapPointsFromCell.body env c s).2.mappoints c.pt).n_found
        = (s.mappoints c.pt).n_found ∧
      ((matchMapPointsFromCell.body env c s).2.mappoints c.pt).n_visible
        = (s.mappoints c.pt).n_visible
          + (if (reprojectMapPoint env c.pt c.px 0).1 = 0 then 1 else 0)) ∧
    (∀ (mpt : MapPointId) (count : Int), inView env s mpt →
      (reprojectMapPoint env mpt
        (s.frame.cam_.project (s.frame.Tcw (s.mappoints mpt).pose)) 0).1 ≠ 1 →
      ((reprojectMapPoint env mpt
        (s.frame.cam_.project (s.frame.Tcw (s.mappoints mpt).pose)) 0).1 = 0 ∨
       (reprojectMapPoint env mpt
        (s.frame.cam_.project (s.frame.Tcw (s.mappoints mpt).pose)) 0).1 = -1) ∧
      ∃ s', matchMapPointsFromLastFrame.body env mpt count s = some (count, s') ∧
        (s'.mappoints mpt).n_found = (s.mappoints mpt).n_found ∧
        (s'.mappoints mpt).n_visible = (s.mappoints mpt).n_visible
          + (if (reprojectMapPoint env mpt
              (s.frame.cam_.project (s.frame.Tcw (s.mappoints mpt).pose)) 0).1 = 0
            then 1 else 0)) := by
  constructor
  · intro c hc
    have hres : (reprojectMapPoint env c.pt c.px 0).1 = 0 ∨
        (reprojectMapPoint env c.pt c.px 0).1 = -1 := by
      rcases reprojectMapPoint_result env c.pt c.px 0 with h | h | h
      · exact Or.inr h
      · exact Or.inl h
      · exact absurd h hc
    rw [cellBody_fail env c s hc]
    refine ⟨hres, rfl, (increaseVisible_counters s c.pt _ _ _).2, ?_⟩
    rw [(increaseVisible_counters s c.pt _ _ _).1]
    rcases hres with h | h <;> rw [h] <;> simp
  · intro mpt count hv hc
    have hres : (reprojectMapPoint env mpt
        (s.frame.cam_.project (s.frame.Tcw (s.mappoints mpt).pose)) 0).1 = 0 ∨
        (reprojectMapPoint env mpt
        (s.frame.cam_.project (s.frame.Tcw (s.mappoints mpt).pose)) 0).1 = -1 := by
      rcases reprojectMapPoint_result env mpt
        (s.frame.cam_.project (s.frame.Tcw (s.mappoints mpt).pose)) 0 with h | h | h
      · exact Or.inr h
      · exact Or.inl h
      · exact absurd h hc
    refine ⟨hres, _, fastBody_fail env mpt count s hv hc,
      (increaseVisible_counters s mpt _ _ _).2, ?_⟩
    rw [(increaseVisible_counters s mpt _ _ _).1]
    rcases hres with h | h <;> rw [h] <;> simp

/-- C6, witness. With an aligner that never converges the result is 0 and the visibility counter
of the landmark grows by one, in the grid scan and in the fast path. -/
theorem rejection_counters_witness :
    (reprojectMapPoint (exampleEnvSelective (fun _ => false)) 0 ⟨1 / 2, 1 / 2⟩ 0).1 ≠ 1 ∧
    inView (exampleEnvSelective (fun _ => false)) (exampleState none) 0 ∧
    ((matchMapPointsFromCell.body (exampleEnvSelective (fun _ => false))
      ⟨0, ⟨1 / 2, 1 / 2⟩⟩ (exampleState none)).2.mappoints 0).n_visible = 1 + 1 ∧
    ∃ s', matchMapPointsFromLastFrame.body (exampleEnvSelective (fun _ => false)) 0 0
        (exampleState none) = some (0, s') ∧
      (s'.mappoints 0).n_found = 1 ∧ (s'.mappoints 0).n_visible = 1 + 1 := by
  have h1 : (reprojectMapPoint (exampleEnvSelective (fun _ => false)) 0
      ⟨1 / 2, 1 / 2⟩ 0).1 ≠ 1 := by decide!
  have hv : inView (exampleEnvSelective (fun _ => false)) (exampleState none) 0 :=
    ⟨by decide!, by decide!⟩
  have h := rejection_counters (exampleEnvSelective (fun _ => false)) (exampleState none)
  have h2 := (h.1 ⟨0, ⟨1 / 2, 1 / 2⟩⟩ h1).2.2.2
  obtain ⟨_, s', h3, h4, h5⟩ := h.2 0 0 hv (by decide!)
  refine ⟨h1, hv, ?_, s', h3, h4, ?_⟩
  · rw [h2]; decide!
  · rw [h5]; decide!

theorem Evolves.no_removal {Pc : Call → Prop} {Pr : KeyFrameId × MapPointId → Prop}
    {s s' : State} (h : Evolves Pc Pr s s') (hPr : ∀ r, ¬ Pr r) :
    s'.removeMapPoint_calls = s.removeMapPoint_calls := by
  have hnil : appended s.removeMapPoint_calls s'.removeMapPoint_calls = [] := by
    rw [List.eq_nil_iff_forall_not_mem]
    intro r hr
    exact hPr r (h.removals_new r hr)
  have := eq_append_appended h.removals_prefix
  rw [hnil, List.append_nil] at this
  exact this

theorem toCell_frame (env : Env) (s : State) (point : MapPointId) (r : Bool × State)
    (h : reprojectMapPointToCell env s point = some r) :
    r.2.removeMapPoint_calls = s.removeMapPoint_calls ∧ r.2.mappoints = s.mappoints := by
  have e := toCell_evolves env (fun c => ∃ x, c = Call.reprojectMapPointToCell x)
    (fun _ => False) s point r ⟨point, rfl⟩ h
  exact ⟨e.no_removal (fun _ hr => hr), (e.no_attempt (by rintro m ⟨x, hx⟩; cases hx)).2⟩

theorem assembleBody_removals (env : Env) (L : List MapPointId) (kf : KeyFrameId)
    (m x : MapPointId) (loc : List MapPointId) (s : State) (r : List MapPointId × State)
    (hbad : (s.mappoints m).bad = true) (hL : m ∉ L)
    (h : assembleLocalMap.body env L kf x loc s = some r) :
    (r.2.mappoints m).bad = true ∧
    (∃ new, r.2.removeMapPoint_calls = s.removeMapPoint_calls ++ new ∧
      removalsOf m new = (if x = m ∧ m ∉ loc then [(kf, m)] else [])) ∧
    (m ∈ r.1 ↔ m ∈ loc ∨ x = m) := by
  rcases assembleBody_cases env L kf x loc s r h with
    ⟨h0, h1, h2⟩ | ⟨h1, h2, h3, h4, h5⟩ | ⟨h1, h2, h3, h4, b, h5⟩
  · rw [h1, h2]
    refine ⟨hbad, ⟨[], by simp, ?_⟩, ?_⟩
    · by_cases hx : x = m
      · subst hx
        have : x ∈ loc := h0.resolve_right hL
        simp [removalsOf, this]
      · simp [removalsOf, hx]
    · constructor
      · exact Or.inl
      · rintro (hm | hm)
        · exact hm
        · subst hm
          exact h0.resolve_right hL
  · rw [h4, h5]
    refine ⟨hbad, ⟨[(kf, x)], rfl, ?_⟩, ?_⟩
    · by_cases hx : x = m
      · subst hx
        simp [removalsOf, h1]
      · simp [removalsOf, hx]
    · rw [List.mem_cons]
      constructor
      · rintro (hm | hm)
        · exact Or.inr hm.symm
        · exact Or.inl hm
      · rintro (hm | hm)
        · exact Or.inr hm
        · exact Or.inl hm.symm
  · obtain ⟨f1, f2⟩ := toCell_frame env s x (b, r.2) h5
    have hx : x ≠ m := by
      rintro rfl
      rw [hbad] at h3
      cases h3
    rw [h4]
    refine ⟨by rw [f2]; exact hbad, ⟨[], by rw [f1]; simp, by simp [removalsOf, hx]⟩, ?_⟩
    rw [List.mem_cons]
    constructor
    · rintro (hm | hm)
      · exact absurd hm.symm hx
      · exact Or.inl hm
    · rintro (hm | hm)
      · exact Or.inr hm
      · exact absurd hm hx

theorem removalsOf_append (m : MapPointId) (a b : List (KeyFrameId × MapPointId)) :
    removalsOf m (a ++ b) = removalsOf m a ++ removalsOf m b :=
  List.filter_append _ _

theorem assembleInner_removals (env : Env) (L : List MapPointId) (kf : KeyFrameId)
    (m : MapPointId) (hL : m ∉ L) (mpts : List MapPointId) :
    ∀ (loc : List MapPointId) (s : State) (r : List MapPointId × State),
    (s.mappoints m).bad = true →
    assembleLocalMap.inner env L kf mpts loc s = some r →
    (r.2.mappoints m).bad = true ∧
    (∃ new, r.2.removeMapPoint_calls = s.removeMapPoint_calls ++ new ∧
      removalsOf m new = (if m ∈ mpts ∧ m ∉ loc then [(kf, m)] else [])) ∧
    (m ∈ r.1 ↔ m ∈ loc ∨ m ∈ mpts) := by
  induction mpts with
  | nil =>
    intro loc s r hbad h
    simp only [assembleLocalMap.inner] at h
    cases h
    exact ⟨hbad, ⟨[], by simp, by simp [removalsOf]⟩, by simp⟩
  | cons x rest ih =>
    intro loc s r hbad h
    simp only [assembleLocalMap.inner] at h
    split at h
    · cases h
    · rename_i r1 hr1
      obtain ⟨b1, ⟨new1, e1, f1⟩, m1⟩ := assembleBody_removals env L kf m x loc s r1 hbad hL hr1
      obtain ⟨b2, ⟨new2, e2, f2⟩, m2⟩ := ih r1.1 r1.2 r b1 h
      refine ⟨b2, ⟨new1 ++ new2, by rw [e2, e1, List.append_assoc], ?_⟩, ?_⟩
      · rw [removalsOf_append, f1, f2]
        by_cases hloc : m ∈ loc
        · have : m ∈ r1.1 := m1.2 (Or.inl hloc)
          simp [hloc, this]
        · by_cases hx : x = m
          · have : m ∈ r1.1 := m1.2 (Or.inr hx)
            simp [hloc, hx, this]
          · have : m ∉ r1.1 := fun hm => (m1.1 hm).elim hloc hx
            have hx' : ¬ m = x := fun h => hx h.symm
            simp [hloc, hx, hx', this]
      · rw [m2, m1, List.mem_cons]
        constructor
        · rintro ((hm | hm) | hm)
          · exact Or.inl hm
          · exact Or.inr (Or.inl hm.symm)
          · exact Or.inr (Or.inr hm)
        · rintro (hm | hm | hm)
          · exact Or.inl (Or.inl hm)
          · exact Or.inl (Or.inr hm.symm)
          · exact Or.inr hm

theorem assemble_removals (env : Env) (L : List MapPointId) (m : MapPointId) (hL : m ∉ L)
    (kfs : List KeyFrameId) :
    ∀ (loc : List MapPointId) (s : State) (r : List MapPointId × State),
    (s.mappoints m).bad = true →
    assembleLocalMap env L kfs loc s = some r →
    (r.2.mappoints m).bad = true ∧
    (∃ new, r.2.removeMapPoint_calls = s.removeMapPoint_calls ++ new ∧
      removalsOf m new = (if m ∈ loc then [] else expectedRemovals env L kfs m)) ∧
    (m ∈ r.1 ↔ m ∈ loc ∨ ∃ kf ∈ kfs, m ∈ env.getMapPoints kf) := by
  induction kfs with
  | nil =>
    intro loc s r hbad h
    simp only [assembleLocalMap] at h
    cases h
    exact ⟨hbad, ⟨[], by simp, by simp [removalsOf, expectedRemovals, hL]⟩, by simp⟩
  | cons kf rest ih =>
    intro loc s r hbad h
    simp only [assembleLocalMap] at h
    split at h
    · cases h
    · rename_i r1 hr1
      obtain ⟨b1, ⟨new1, e1, f1⟩, m1⟩ :=
        assembleInner_removals env L kf m hL _ loc s r1 hbad hr1
      obtain ⟨b2, ⟨new2, e2, f2⟩, m2⟩ := ih r1.1 r1.2 r b1 h
      refine ⟨b2, ⟨new1 ++ new2, by rw [e2, e1, List.append_assoc], ?_⟩, ?_⟩
      · rw [removalsOf_append, f1, f2]
        by_cases hloc : m ∈ loc
        · have : m ∈ r1.1 := m1.2 (Or.inl hloc)
          simp [hloc, this]
        · by_cases hx : m ∈ env.getMapPoints kf
          · have : m ∈ r1.1 := m1.2 (Or.inr hx)
            simp [hloc, hx, this, expectedRemovals, hL, List.find?_cons]
          · have : m ∉ r1.1 := fun hm => (m1.1 hm).elim hloc hx
            simp [hloc, hx, this, expectedRemovals, hL, List.find?_cons]
      · rw [m2, m1]
        simp only [List.mem_cons, exists_eq_or_imp]
        tauto

theorem assembleBody_covers (env : Env) (L : List MapPointId) (kf : KeyFrameId)
    (x : MapPointId) (loc : List MapPointId) (s : State) (r : List MapPointId × State)
    (h : assembleLocalMap.body env L kf x loc s = some r) :
    (∀ y ∈ loc, y ∈ r.1) ∧ (x ∉ L → x ∈ r.1) := by
  rcases assembleBody_cases env L kf x loc s r h with
    ⟨h0, h1, _⟩ | ⟨_, _, _, h4, _⟩ | ⟨_, _, _, h4, _⟩
  · rw [h1]
    exact ⟨fun y hy => hy, fun hx => h0.resolve_right hx⟩
  · rw [h4]
    exact ⟨fun y hy => List.mem_cons_of_mem _ hy, fun _ => List.mem_cons_self _ _⟩
  · rw [h4]
    exact ⟨fun y hy => List.mem_cons_of_mem _ hy, fun _ => List.mem_cons_self _ _⟩

theorem assembleInner_covers (env : Env) (L : List MapPointId) (kf : KeyFrameId)
    (mpts : List MapPointId) :
    ∀ (loc : List MapPointId) (s : State) (r : List MapPointId × State),
    assembleLocalMap.inner env L kf mpts loc s = some r →
    (∀ y ∈ loc, y ∈ r.1) ∧ (∀ x ∈ mpts, x ∉ L → x ∈ r.1) := by
  induction mpts with
  | nil =>
    intro loc s r h
    simp only [assembleLocalMap.inner] at h
    cases h
    exact ⟨fun y hy => hy, fun x hx => by cases hx⟩
  | cons x rest ih =>
    intro loc s r h
    simp only [assembleLocalMap.inner] at h
    split at h
    · cases h
    · rename_i r1 hr1
      obtain ⟨a1, a2⟩ := assembleBody_covers env L kf x loc s r1 hr1
      obtain ⟨b1, b2⟩ := ih r1.1 r1.2 r h
      refine ⟨fun y hy => b1 y (a1 y hy), ?_⟩
      intro y hy hyL
      rw [List.mem_cons] at hy
      rcases hy with hy | hy
      · subst hy; exact b1 _ (a2 hyL)
      · exact b2 y hy hyL

theorem assemble_covers (env : Env) (L : List MapPointId) (kfs : List KeyFrameId) :
    ∀ (loc : List MapPointId) (s : State) (r : List MapPointId × State),
    assembleLocalMap env L kfs loc s = some r →
    (∀ y ∈ loc, y ∈ r.1) ∧ (∀ kf ∈ kfs, ∀ x ∈ env.getMapPoints kf, x ∉ L → x ∈ r.1) := by
  induction kfs with
  | nil =>
    intro loc s r h
    simp only [assembleLocalMap] at h
    cases h
    exact ⟨fun y hy => hy, fun kf hkf => by cases hkf⟩
  | cons kf rest ih =>
    intro loc s r h
    simp only [assembleLocalMap] at h
    split at h
    · cases h
    · rename_i r1 hr1
      obtain ⟨a1, a2⟩ := assembleInner_covers env L kf _ loc s r1 hr1
      obtain ⟨b1, b2⟩ := ih r1.1 r1.2 r h
      refine ⟨fun y hy => b1 y (a1 y hy), ?_⟩
      intro k hk x hx hxL
      rw [List.mem_cons] at hk
      rcases hk with hk | hk
      · subst hk; exact b1 _ (a2 x hx hxL)
      · exact b2 k hk x hx hxL

theorem PassRun.removals_eq {env : Env} {s : State} {n : Int} {s' : State} {F : Int}
    {sF : State} {loc : List MapPointId} {sA : State} {G : Int} {sG : State}
    (run : PassRun env s n s' F sF loc sA G sG) :
    sF.removeMapPoint_calls = s.removeMapPoint_calls ∧
    s'.removeMapPoint_calls = sA.removeMapPoint_calls := by
  constructor
  · exact run.fast.evolves.no_removal (fun _ hr => hr)
  · rw [run.state_eq]
    exact run.scan.evolves.no_removal (fun _ hr => hr)

/-- C10, counterexample. The bad landmark 0 is observed by both local keyframes 0 and 1, and its
removal is requested from keyframe 0 only; and when the bad landmark 0 is also a landmark of the
last frame, its removal is not requested from the keyframe 0 that observes it. -/
theorem bad_landmark_not_removed :
    localKeyFrames exampleEnvTwoKeyFrames (exampleStateBad none).frame.refKF = [0, 1] ∧
    exampleEnvTwoKeyFrames.getMapPoints 1 = [0] ∧
    ((exampleStateBad none).mappoints 0).isBad = true ∧
    (reprojectLoaclMap exampleEnvTwoKeyFrames (exampleStateBad none)).map
      (fun r => r.2.removeMapPoint_calls) = some [(0, 0)] ∧
    localKeyFrames (exampleEnv [0]) (exampleStateBad none).frame.refKF = [0] ∧
    (exampleEnv [0]).getMapPoints 0 = [0] ∧
    (reprojectLoaclMap (exampleEnv [0])
      (exampleStateBad (some (exampleFrame [exampleFeature 0])))).map
      (fun r => r.2.removeMapPoint_calls) = some [] := by
  decide!

/-- C10, amended. A landmark flagged bad is never handed to `reprojectMapPointToCell` and is in
no cell; the pass leaves its bad flag and position alone; its removal is requested once, from
the first local keyframe (in iteration order) that observes it, unless it is a landmark of the
last frame, in which case no removal is requested; and the scan goes on: every landmark of a
local keyframe that is not bad and not a landmark of the last frame is handed to
`reprojectMapPointToCell`. -/
theorem bad_landmark_handling (env : Env) (s : State) (n : Int) (s' : State) (m : MapPointId)
    (hbad : (s.mappoints m).bad = true) (h : reprojectLoaclMap env s = some (n, s')) :
    Call.reprojectMapPointToCell m ∉ appended s.calls s'.calls ∧
    m ∉ cellPts s' ∧
    (s'.mappoints m).bad = true ∧
    (s'.mappoints m).pose = (s.mappoints m).pose ∧
    removalsOf m (appended s.removeMapPoint_calls s'.removeMapPoint_calls) =
      expectedRemovals env (lastMptsSet s.frame_last) (localKeyFrames env s.frame.refKF) m ∧
    (∀ kf ∈ localKeyFrames env s.frame.refKF, ∀ x ∈ env.getMapPoints kf,
      x ∉ lastMptsSet s.frame_last → (s.mappoints x).bad = false →
      Call.reprojectMapPointToCell x ∈ appended s.calls s'.calls) := by
  obtain ⟨F, sF, loc, sA, G, sG, run⟩ := pass_decompose env s n s' h
  have href : sF.frame.refKF = s.frame.refKF := run.fast.evolves.refKF_eq
  have hbadF : (sF.mappoints m).bad = true := by rw [run.bad_fast]; exact hbad
  have happ : appended s.removeMapPoint_calls s'.removeMapPoint_calls =
      appended sF.removeMapPoint_calls sA.removeMapPoint_calls := by
    rw [run.removals_eq.1, run.removals_eq.2]
  refine ⟨?_, ?_, ?_, ?_, ?_, ?_⟩
  · intro hc
    rw [run.calls_split.1, run.calls_split.2, List.mem_append, List.mem_append] at hc
    rcases hc with hc | hc | hc
    · obtain ⟨x, _, _, hx⟩ := run.calls_fast _ hc
      cases hx
    · obtain ⟨x, hx, _, hb⟩ := run.calls_assemble _ hc
      cases hx
      rw [hbad] at hb
      cases hb
    · obtain ⟨x, _, hx⟩ := run.calls_scan _ hc
      cases hx
  · intro hc
    have := (run.cellPts_spec m hc).2.1
    rw [hbad] at this
    cases this
  · rw [run.state_eq]
    exact (run.evolves.bad_eq m).trans hbad
  · rw [run.state_eq]
    exact run.evolves.pose_eq m
  · rw [happ]
    by_cases hL : m ∈ lastMptsSet s.frame_last
    · rw [expectedRemovals, if_pos hL]
      unfold removalsOf
      rw [List.filter_eq_nil_iff]
      intro r hr
      have := (run.assemble.evolves.removals_new r hr).2.2.1
      simp only [decide_eq_true_eq]
      intro hrm
      rw [hrm] at this
      exact this hL
    · obtain ⟨_, ⟨new, e1, f1⟩, _⟩ := assemble_removals env _ m hL _ [] sF (loc, sA) hbadF
        run.assemble_eq
      rw [e1, appended_append, f1, href]
      simp
  · intro kf hkf x hx hxL hxb
    have hcov := (assemble_covers env _ _ [] sF (loc, sA) run.assemble_eq).2 kf
      (by rw [href]; exact hkf) x hx hxL
    have hcall := run.assemble.local_called x hcov (by rw [run.bad_fast]; exact hxb)
    rw [run.calls_split.1, run.calls_split.2]
    exact List.mem_append_right _ (List.mem_append_left _ hcall)

/-- C10, witness. With the bad landmark 0 observed by the local keyframes 0 and 1 and no last
frame, the pass requests its removal from keyframe 0 once. -/
theorem bad_landmark_handling_witness :
    ((exampleStateBad none).mappoints 0).bad = true ∧
    expectedRemovals exampleEnvTwoKeyFrames (lastMptsSet (exampleStateBad none).frame_last)
      (localKeyFrames exampleEnvTwoKeyFrames (exampleStateBad none).frame.refKF) 0 = [(0, 0)] ∧
    match reprojectLoaclMap exampleEnvTwoKeyFrames (exampleStateBad none) with
    | none => False
    | some (_, s') =>
      Call.reprojectMapPointToCell 0 ∉ appended (exampleStateBad none).calls s'.calls ∧
      0 ∉ cellPts s' ∧
      removalsOf 0 (appended (exampleStateBad none).removeMapPoint_calls
        s'.removeMapPoint_calls) =
        expectedRemovals exampleEnvTwoKeyFrames (lastMptsSet (exampleStateBad none).frame_last)
          (localKeyFrames exampleEnvTwoKeyFrames (exampleStateBad none).frame.refKF) 0 := by
  have hb : ((exampleStateBad none).mappoints 0).bad = true := by decide!
  have h : (reprojectLoaclMap exampleEnvTwoKeyFrames (exampleStateBad none)).map Prod.fst
      = some 0 := by decide!
  obtain ⟨s', hs'⟩ := eq_some_of_fst _ _ h
  have ht := bad_landmark_handling exampleEnvTwoKeyFrames (exampleStateBad none) 0 s' 0 hb hs'
  refine ⟨hb, by decide!, ?_⟩
  rw [hs']
  exact ⟨ht.1, ht.2.1, ht.2.2.2.2.1⟩

/-- C2, witness. The last frame observed the landmarks 0 and 1 and the local keyframe observes
0, 2 and 3: the pass returns 4 and the amended claim holds for it. -/
theorem grid_scan_exclusive_witness :
    (∀ l, ((exampleEnv [0, 2, 3]).random_shuffle l).Perm l) ∧
    exampleStateTracked.grid_.grid_order.Nodup ∧
    match reprojectLoaclMap (exampleEnv [0, 2, 3]) exampleStateTracked with
    | none => False
    | some (n, s') => n = 4 ∧
      ∃ F sF, matchMapPointsFromLastFrame (exampleEnv [0, 2, 3])
          (resetGrid (exampleEnv [0, 2, 3]) exampleStateTracked)
          exampleStateTracked.frame_last = some (F, sF) ∧
        ∀ k : Nat,
          gridCredits (s'.grid_.cells.getD k [])
            (appended sF.frame.features s'.frame.features) ≤ 1 ∧
          ((∃ f ∈ appended exampleStateTracked.frame.features sF.frame.features,
              s'.grid_.cellIndex f.px = (k : Int)) →
            gridCredits (s'.grid_.cells.getD k [])
              (appended sF.frame.features s'.frame.features) = 0) := by
  have hsh : ∀ l, ((exampleEnv [0, 2, 3]).random_shuffle l).Perm l :=
    fun l => List.Perm.refl l
  have hnd : exampleStateTracked.grid_.grid_order.Nodup := by decide!
  have h : (reprojectLoaclMap (exampleEnv [0, 2, 3]) exampleStateTracked).map Prod.fst
      = some 4 := by decide!
  obtain ⟨s', hs'⟩ := eq_some_of_fst _ _ h
  refine ⟨hsh, hnd, ?_⟩
  rw [hs']
  exact ⟨rfl, grid_scan_exclusive _ _ 4 s' hsh hnd hs'⟩

/-- C3, witness. The landmark 0 is matched by the fast path and is also observed by the local
keyframe: the pass returns 4 and the claim holds for it. -/
theorem fast_path_precedence_witness :
    match reprojectLoaclMap (exampleEnv [0, 2, 3]) exampleStateTracked with
    | none => False
    | some (n, s') => n = 4 ∧
      ∃ F sF, matchMapPointsFromLastFrame (exampleEnv [0, 2, 3])
          (resetGrid (exampleEnv [0, 2, 3]) exampleStateTracked)
          exampleStateTracked.frame_last = some (F, sF) ∧
        ∀ f ∈ appended exampleStateTracked.frame.features sF.frame.features,
          ∃ m, f.mpt = some m ∧
            m ∈ lastMptsSet exampleStateTracked.frame_last ∧
            Call.reprojectMapPointToCell m ∉ appended exampleStateTracked.calls s'.calls ∧
            m ∉ cellPts s' ∧
            Call.reprojectMapPoint m ∉ appended sF.calls s'.calls := by
  have h : (reprojectLoaclMap (exampleEnv [0, 2, 3]) exampleStateTracked).map Prod.fst
      = some 4 := by decide!
  obtain ⟨s', hs'⟩ := eq_some_of_fst _ _ h
  rw [hs']
  exact ⟨rfl, fast_path_precedence _ _ 4 s' hs'⟩

/-- C8, witness. The fast path matches the landmarks 0 and 1 and the grid scan the landmarks 2
and 3: the pass returns 4 and the amended claim holds for it. -/
theorem occupied_flags_witness :
    match reprojectLoaclMap (exampleEnv [0, 2, 3]) exampleStateTracked with
    | none => False
    | some (n, s') => n = 4 ∧
      ∃ F sF, matchMapPointsFromLastFrame (exampleEnv [0, 2, 3])
          (resetGrid (exampleEnv [0, 2, 3]) exampleStateTracked)
          exampleStateTracked.frame_last = some (F, sF) ∧
        (∀ f ∈ appended exampleStateTracked.frame.features sF.frame.features,
          vectorAt s'.grid_.occupied (s'.grid_.cellIndex f.px) = some true) ∧
        (∀ k : Nat, s'.grid_.occupied[k]? = some true →
          ∃ f ∈ appended exampleStateTracked.frame.features sF.frame.features,
            s'.grid_.cellIndex f.px = (k : Int)) ∧
        (∀ k : Nat, 0 < gridCredits (s'.grid_.cells.getD k [])
            (appended sF.frame.features s'.frame.features) →
          s'.grid_.occupied[k]? = some false) := by
  have h : (reprojectLoaclMap (exampleEnv [0, 2, 3]) exampleStateTracked).map Prod.fst
      = some 4 := by decide!
  obtain ⟨s', hs'⟩ := eq_some_of_fst _ _ h
  rw [hs']
  exact ⟨rfl, occupied_flags _ _ 4 s' hs'⟩

theorem fastBody_cells (env : Env) (mpt : MapPointId) (c : Int) (s : State) (r : Int × State)
    (h : matchMapPointsFromLastFrame.body env mpt c s = some r) :
    r.2.grid_.cells = s.grid_.cells := by
  by_cases hv : inView env s mpt
  · by_cases hres : (reprojectMapPoint env mpt
        (s.frame.cam_.project (s.frame.Tcw (s.mappoints mpt).pose)) 0).1 = 1
    · obtain ⟨f, k, _, _, _, _, _, _, _, f8⟩ := fastBody_ok env mpt c s r hv hres h
      exact f8
    · rw [fastBody_fail env mpt c s hv hres] at h
      cases h
      rfl
  · rw [fastBody_skip env mpt c s hv] at h
    cases h
    rfl

theorem assembleBody_exclusive (env : Env) (L : List MapPointId) (kf : KeyFrameId)
    (mpt : MapPointId) (loc : List MapPointId) (s : State) (r : List MapPointId × State)
    (hnd : (cellPts s).Nodup) (hloc : ∀ x ∈ cellPts s, x ∈ loc)
    (h : assembleLocalMap.body env L kf mpt loc s = some r) :
    (cellPts r.2).Nodup ∧ ∀ x ∈ cellPts r.2, x ∈ r.1 := by
  rcases assembleBody_cases env L kf mpt loc s r h with
    ⟨_, h1, h2⟩ | ⟨_, _, _, h4, h5⟩ | ⟨h1, _, _, h4, b, h5⟩
  · rw [h1, h2]; exact ⟨hnd, hloc⟩
  · rw [h4, h5]
    exact ⟨hnd, fun x hx => List.mem_cons_of_mem _ (hloc x hx)⟩
  · rw [h4]
    rcases (toCell_cells env s mpt (b, r.2) h5).2 with hc | ⟨_, hc⟩
    · rw [hc]
      exact ⟨hnd, fun x hx => List.mem_cons_of_mem _ (hloc x hx)⟩
    · refine ⟨?_, ?_⟩
      · rw [hc.nodup_iff, List.nodup_cons]
        exact ⟨fun hx => h1 (hloc mpt hx), hnd⟩
      · intro x hx
        rw [hc.mem_iff, List.mem_cons] at hx
        rcases hx with hx | hx
        · rw [hx]; exact List.mem_cons_self _ _
        · exact List.mem_cons_of_mem _ (hloc x hx)

theorem matchCell_cellPts (env : Env) (s : State) (index : Nat) :
    (cellPts (matchMapPointsFromCell env s index).2).Perm (cellPts s) := by
  simp only [cellPts, matchCell_grid env s index]
  exact List.Perm.map _ (flatten_set_of_perm _ _ _ (sortCell_perm _ _))

/-- C7. No landmark is in two cells' candidate lists at any point of a pass: the landmarks of
all candidate lists are pairwise distinct after `resetGrid` (there are none), and every step of
the pass keeps them so: a fast-path step leaves the cells alone, a step of the local-map
assembly keeps them distinct and inside `local_mpts`, a call of `reprojectMapPointToCell` adds
its landmark to at most one cell, and `matchMapPointsFromCell` only reorders a cell. Hence they
are pairwise distinct after the pass, and during the pass every landmark is handed to
`reprojectMapPointToCell` at most once. -/
theorem candidates_exclusive (env : Env) (s : State) :
    cellPts (resetGrid env s) = [] ∧
    (∀ t mpt c r, matchMapPointsFromLastFrame.body env mpt c t = some r →
      cellPts r.2 = cellPts t) ∧
    (∀ L kf mpt loc t r, (cellPts t).Nodup → (∀ x ∈ cellPts t, x ∈ loc) →
      assembleLocalMap.body env L kf mpt loc t = some r →
      (cellPts r.2).Nodup ∧ ∀ x ∈ cellPts r.2, x ∈ r.1) ∧
    (∀ t index, (cellPts (matchMapPointsFromCell env t index).2).Perm (cellPts t)) ∧
    (∀ t point r, reprojectMapPointToCell env t point = some r →
      cellPts r.2 = cellPts t ∨ (cellPts r.2).Perm (point :: cellPts t)) ∧
    (∀ n s', reprojectLoaclMap env s = some (n, s') →
      (cellPts s').Nodup ∧
      ∀ m, (appended s.calls s'.calls).count (Call.reprojectMapPointToCell m) ≤ 1) := by
  refine ⟨cellPts_resetGrid env s, ?_, ?_, matchCell_cellPts env, ?_, ?_⟩
  · intro t mpt c r hr
    exact cellPts_eq_of_cells _ _ (fastBody_cells env mpt c t r hr)
  · intro L kf mpt loc t r hnd hloc hr
    exact assembleBody_exclusive env L kf mpt loc t r hnd hloc hr
  · intro t point r hr
    rcases (toCell_cells env t point r hr).2 with h1 | ⟨_, h1⟩
    · exact Or.inl h1
    · exact Or.inr h1
  · intro n s' h
    obtain ⟨F, sF, loc, sA, G, sG, run⟩ := pass_decompose env s n s' h
    refine ⟨?_, ?_⟩
    · rw [run.cellPts_final.nodup_iff]
      exact run.assemble.cells_nodup
    · intro m
      rw [run.calls_split.1, run.calls_split.2, List.count_append, List.count_append]
      have h1 : (appended s.calls sF.calls).count (Call.reprojectMapPointToCell m) = 0 := by
        rw [List.count_eq_zero]
        intro hc
        obtain ⟨x, _, _, hx⟩ := run.calls_fast _ hc
        cases hx
      have h2 : (appended sA.calls s'.calls).count (Call.reprojectMapPointToCell m) = 0 := by
        rw [List.count_eq_zero]
        intro hc
        obtain ⟨x, _, hx⟩ := run.calls_scan _ hc
        cases hx
      have h3 := List.nodup_iff_count_le_one.1 run.assemble.calls_nodup
        (Call.reprojectMapPointToCell m)
      omega

/-- C7, witness. The landmark 2 is observed by both local keyframes of the example: the pass
returns 1, the landmark is handed to `reprojectMapPointToCell` once, and it is the only
candidate of the grid after the pass. -/
theorem candidates_exclusive_witness :
    (reprojectLoaclMap exampleEnvShared (exampleState none)).map
      (fun r => (r.1, cellPts r.2, r.2.calls.count (Call.reprojectMapPointToCell 2)))
      = some (1, [2], 1) ∧
    ∀ n s', reprojectLoaclMap exampleEnvShared (exampleState none) = some (n, s') →
      (cellPts s').Nodup ∧
      ∀ m, (appended (exampleState none).calls s'.calls).count
        (Call.reprojectMapPointToCell m) ≤ 1 :=
  ⟨by decide!, (candidates_exclusive exampleEnvShared (exampleState none)).2.2.2.2.2⟩

theorem castInt_div_range (x : ℚ) (g w : Int) (hg : 0 < g) (h0 : 0 ≤ castInt x)
    (h1 : castInt x < w) :
    0 ≤ castInt (x / (g : ℚ)) ∧ castInt (x / (g : ℚ)) < ⌈(w : ℚ) / (g : ℚ)⌉ := by
  have hgq : (0 : ℚ) < (g : ℚ) := by exact_mod_cast hg
  have hw : 0 < w := lt_of_le_of_lt h0 h1
  have hwq : (0 : ℚ) < (w : ℚ) := by exact_mod_cast hw
  have hcols : 0 < ⌈(w : ℚ) / (g : ℚ)⌉ := Int.ceil_pos.2 (div_pos hwq hgq)
  by_cases hx : 0 ≤ x
  · have hxw : x < (w : ℚ) := by
      have : ⌊x⌋ < w := by simpa [castInt, hx] using h1
      exact Int.floor_lt.1 this
    have hdiv : 0 ≤ x / (g : ℚ) := div_nonneg hx hgq.le
    simp only [castInt, if_pos hdiv]
    refine ⟨Int.floor_nonneg.2 hdiv, ?_⟩
    rw [Int.floor_lt]
    exact lt_of_lt_of_le (div_lt_div_of_pos_right hxw hgq) (Int.le_ceil _)
  · have hxneg : x < 0 := not_le.1 hx
    have hc : 0 ≤ ⌈x⌉ := by simpa [castInt, hx] using h0
    have hx1 : -1 < x := by
      have := Int.ceil_lt_add_one x
      have hc' : (0 : ℚ) ≤ (⌈x⌉ : ℚ) := by exact_mod_cast hc
      linarith
    have hdivneg : x / (g : ℚ) < 0 := div_neg_of_neg_of_pos hxneg hgq
    have hg1 : (1 : ℚ) ≤ (g : ℚ) := by exact_mod_cast hg
    have hdiv1 : -1 < x / (g : ℚ) := by
      rw [lt_div_iff₀ hgq]
      nlinarith
    have hceil : ⌈x / (g : ℚ)⌉ = 0 := by
      rw [Int.ceil_eq_iff]
      constructor
      · simpa using hdiv1
      · simpa using hdivneg.le
    simp only [castInt, if_neg (not_le.2 hdivneg), hceil]
    exact ⟨le_refl _, hcols⟩

theorem cellIndex_range (cx cy cols rows : Int) (hx0 : 0 ≤ cx) (hx1 : cx < cols) (hy0 : 0 ≤ cy)
    (hy1 : cy < rows) : 0 ≤ cy * cols + cx ∧ cy * cols + cx < rows * cols := by
  have hcols : 0 < cols := lt_of_le_of_lt hx0 hx1
  constructor
  · have := mul_nonneg hy0 hcols.le
    omega
  · have h : (cy + 1) * cols ≤ rows * cols := by
      apply mul_le_mul_of_nonneg_right _ hcols.le
      omega
    have h2 : (cy + 1) * cols = cy * cols + cols := by ring
    omega

theorem vectorAt_isSome {α : Type} (v : List α) (k : Int) (h0 : 0 ≤ k)
    (h1 : k < (v.length : Int)) : (vectorAt v k).isSome = true := by
  have hk : k.toNat < v.length := by omega
  simp [vectorAt, h0, List.getElem?_eq_getElem hk]

theorem castInt_of_nonneg (x : ℚ) (w : Int) (h0 : 0 ≤ x) (h1 : x < (w : ℚ)) :
    0 ≤ castInt x ∧ castInt x < w := by
  simp only [castInt, if_pos h0]
  exact ⟨Int.floor_nonneg.2 h0, Int.floor_lt.2 h1⟩

theorem fastLoop_budget (env : Env) (B : Int) (l : List MapPointId) : ∀ (c : Int) (s : State),
    matchMapPointsFromLastFrame.loop
      { env with options_ := { env.options_ with max_matches := B } } l c s =
    matchMapPointsFromLastFrame.loop env l c s := by
  induction l with
  | nil => intro c s; rfl
  | cons mpt rest ih =>
    intro c s
    simp only [matchMapPointsFromLastFrame.loop]
    have hb : matchMapPointsFromLastFrame.body
        { env with options_ := { env.options_ with max_matches := B } } mpt c s =
        matchMapPointsFromLastFrame.body env mpt c s := rfl
    rw [hb]
    cases matchMapPointsFromLastFrame.body env mpt c s with
    | none => rfl
    | some r => exact ih r.1 r.2

theorem fast_budget (env : Env) (B : Int) (s : State) (frame_last : Option Frame) :
    matchMapPointsFromLastFrame
      { env with options_ := { env.options_ with max_matches := B } }
      (resetGrid { env with options_ := { env.options_ with max_matches := B } } s) frame_last =
    matchMapPointsFromLastFrame env (resetGrid env s) frame_last := by
  have hr : resetGrid { env with options_ := { env.options_ with max_matches := B } } s =
      resetGrid env s := rfl
  rw [hr]
  cases frame_last with
  | none => rfl
  | some fl => exact fastLoop_budget env B fl.getMapPoints 0 _

/-- C1, counterexample. With the budget 200 set by the constructor and a last frame that observes
201 landmarks, all in view and all accepted by the aligner, the fast path alone matches 201
landmarks and the pass returns 201 matches. -/
theorem fast_path_exceeds_budget :
    (exampleEnv []).options_.max_matches = 200 ∧
    (lastMptsSet (exampleStateCrowd 201).frame_last).length = 201 ∧
    (matchMapPointsFromLastFrame (exampleEnv [])
      (resetGrid (exampleEnv []) (exampleStateCrowd 201))
      (exampleStateCrowd 201).frame_last).map Prod.fst = some 201 ∧
    (reprojectLoaclMap (exampleEnv []) (exampleStateCrowd 201)).map Prod.fst = some 201 := by
  exact ⟨by decide!, by decide!, by decide!, by decide!⟩

/-- C1, amended. The fast path is not budgeted: the number `F` of its matches and the state it
leaves are the same for every value of `options_.max_matches`, `F` is the number of features the
fast path appends, and every fast-path match counts in the total `n` of the pass, so that
`0 ≤ F ≤ n`. The budget is only handed to the grid scan, as the rest `max_matches - F`, and
`n = F + G` for the count `G` that the grid scan returns. -/
theorem fast_path_unbudgeted (env : Env) (s : State) (n : Int) (s' : State)
    (h : reprojectLoaclMap env s = some (n, s')) :
    ∃ F sF loc sA G sG,
      matchMapPointsFromLastFrame env (resetGrid env s) s.frame_last = some (F, sF) ∧
      (∀ B : Int, matchMapPointsFromLastFrame
        { env with options_ := { env.options_ with max_matches := B } }
        (resetGrid { env with options_ := { env.options_ with max_matches := B } } s)
        s.frame_last = some (F, sF)) ∧
      (sF.frame.features.length : Int) = (s.frame.features.length : Int) + F ∧
      assembleLocalMap env (lastMptsSet s.frame_last) (localKeyFrames env sF.frame.refKF) [] sF
        = some (loc, sA) ∧
      gridScan env (env.options_.max_matches - F) sA.grid_.grid_order 0
        { sA with total_project_ := 0 } = some (G, sG) ∧
      0 ≤ F ∧ 0 ≤ G ∧ F ≤ n ∧ n = F + G := by
  obtain ⟨F, sF, loc, sA, G, sG, run⟩ := pass_decompose env s n s' h
  have hG := run.scan.count_le
  have hn := run.count_eq
  have hc := run.fast.count_eq
  refine ⟨F, sF, loc, sA, G, sG, run.fast_eq, ?_, ?_, run.assemble_eq, run.scan_eq,
    run.fast.count_le, hG, by omega, hn⟩
  · intro B
    rw [fast_budget]
    exact run.fast_eq
  · have : (resetGrid env s).frame.features = s.frame.features := rfl
    rw [this] at hc
    omega

/-- C1, witness. Under the budget 200 the last frame observes 201 landmarks: the pass returns
201 matches, all of them fast-path matches. -/
theorem fast_path_unbudgeted_witness :
    (exampleEnv []).options_.max_matches = 200 ∧
    (matchMapPointsFromLastFrame (exampleEnv [])
      (resetGrid (exampleEnv []) (exampleStateCrowd 201))
      (exampleStateCrowd 201).frame_last).map Prod.fst = some 201 ∧
    (reprojectLoaclMap (exampleEnv []) (exampleStateCrowd 201)).map Prod.fst = some 201 ∧
    ∃ F sF loc sA G sG,
      matchMapPointsFromLastFrame (exampleEnv [])
        (resetGrid (exampleEnv []) (exampleStateCrowd 201))
        (exampleStateCrowd 201).frame_last = some (F, sF) ∧
      (∀ B : Int, matchMapPointsFromLastFrame
        { exampleEnv [] with options_ := { (exampleEnv []).options_ with max_matches := B } }
        (resetGrid
          { exampleEnv [] with options_ := { (exampleEnv []).options_ with max_matches := B } }
          (exampleStateCrowd 201))
        (exampleStateCrowd 201).frame_last = some (F, sF)) ∧
      (sF.frame.features.length : Int) =
        ((exampleStateCrowd 201).frame.features.length : Int) + F ∧
      assembleLocalMap (exampleEnv []) (lastMptsSet (exampleStateCrowd 201).frame_last)
        (localKeyFrames (exampleEnv []) sF.frame.refKF) [] sF = some (loc, sA) ∧
      gridScan (exampleEnv []) ((exampleEnv []).options_.max_matches - F) sA.grid_.grid_order 0
        { sA with total_project_ := 0 } = some (G, sG) ∧
      0 ≤ F ∧ 0 ≤ G ∧ F ≤ 201 ∧ (201 : Int) = F + G := by
  have h : (reprojectLoaclMap (exampleEnv []) (exampleStateCrowd 201)).map Prod.fst
      = some 201 := by decide!
  obtain ⟨s', hs'⟩ := eq_some_of_fst _ _ h
  exact ⟨by decide!, by decide!, h, fast_path_unbudgeted _ _ 201 s' hs'⟩

/-- The grid scan tests `matches_from_cell > max_matches_rest` after the increment: when the
fast path has matched 200 landmarks under the budget 200 and the local keyframe observes one
more landmark, the rest is 0, the first visited cell still yields a match, and the pass returns
201. -/
theorem gridScan_rest_zero_example :
    (exampleEnv [200]).options_.max_matches = 200 ∧
    (matchMapPointsFromLastFrame (exampleEnv [200])
      (resetGrid (exampleEnv [200]) (exampleStateCrowd 200))
      (exampleStateCrowd 200).frame_last).map Prod.fst = some 200 ∧
    (reprojectLoaclMap (exampleEnv [200]) (exampleStateCrowd 200)).map Prod.fst = some 201 := by
  exact ⟨by decide!, by decide!, by decide!⟩

theorem castInt_le_of_pos (x : ℚ) (b : Int) (hb : 1 ≤ b) (h : b ≤ castInt x) :
    0 ≤ x ∧ (b : ℚ) ≤ x := by
  have hx : 0 ≤ x := by
    by_contra hneg
    have hlt : x < 0 := not_le.1 hneg
    have hc : castInt x = ⌈x⌉ := by simp only [castInt, if_neg hneg]
    have h0 : ⌈x⌉ ≤ 0 := Int.ceil_le.2 (by simpa using hlt.le)
    omega
  refine ⟨hx, ?_⟩
  have hc : castInt x = ⌊x⌋ := by simp only [castInt, if_pos hx]
  rw [hc] at h
  exact le_trans (by exact_mod_cast h) (Int.floor_le x)

theorem castInt_lt_of_nonneg (x : ℚ) (m : Int) (hx : 0 ≤ x) (h : castInt x < m) :
    x < (m : ℚ) := by
  have hc : castInt x = ⌊x⌋ := by simp only [castInt, if_pos hx]
  rw [hc] at h
  exact Int.floor_lt.1 h

theorem isInFrame_pixel (cam : Camera) (px : Vector2d) (b : Int) (hb : 1 ≤ b)
    (h : cam.isInFrame px.cast b = true) :
    (b : ℚ) ≤ px.x ∧ px.x < (cam.width : ℚ) - (b : ℚ) ∧
    (b : ℚ) ≤ px.y ∧ px.y < (cam.height : ℚ) - (b : ℚ) := by
  simp only [Camera.isInFrame, Bool.and_eq_true, decide_eq_true_eq, Vector2d.cast] at h
  obtain ⟨⟨⟨h1, h2⟩, h3⟩, h4⟩ := h
  obtain ⟨x0, x1⟩ := castInt_le_of_pos px.x b hb h1
  obtain ⟨y0, y1⟩ := castInt_le_of_pos px.y b hb h3
  have x2 := castInt_lt_of_nonneg px.x _ x0 h2
  have y2 := castInt_lt_of_nonneg px.y _ y0 h4
  push_cast at x2 y2
  exact ⟨x1, x2, y1, y2⟩

/-- C9, counterexample. With the border 0 the landmark 0 of the edge arena has positive depth and
projects to the pixel `(-1/2, 1/2)`, left of the 4 x 2 image; `px.cast<int>()` truncates it to
`(0, 0)`, which `isInFrame` accepts. `reprojectMapPointToCell` returns true and puts the
landmark into cell 0, the fast-path step attempts and matches it, and a pass over the local
keyframe that observes it attempts it, adds its feature and raises both of its counters from
1 to 3. -/
theorem truncated_pixel_in_frame :
    (exampleEnv [0]).options_.border = 0 ∧
    (exampleStateEdge none).frame.cam_.project
      ((exampleStateEdge none).frame.Tcw ((exampleStateEdge none).mappoints 0).pose) =
      ⟨-1 / 2, 1 / 2⟩ ∧
    ¬ ((exampleStateEdge none).frame.Tcw ((exampleStateEdge none).mappoints 0).pose).z < 0 ∧
    ((exampleStateEdge none).frame.cam_.project
      ((exampleStateEdge none).frame.Tcw ((exampleStateEdge none).mappoints 0).pose)).x <
      (((exampleEnv [0]).options_.border : Int) : ℚ) ∧
    (exampleStateEdge none).frame.cam_.isInFrame
      ((exampleStateEdge none).frame.cam_.project
        ((exampleStateEdge none).frame.Tcw ((exampleStateEdge none).mappoints 0).pose)).cast
      (exampleEnv [0]).options_.border = true ∧
    (reprojectMapPointToCell (exampleEnv [0]) (exampleStateEdge none) 0).map
      (fun r => (r.1, (r.2.grid_.cells.getD 0 []).map (fun c => c.pt))) = some (true, [0]) ∧
    (matchMapPointsFromLastFrame.body (exampleEnv [0]) 0 0 (exampleStateEdge none)).map
      (fun r => (r.1, r.2.calls, r.2.frame.features.map (fun f => f.mpt),
        (r.2.mappoints 0).n_visible, (r.2.mappoints 0).n_found)) =
      some (1, [Call.reprojectMapPoint 0], [some 0], 3, 3) ∧
    (reprojectLoaclMap (exampleEnv [0]) (exampleStateEdge none)).map
      (fun r => (r.1, r.2.calls, r.2.frame.features.map (fun f => f.mpt),
        (r.2.mappoints 0).n_visible, (r.2.mappoints 0).n_found)) =
      some (1, [Call.reprojectMapPointToCell 0, Call.reprojectMapPoint 0], [some 0], 3, 3) := by
  exact ⟨by decide!, by decide!, by decide!, by decide!, by decide!, by decide!, by decide!,
    by decide!⟩

/-- C9, amended. A landmark behind the camera of the current frame, or whose projected pixel
truncated toward zero to integer coordinates (`px.cast<int>()`) is outside the frame shrunk by
the border, or, when the border is at least 1, whose projected pixel is outside the frame shrunk
by the border, is rejected geometrically: the fast-path step leaves the state untouched,
`reprojectMapPointToCell` returns false and only the trace records the call, and over a whole
pass the landmark is never handed to `reprojectMapPoint`, is in no cell, gets no feature, and
keeps its counters. -/
theorem geometric_rejection (env : Env) (s : State) (m : MapPointId)
    (hm : (s.frame.Tcw (s.mappoints m).pose).z < 0 ∨
      s.frame.cam_.isInFrame (s.frame.cam_.project (s.frame.Tcw (s.mappoints m).pose)).cast
        env.options_.border = false ∨
      (1 ≤ env.options_.border ∧
        ¬ ((env.options_.border : ℚ) ≤
            (s.frame.cam_.project (s.frame.Tcw (s.mappoints m).pose)).x ∧
          (s.frame.cam_.project (s.frame.Tcw (s.mappoints m).pose)).x <
            (s.frame.cam_.width : ℚ) - (env.options_.border : ℚ) ∧
          (env.options_.border : ℚ) ≤
            (s.frame.cam_.project (s.frame.Tcw (s.mappoints m).pose)).y ∧
          (s.frame.cam_.project (s.frame.Tcw (s.mappoints m).pose)).y <
            (s.frame.cam_.height : ℚ) - (env.options_.border : ℚ)))) :
    (∀ c, matchMapPointsFromLastFrame.body env m c s = some (c, s)) ∧
    reprojectMapPointToCell env s m =
      some (false, s.record (Call.reprojectMapPointToCell m)) ∧
    ∀ n s', reprojectLoaclMap env s = some (n, s') →
      Call.reprojectMapPoint m ∉ appended s.calls s'.calls ∧
      m ∉ cellPts s' ∧
      (∀ f ∈ appended s.frame.features s'.frame.features, f.mpt ≠ some m) ∧
      s'.mappoints m = s.mappoints m := by
  have hv : ¬ inView env s m := by
    rintro ⟨h1, h2⟩
    rcases hm with h | h | ⟨hb, h⟩
    · exact h1 h
    · rw [h] at h2; cases h2
    · exact h (isInFrame_pixel _ _ _ hb h2)
  refine ⟨fun c => fastBody_skip env m c s hv, toCell_not_inView env s m hv, ?_⟩
  intro n s' h
  obtain ⟨F, sF, loc, sA, G, sG, run⟩ := pass_decompose env s n s' h
  have hno : Call.reprojectMapPoint m ∉ appended s.calls s'.calls :=
    fun hc => hv (run.attempt_inView m hc)
  refine ⟨hno, fun hc => hv (run.cellPts_spec m hc).2.2, ?_, ?_⟩
  · intro f hf hfm
    rw [run.state_eq] at hf hno
    obtain ⟨x, hx1, hx2⟩ := run.evolves.features_new f hf
    rw [hfm] at hx1
    cases hx1
    exact hno hx2
  · by_contra hne
    rw [run.state_eq] at hne hno
    exact hno (run.evolves.counters m hne)

/-- C9, witness. The landmark 5 projects to the pixel `(5.5, 0.5)`, truncated to `(5, 0)`,
outside the 4 x 2 image of the example, and is observed by the local keyframe: it is rejected
geometrically, while the landmark 0 of the same keyframe is matched. -/
theorem geometric_rejection_witness :
    ((exampleState none).frame.cam_.isInFrame
      ((exampleState none).frame.cam_.project
        ((exampleState none).frame.Tcw ((exampleState none).mappoints 5).pose)).cast
      (exampleEnv [0, 5]).options_.border = false) ∧
    (reprojectLoaclMap (exampleEnv [0, 5]) (exampleState none)).map Prod.fst = some 1 ∧
    (∀ c, matchMapPointsFromLastFrame.body (exampleEnv [0, 5]) 5 c (exampleState none)
      = some (c, exampleState none)) ∧
    reprojectMapPointToCell (exampleEnv [0, 5]) (exampleState none) 5 =
      some (false, (exampleState none).record (Call.reprojectMapPointToCell 5)) ∧
    ∀ n s', reprojectLoaclMap (exampleEnv [0, 5]) (exampleState none) = some (n, s') →
      Call.reprojectMapPoint 5 ∉ appended (exampleState none).calls s'.calls ∧
      5 ∉ cellPts s' ∧
      (∀ f ∈ appended (exampleState none).frame.features s'.frame.features, f.mpt ≠ some 5) ∧
      s'.mappoints 5 = (exampleState none).mappoints 5 := by
  have hm : (exampleState none).frame.cam_.isInFrame
      ((exampleState none).frame.cam_.project
        ((exampleState none).frame.Tcw ((exampleState none).mappoints 5).pose)).cast
      (exampleEnv [0, 5]).options_.border = false := by decide!
  have h := geometric_rejection (exampleEnv [0, 5]) (exampleState none) 5 (Or.inr (Or.inl hm))
  exact ⟨hm, by decide!, h.1, h.2.1, h.2.2⟩

theorem wrapInt32_of_range (z : Int) (h0 : -2147483648 ≤ z) (h1 : z < 2147483648) :
    wrapInt32 z = z := by
  unfold wrapInt32
  omega

theorem Grid.init_of_fit (shuffle : List Nat → List Nat) (width height g : Int)
    (h0 : 0 ≤ ⌈(height : ℚ) / (g : ℚ)⌉ * ⌈(width : ℚ) / (g : ℚ)⌉)
    (h1 : ⌈(height : ℚ) / (g : ℚ)⌉ * ⌈(width : ℚ) / (g : ℚ)⌉ < 2 ^ 31) :
    Grid.init shuffle width height g = some
      { grid_size := g
        grid_n_cols := ⌈(width : ℚ) / (g : ℚ)⌉
        grid_n_rows := ⌈(height : ℚ) / (g : ℚ)⌉
        cells := List.replicate
          (⌈(height : ℚ) / (g : ℚ)⌉ * ⌈(width : ℚ) / (g : ℚ)⌉).toNat []
        grid_order := shuffle (List.range
          (⌈(height : ℚ) / (g : ℚ)⌉ * ⌈(width : ℚ) / (g : ℚ)⌉).toNat)
        occupied := List.replicate
          (⌈(height : ℚ) / (g : ℚ)⌉ * ⌈(width : ℚ) / (g : ℚ)⌉).toNat false } := by
  have hw := wrapInt32_of_range (⌈(height : ℚ) / (g : ℚ)⌉ * ⌈(width : ℚ) / (g : ℚ)⌉)
    (by omega) (by norm_num at h1; exact h1)
  simp only [Grid.init, hw, if_neg (not_lt.2 h0)]

theorem cellIndex_of_cast (gr : Grid) (width height : Int) (px : Vector2d)
    (hg : 0 < gr.grid_size)
    (hcols : gr.grid_n_cols = ⌈(width : ℚ) / (gr.grid_size : ℚ)⌉)
    (hrows : gr.grid_n_rows = ⌈(height : ℚ) / (gr.grid_size : ℚ)⌉)
    (hfit : gr.grid_n_rows * gr.grid_n_cols < 2 ^ 31)
    (hx0 : 0 ≤ px.cast.x) (hx1 : px.cast.x < width)
    (hy0 : 0 ≤ px.cast.y) (hy1 : px.cast.y < height) :
    gr.cellIndex px = castInt (px.y / (gr.grid_size : ℚ)) * gr.grid_n_cols +
      castInt (px.x / (gr.grid_size : ℚ)) ∧
    0 ≤ gr.cellIndex px ∧ gr.cellIndex px < gr.grid_n_rows * gr.grid_n_cols := by
  obtain ⟨a0, a1⟩ := castInt_div_range px.x gr.grid_size width hg hx0 hx1
  obtain ⟨b0, b1⟩ := castInt_div_range px.y gr.grid_size height hg hy0 hy1
  have h := cellIndex_range _ _ _ _ a0 a1 b0 b1
  rw [← hcols] at h a1
  rw [← hrows] at h b1
  have hp : 0 ≤ castInt (px.y / (gr.grid_size : ℚ)) * gr.grid_n_cols :=
    mul_nonneg b0 (le_trans a0 a1.le)
  norm_num at hfit
  have e1 : wrapInt32 (castInt (px.y / (gr.grid_size : ℚ)) * gr.grid_n_cols) =
      castInt (px.y / (gr.grid_size : ℚ)) * gr.grid_n_cols :=
    wrapInt32_of_range _ (by omega) (by omega)
  have e2 : gr.cellIndex px = castInt (px.y / (gr.grid_size : ℚ)) * gr.grid_n_cols +
      castInt (px.x / (gr.grid_size : ℚ)) := by
    simp only [Grid.cellIndex, e1]
    exact wrapInt32_of_range _ (by omega) (by omega)
  rw [e2]
  exact ⟨rfl, h⟩

theorem isInFrame_cast (cam : Camera) (obs : Vector2i) (b : Int) (hb : 0 ≤ b)
    (h : cam.isInFrame obs b = true) :
    0 ≤ obs.x ∧ obs.x < cam.width ∧ 0 ≤ obs.y ∧ obs.y < cam.height := by
  simp only [Camera.isInFrame, Bool.and_eq_true, decide_eq_true_eq] at h
  omega

theorem reprojectMapPointToCell_isSome (env : Env) (s : State) (point : MapPointId)
    (hb : 0 ≤ env.options_.border) (hg : 0 < s.grid_.grid_size)
    (hcols : s.grid_.grid_n_cols = ⌈(s.frame.cam_.width : ℚ) / (s.grid_.grid_size : ℚ)⌉)
    (hrows : s.grid_.grid_n_rows = ⌈(s.frame.cam_.height : ℚ) / (s.grid_.grid_size : ℚ)⌉)
    (hfit : s.grid_.grid_n_rows * s.grid_.grid_n_cols < 2 ^ 31)
    (ho : s.grid_.occupied.length = (s.grid_.grid_n_rows * s.grid_.grid_n_cols).toNat)
    (hc : s.grid_.cells.length = (s.grid_.grid_n_rows * s.grid_.grid_n_cols).toNat) :
    (reprojectMapPointToCell env s point).isSome = true := by
  unfold reprojectMapPointToCell
  simp only []
  split_ifs with h1 h2
  · rfl
  · rfl
  · have hin : s.frame.cam_.isInFrame
        (s.frame.cam_.project (s.frame.Tcw (s.mappoints point).pose)).cast
        env.options_.border = true := by simpa [State.record] using h2
    obtain ⟨x0, x1, y0, y1⟩ := isInFrame_cast _ _ _ hb hin
    obtain ⟨_, k0, k1⟩ := cellIndex_of_cast s.grid_ s.frame.cam_.width s.frame.cam_.height
      (s.frame.cam_.project (s.frame.Tcw (s.mappoints point).pose)) hg hcols hrows hfit
      x0 x1 y0 y1
    have kn : s.grid_.cellIndex (s.frame.cam_.project (s.frame.Tcw (s.mappoints point).pose)) <
        (((s.grid_.grid_n_rows * s.grid_.grid_n_cols).toNat : Nat) : Int) := by
      rw [Int.toNat_of_nonneg (le_trans k0 k1.le)]
      exact k1
    have hocc := vectorAt_isSome s.grid_.occupied _ k0 (by rw [ho]; exact kn)
    have hcells := vectorAt_isSome s.grid_.cells _ k0 (by rw [hc]; exact kn)
    obtain ⟨b, hb'⟩ := Option.isSome_iff_exists.1 hocc
    obtain ⟨c, hc'⟩ := Option.isSome_iff_exists.1 hcells
    simp only [State.record]
    rw [hb']
    cases b
    · simp only []
      rw [hc']
      rfl
    · rfl

/-- C11, counterexample. For a 65536 x 65536 image with grid size 1 the `int` cell count
`65536 * 65536` wraps to 0: the constructor leaves `grid_.occupied` and `grid_.cells` empty, so
the checked lookups fail for the in-frame pixel `(0.5, 0.5)` of cell index 0, and the `int` cell
index of the in-frame pixel `(65535.5, 65535.5)` wraps to -1. For a 46341 x 46341 image the `int`
cell count is negative and the constructor itself fails in `resize`. -/
theorem cellIndex_overflow :
    (Grid.init (fun l => l) 65536 65536 1).map
      (fun gr => (gr.grid_n_cols, gr.grid_n_rows, gr.occupied.length, gr.cells.length)) =
      some (65536, 65536, 0, 0) ∧
    (Grid.init (fun l => l) 65536 65536 1).map
      (fun gr => (gr.cellIndex ⟨1 / 2, 1 / 2⟩,
        vectorAt gr.occupied (gr.cellIndex ⟨1 / 2, 1 / 2⟩),
        (vectorAt gr.cells (gr.cellIndex ⟨1 / 2, 1 / 2⟩)).isSome)) =
      some (0, none, false) ∧
    (Grid.init (fun l => l) 65536 65536 1).map
      (fun gr => gr.cellIndex ⟨131071 / 2, 131071 / 2⟩) = some (-1) ∧
    (Grid.init (fun l => l) 46341 46341 1).isSome = false := by
  decide!

/-- C11, amended. For a `width` x `height` image and a grid size `g`, all positive, whose cell
count `n_rows * n_cols` is below `2^31`, with `n_cols = ⌈width / g⌉` and `n_rows = ⌈height / g⌉`:
the constructor builds the grid with `n_rows * n_cols` cells, and the cell index of a pixel
`(x, y)` with `0 ≤ x < width` and `0 ≤ y < height` is `trunc(y/g) * n_cols + trunc(x/g)` without
`int` overflow and lies in `[0, n_rows * n_cols)`; the checked lookups in `grid_.occupied` and
`grid_.cells` succeed on the constructed grid, and on any vectors of the same lengths (as the
grid has in later passes). -/
theorem cellIndex_in_bounds (shuffle : List Nat → List Nat) (width height g : Int)
    (px : Vector2d) (hw : 0 < width) (hh : 0 < height) (hg : 0 < g)
    (hx0 : 0 ≤ px.x) (hx1 : px.x < (width : ℚ)) (hy0 : 0 ≤ px.y) (hy1 : px.y < (height : ℚ))
    (hfit : ⌈(height : ℚ) / (g : ℚ)⌉ * ⌈(width : ℚ) / (g : ℚ)⌉ < 2 ^ 31) :
    ∃ gr, Grid.init shuffle width height g = some gr ∧
      gr.grid_size = g ∧
      gr.grid_n_cols = ⌈(width : ℚ) / (g : ℚ)⌉ ∧
      gr.grid_n_rows = ⌈(height : ℚ) / (g : ℚ)⌉ ∧
      0 < ⌈(width : ℚ) / (g : ℚ)⌉ ∧ 0 < ⌈(height : ℚ) / (g : ℚ)⌉ ∧
      (gr.occupied.length : Int) = ⌈(height : ℚ) / (g : ℚ)⌉ * ⌈(width : ℚ) / (g : ℚ)⌉ ∧
      (gr.cells.length : Int) = ⌈(height : ℚ) / (g : ℚ)⌉ * ⌈(width : ℚ) / (g : ℚ)⌉ ∧
      gr.cellIndex px =
        castInt (px.y / (g : ℚ)) * ⌈(width : ℚ) / (g : ℚ)⌉ + castInt (px.x / (g : ℚ)) ∧
      0 ≤ gr.cellIndex px ∧
      gr.cellIndex px < ⌈(height : ℚ) / (g : ℚ)⌉ * ⌈(width : ℚ) / (g : ℚ)⌉ ∧
      vectorAt gr.occupied (gr.cellIndex px) = some false ∧
      vectorAt gr.cells (gr.cellIndex px) = some [] ∧
      ∀ (occupied : List Bool) (cells : List (List Candidate)),
        occupied.length = gr.occupied.length →
        cells.length = gr.cells.length →
        (vectorAt occupied (gr.cellIndex px)).isSome = true ∧
        (vectorAt cells (gr.cellIndex px)).isSome = true := by
  have hgq : (0 : ℚ) < (g : ℚ) := by exact_mod_cast hg
  have hwq : (0 : ℚ) < (width : ℚ) := by exact_mod_cast hw
  have hhq : (0 : ℚ) < (height : ℚ) := by exact_mod_cast hh
  have hc0 : 0 < ⌈(width : ℚ) / (g : ℚ)⌉ := Int.ceil_pos.2 (div_pos hwq hgq)
  have hr0 : 0 < ⌈(height : ℚ) / (g : ℚ)⌉ := Int.ceil_pos.2 (div_pos hhq hgq)
  have hn0 : 0 ≤ ⌈(height : ℚ) / (g : ℚ)⌉ * ⌈(width : ℚ) / (g : ℚ)⌉ :=
    mul_nonneg hr0.le hc0.le
  obtain ⟨cx0, cx1⟩ := castInt_of_nonneg px.x width hx0 hx1
  obtain ⟨cy0, cy1⟩ := castInt_of_nonneg px.y height hy0 hy1
  refine ⟨_, Grid.init_of_fit shuffle width height g hn0 hfit, rfl, rfl, rfl, hc0, hr0, ?_, ?_, ?_⟩
  · simp only [List.length_replicate, Int.toNat_of_nonneg hn0]
  · simp only [List.length_replicate, Int.toNat_of_nonneg hn0]
  generalize hgr : ({ grid_size := g
                      grid_n_cols := ⌈(width : ℚ) / (g : ℚ)⌉
                      grid_n_rows := ⌈(height : ℚ) / (g : ℚ)⌉
                      cells := List.replicate
                        (⌈(height : ℚ) / (g : ℚ)⌉ * ⌈(width : ℚ) / (g : ℚ)⌉).toNat []
                      grid_order := shuffle (List.range
                        (⌈(height : ℚ) / (g : ℚ)⌉ * ⌈(width : ℚ) / (g : ℚ)⌉).toNat)
                      occupied := List.replicate
                        (⌈(height : ℚ) / (g : ℚ)⌉ * ⌈(width : ℚ) / (g : ℚ)⌉).toNat false } :
                        Grid) = gr
  have g1 : gr.grid_size = g := by rw [← hgr]
  have g2 : gr.grid_n_cols = ⌈(width : ℚ) / (g : ℚ)⌉ := by rw [← hgr]
  have g3 : gr.grid_n_rows = ⌈(height : ℚ) / (g : ℚ)⌉ := by rw [← hgr]
  have g4 : gr.occupied = List.replicate
      (⌈(height : ℚ) / (g : ℚ)⌉ * ⌈(width : ℚ) / (g : ℚ)⌉).toNat false := by rw [← hgr]
  have g5 : gr.cells = List.replicate
      (⌈(height : ℚ) / (g : ℚ)⌉ * ⌈(width : ℚ) / (g : ℚ)⌉).toNat [] := by rw [← hgr]
  obtain ⟨ke, k0, k1⟩ := cellIndex_of_cast gr width height px (by rw [g1]; exact hg)
    (by rw [g1, g2]) (by rw [g1, g3]) (by rw [g2, g3]; exact hfit) cx0 cx1 cy0 cy1
  rw [g1, g2] at ke
  rw [g2, g3] at k1
  have l1 : (gr.occupied.length : Int) =
      ⌈(height : ℚ) / (g : ℚ)⌉ * ⌈(width : ℚ) / (g : ℚ)⌉ := by
    rw [g4, List.length_replicate, Int.toNat_of_nonneg hn0]
  have l2 : (gr.cells.length : Int) =
      ⌈(height : ℚ) / (g : ℚ)⌉ * ⌈(width : ℚ) / (g : ℚ)⌉ := by
    rw [g5, List.length_replicate, Int.toNat_of_nonneg hn0]
  have hocc := vectorAt_isSome gr.occupied _ k0 (by rw [l1]; exact k1)
  have hcells := vectorAt_isSome gr.cells _ k0 (by rw [l2]; exact k1)
  refine ⟨ke, k0, k1, ?_, ?_, ?_⟩
  · obtain ⟨b, hb⟩ := Option.isSome_iff_exists.1 hocc
    rw [hb]
    have hmem : b ∈ gr.occupied := by
      simp only [vectorAt] at hb
      split_ifs at hb
      exact List.getElem?_mem hb
    rw [g4] at hmem
    have : b = false := List.eq_of_mem_replicate hmem
    rw [this]
  · obtain ⟨b, hb⟩ := Option.isSome_iff_exists.1 hcells
    rw [hb]
    have hmem : b ∈ gr.cells := by
      simp only [vectorAt] at hb
      split_ifs at hb
      exact List.getElem?_mem hb
    rw [g5] at hmem
    have : b = [] := List.eq_of_mem_replicate hmem
    rw [this]
  · intro occupied cells ho hc
    exact ⟨vectorAt_isSome occupied _ k0 (by rw [ho, l1]; exact k1),
      vectorAt_isSome cells _ k0 (by rw [hc, l2]; exact k1)⟩

/-- C11, witness. A 640 x 480 image with grid size 30 has 22 x 16 = 352 cells, below `2^31`, and
the pixel `(639.5, 479.5)` has the cell index `15 * 22 + 21 = 351`, the last of the 352 cells. -/
theorem cellIndex_in_bounds_witness :
    (0 : ℚ) ≤ (Vector2d.mk (1279 / 2) (959 / 2)).x ∧
    (Vector2d.mk (1279 / 2) (959 / 2)).x < ((640 : Int) : ℚ) ∧
    ⌈((480 : Int) : ℚ) / ((30 : Int) : ℚ)⌉ * ⌈((640 : Int) : ℚ) / ((30 : Int) : ℚ)⌉ = 352 ∧
    (Grid.init (fun l => l) 640 480 30).map
      (fun gr => (gr.grid_n_cols, gr.grid_n_rows, gr.occupied.length,
        gr.cellIndex ⟨1279 / 2, 959 / 2⟩)) = some (22, 16, 352, 351) ∧
    ∃ gr, Grid.init (fun l => l) 640 480 30 = some gr ∧
      0 ≤ gr.cellIndex ⟨1279 / 2, 959 / 2⟩ ∧
      gr.cellIndex ⟨1279 / 2, 959 / 2⟩ <
        ⌈((480 : Int) : ℚ) / ((30 : Int) : ℚ)⌉ * ⌈((640 : Int) : ℚ) / ((30 : Int) : ℚ)⌉ ∧
      vectorAt gr.occupied (gr.cellIndex ⟨1279 / 2, 959 / 2⟩) = some false ∧
      vectorAt gr.cells (gr.cellIndex ⟨1279 / 2, 959 / 2⟩) = some [] := by
  have hx0 : (0 : ℚ) ≤ (Vector2d.mk (1279 / 2) (959 / 2)).x := by decide!
  have hx1 : (Vector2d.mk (1279 / 2) (959 / 2)).x < ((640 : Int) : ℚ) := by decide!
  have hn : ⌈((480 : Int) : ℚ) / ((30 : Int) : ℚ)⌉ * ⌈((640 : Int) : ℚ) / ((30 : Int) : ℚ)⌉
      = 352 := by decide!
  obtain ⟨gr, h1, _, _, _, _, _, _, _, _, h2, h3, h4, h5, _⟩ :=
    cellIndex_in_bounds (fun l => l) 640 480 30 ⟨1279 / 2, 959 / 2⟩
      (by decide) (by decide) (by decide) hx0 hx1 (by decide!) (by decide!)
      (by rw [hn]; decide)
  exact ⟨hx0, hx1, hn, by decide!, gr, h1, h2, h3, h4, h5⟩

end ssvo
